import Mathlib

/-!
# Learner_Feature: key registry, vector store, embeddings and ingestion

A shallow embedding of `src/lib/apikeys.js` (class `APIKeyService`), `src/lib/vectordb.js`
(classes `InMemoryVectorStore`, `VectorDatabase`), `src/lib/embeddings.js` (class
`EmbeddingsService`) and `src/lib/dataProcessor.js` (class `DataProcessor`).

Conventions of the embedding.
* A JavaScript `Map` is an association list in insertion order.
* A `Date` (and the ISO string made from one) is its millisecond timestamp, an `Int`.
* A call of `new Date()`, `crypto.randomBytes`, `crypto.randomUUID` or of the URL parser is an
  explicit argument of the function that makes it.
* A function that can throw returns `Except JsError _`.
* The embedding provider, the page fetcher and the durable index are arguments that say how
  they answer each call.
* A loop that may not end takes the number of iterations it is allowed and returns `none` when
  that is not enough.
-/

namespace LearnerFeature

/-! ## JavaScript runtime pieces -/

/-- The exceptions the embedded code can raise. -/
inductive JsError where
  | typeError (message : String)
  | referenceError (message : String)
  | error (message : String)
  deriving DecidableEq, Repr

/-- JavaScript `Map` with keys of type `κ`: the entries in insertion order. -/
abbrev JsMap (κ α : Type) := List (κ × α)

namespace JsMap

variable {κ α : Type} [DecidableEq κ]

/-- JavaScript `Map.prototype.get`: the value under `k`, if any. -/
def get : JsMap κ α → κ → Option α
  | [], _ => none
  | (k', v) :: rest, k => if k' = k then some v else get rest k

/-- JavaScript `Map.prototype.set`: replaces the value in place when `k` is present, appends
the entry otherwise. -/
def set : JsMap κ α → κ → α → JsMap κ α
  | [], k, v => [(k, v)]
  | (k', v') :: rest, k, v => if k' = k then (k', v) :: rest else (k', v') :: set rest k v

/-- JavaScript `Map.prototype.delete`. -/
def delete (m : JsMap κ α) (k : κ) : JsMap κ α :=
  m.filter (fun e => decide (e.1 ≠ k))

/-- JavaScript `Array.from(map.values())`. -/
def values (m : JsMap κ α) : List α := m.map Prod.snd

end JsMap

/-- JavaScript `String.prototype.includes`. -/
def includes (s sub : String) : Bool :=
  s.toList.tails.any (fun t => sub.toList.isPrefixOf t)

/-- JavaScript `String.prototype.endsWith`. -/
def endsWith (s suffix : String) : Bool :=
  suffix.toList.isSuffixOf s.toList

/-- Truthiness of an optional string argument: `null`, `undefined` and `""` are falsy. -/
def truthy : Option String → Bool
  | none => false
  | some s => s ≠ ""

/-! ## `src/lib/apikeys.js`: the data model -/

/-- The `usage` object of a key record. -/
structure Usage where
  totalRequests : Nat
  requestsThisHour : Nat
  lastHourReset : Int
  explanationRequests : Nat
  chatRequests : Nat
  analyzeRequests : Nat
  deriving DecidableEq, Repr

/-- The `metadata` object of a key record. A field is `none` when the object does not have it
(reading it gives `undefined`): `updateAPIKey` assigns whatever object the patch carries,
`updateAllowedDomains` whatever argument it is given. -/
structure KeyMetadata where
  allowedDomains : Option (List String)
  maxRequestsPerDay : Option Nat := none
  dataNamespace : Option String := none
  maxVectors : Option Nat := none
  maxScrapedPages : Option Nat := none
  deriving DecidableEq, Repr

/-- A key record, the union of the objects built by `generateKey` and `createAPIKey`
(a field only one of them writes is `none` in records of the other). -/
structure KeyData where
  id : String
  key : String
  name : Option String
  description : Option String
  projectId : Option String
  projectName : Option String
  projectUrl : Option String
  userId : String
  features : List String
  rateLimit : Int
  createdAt : Int
  updatedAt : Option Int
  lastUsed : Option Int
  isActive : Bool
  usage : Usage
  metadata : KeyMetadata
  deriving DecidableEq, Repr

/-- One entry of a key's usage log (`usageRecord` in `recordUsage`): `extra` is the caller's
metadata object, over which `projectId` and `feature` are written. -/
structure UsageRecord where
  timestamp : Int
  endpoint : String
  extra : List (String × String)
  projectId : Option String
  feature : String
  deriving DecidableEq, Repr

/-- The three maps of an `APIKeyService` instance. -/
structure APIKeyService where
  keys : JsMap String KeyData
  usage : JsMap String (List UsageRecord)
  projects : JsMap (Option String) String
  deriving DecidableEq, Repr

/-- The state built by the constructor. -/
def APIKeyService.new : APIKeyService := ⟨[], [], []⟩

/-- What `validateAPIKey` returns. -/
inductive Validation where
  | invalid (error : String)
  | valid (keyData : KeyData)
  deriving DecidableEq, Repr

/-- The options object of `createAPIKey`; `none` is an absent field, which takes the default. -/
structure CreateOptions where
  name : Option String := none
  description : Option String := none
  userId : Option String := none
  rateLimit : Option Int := none
  features : Option (List String) := none
  deriving DecidableEq, Repr

/-- The `projectConfig` object of `generateKey`. -/
structure ProjectConfig where
  projectId : Option String
  name : Option String
  url : String
  features : Option (List String) := none
  rateLimit : Option Int := none
  userId : Option String := none
  deriving DecidableEq, Repr

/-- The field names `updateAPIKey` accepts. -/
def allowedUpdates : List String :=
  ["name", "description", "isActive", "rateLimit", "features", "metadata"]

/-- One entry of the `updates` object of `updateAPIKey`. The first six constructors are entries
for the accepted fields; `other` is an entry for any other field name. -/
inductive PatchEntry where
  | name (value : String)
  | description (value : String)
  | isActive (value : Bool)
  | rateLimit (value : Int)
  | features (value : List String)
  | metadata (value : KeyMetadata)
  | other (field : String) (value : String) (outside : field ∉ allowedUpdates)

/-- The field name of a patch entry. -/
def PatchEntry.field : PatchEntry → String
  | .name _ => "name"
  | .description _ => "description"
  | .isActive _ => "isActive"
  | .rateLimit _ => "rateLimit"
  | .features _ => "features"
  | .metadata _ => "metadata"
  | .other f _ _ => f

/-- The assignment `updatedData[key] = value` for one patch entry. -/
def PatchEntry.assign : PatchEntry → KeyData → KeyData
  | .name v, k => { k with name := some v }
  | .description v, k => { k with description := some v }
  | .isActive v, k => { k with isActive := v }
  | .rateLimit v, k => { k with rateLimit := v }
  | .features v, k => { k with features := v }
  | .metadata v, k => { k with metadata := v }
  | .other _ _ _, k => k

/-! ## `src/lib/apikeys.js`: the operations -/

namespace APIKeyService

/-- Method `generateAPIKey(prefix)`: the prefix (`"ai_assist"` when the argument is absent), an
underscore and the hex form of 32 random bytes (`randomHex`). -/
def generateAPIKey (randomHex : String) (pfx : Option String) : String :=
  pfx.getD "ai_assist" ++ "_" ++ randomHex

/-- Method `generateKey(projectConfig)`. `hostnameOf` is `new URL(_).hostname` (`none` when the URL
constructor throws), `uuid` the value of `crypto.randomUUID()`, `createdAt` and `resetAt` the
two readings of the clock. -/
def generateKey (hostnameOf : String → Option String) (s : APIKeyService) (cfg : ProjectConfig)
    (randomHex uuid : String) (createdAt resetAt : Int) :
    Except JsError (KeyData × APIKeyService) :=
  let apiKey := generateAPIKey randomHex (some "learn")
  match hostnameOf cfg.url with
  | none => .error (.typeError "Invalid URL")
  | some host =>
    let keyData : KeyData :=
      { id := uuid
        key := apiKey
        name := none
        description := none
        projectId := cfg.projectId
        projectName := cfg.name
        projectUrl := some cfg.url
        userId := cfg.userId.getD "anonymous"
        features := cfg.features.getD ["explain", "chat", "analyze"]
        rateLimit := cfg.rateLimit.getD 1000
        createdAt := createdAt
        updatedAt := none
        lastUsed := none
        isActive := true
        usage :=
          { totalRequests := 0
            requestsThisHour := 0
            lastHourReset := resetAt
            explanationRequests := 0
            chatRequests := 0
            analyzeRequests := 0 }
        metadata :=
          { allowedDomains := some [host]
            maxRequestsPerDay := some 5000
            dataNamespace := some ((cfg.projectId.getD "undefined") ++ "_data") } }
    .ok (keyData,
      { keys := s.keys.set apiKey keyData
        usage := s.usage.set apiKey []
        projects := s.projects.set cfg.projectId apiKey })

/-- Method `createAPIKey(options)`. -/
def createAPIKey (s : APIKeyService) (options : CreateOptions) (randomHex uuid : String)
    (createdAt resetAt : Int) : KeyData × APIKeyService :=
  let apiKey := generateAPIKey randomHex none
  let keyData : KeyData :=
    { id := uuid
      key := apiKey
      name := some (options.name.getD "Untitled Project")
      description := some (options.description.getD "")
      projectId := none
      projectName := none
      projectUrl := none
      userId := options.userId.getD "anonymous"
      features := options.features.getD ["scraping", "embeddings", "ai_explanations"]
      rateLimit := options.rateLimit.getD 1000
      createdAt := createdAt
      updatedAt := none
      lastUsed := none
      isActive := true
      usage :=
        { totalRequests := 0
          requestsThisHour := 0
          lastHourReset := resetAt
          explanationRequests := 0
          chatRequests := 0
          analyzeRequests := 0 }
      metadata :=
        { allowedDomains := some []
          maxVectors := some 10000
          maxScrapedPages := some 100 } }
  (keyData, { s with keys := s.keys.set apiKey keyData, usage := s.usage.set apiKey [] })

/-- The test of the `some` callback at line 120: the request's hostname equals an allowed
domain or ends with a dot followed by one. -/
def domainMatches (requestDomain : String) (allowedDomains : List String) : Bool :=
  allowedDomains.any (fun domain =>
    decide (requestDomain = domain) || endsWith requestDomain ("." ++ domain))

/-- The domain block of `validateAPIKey` (lines 116 to 126): `.ok true` when control passes on to
the rate-limit check, `.ok false` when the block returns the domain error, `.error` when it
throws: reading `.length` of a missing `allowedDomains`, or `new URL` on a string that is not a
URL. -/
def domainCheck (hostnameOf : String → Option String) (keyData : KeyData)
    (requestOrigin : Option String) : Except JsError Bool :=
  match requestOrigin with
  | none => .ok true
  | some origin =>
    if origin = "" then .ok true
    else
      match keyData.metadata.allowedDomains with
      | none => .error (.typeError "Cannot read properties of undefined (reading length)")
      | some allowedDomains =>
        if allowedDomains.length > 0 then
          match hostnameOf origin with
          | none => .error (.typeError "Invalid URL")
          | some requestDomain => .ok (domainMatches requestDomain allowedDomains)
        else .ok true

/-- The hourly reset of `validateAPIKey` (lines 129 to 136) on one record at clock reading
`now`. -/
def resetHour (keyData : KeyData) (now : Int) : KeyData :=
  let hourAgo := now - 60 * 60 * 1000
  if keyData.usage.lastHourReset < hourAgo then
    { keyData with usage := { keyData.usage with requestsThisHour := 0, lastHourReset := now } }
  else keyData

/-- Method `validateAPIKey(apiKey, requestOrigin)` at clock reading `now`: the result and the registry
after the call (the record is mutated in place by the reset). -/
def validateAPIKey (hostnameOf : String → Option String) (s : APIKeyService) (apiKey : String)
    (requestOrigin : Option String) (now : Int) : Except JsError (Validation × APIKeyService) :=
  match s.keys.get apiKey with
  | none => .ok (.invalid "Invalid API key", s)
  | some keyData =>
    if !keyData.isActive then .ok (.invalid "API key is disabled", s)
    else
      match domainCheck hostnameOf keyData requestOrigin with
      | .error e => .error e
      | .ok false => .ok (.invalid "Domain not authorized for this API key", s)
      | .ok true =>
        let keyData := resetHour keyData now
        let s := { s with keys := s.keys.set apiKey keyData }
        if (keyData.usage.requestsThisHour : Int) ≥ keyData.rateLimit then
          .ok (.invalid "Rate limit exceeded", s)
        else .ok (.valid keyData, s)

/-- Method `extractFeatureFromEndpoint(endpoint)`. -/
def extractFeatureFromEndpoint (endpoint : String) : String :=
  if includes endpoint "explain" then "explanation"
  else if includes endpoint "chat" then "chat"
  else if includes endpoint "analyze" then "analysis"
  else "unknown"

/-- The counter updates of `recordUsage` (lines 150 to 161) on one record. -/
def bumpUsage (keyData : KeyData) (endpoint : String) (usedAt : Int) : KeyData :=
  let u := keyData.usage
  let u := { u with totalRequests := u.totalRequests + 1 }
  let u := { u with requestsThisHour := u.requestsThisHour + 1 }
  let u :=
    if includes endpoint "explain" then { u with explanationRequests := u.explanationRequests + 1 }
    else if includes endpoint "chat" then { u with chatRequests := u.chatRequests + 1 }
    else if includes endpoint "analyze" then { u with analyzeRequests := u.analyzeRequests + 1 }
    else u
  { keyData with usage := u, lastUsed := some usedAt }

/-- The log update of `recordUsage` (lines 174 to 180): push, then keep the last 1000. -/
def pushUsage (usageHistory : List UsageRecord) (usageRecord : UsageRecord) : List UsageRecord :=
  let usageHistory := usageHistory ++ [usageRecord]
  if usageHistory.length > 1000 then usageHistory.drop (usageHistory.length - 1000)
  else usageHistory

/-- Method `recordUsage(apiKey, endpoint, metadata)`; `usedAt` and `stampedAt` are its two readings of
the clock. -/
def recordUsage (s : APIKeyService) (apiKey endpoint : String) (metadata : List (String × String))
    (usedAt stampedAt : Int) : APIKeyService :=
  match s.keys.get apiKey with
  | none => s
  | some keyData =>
    let keyData := bumpUsage keyData endpoint usedAt
    let usageRecord : UsageRecord :=
      { timestamp := stampedAt
        endpoint := endpoint
        extra := metadata
        projectId := keyData.projectId
        feature := extractFeatureFromEndpoint endpoint }
    let usageHistory := pushUsage ((s.usage.get apiKey).getD []) usageRecord
    { s with usage := s.usage.set apiKey usageHistory, keys := s.keys.set apiKey keyData }

/-- Method `updateAPIKey(apiKey, userId, updates)`; `updates` lists the entries of the patch object in
the order of `Object.entries`. -/
def updateAPIKey (s : APIKeyService) (apiKey userId : String) (updates : List PatchEntry)
    (now : Int) : Option KeyData × APIKeyService :=
  match s.keys.get apiKey with
  | none => (none, s)
  | some keyData =>
    if keyData.userId ≠ userId then (none, s)
    else
      let updatedData := updates.foldl
        (fun acc e => if allowedUpdates.contains e.field then e.assign acc else acc) keyData
      let updatedData := { updatedData with updatedAt := some now }
      (some updatedData, { s with keys := s.keys.set apiKey updatedData })

/-- Method `deleteAPIKey(apiKey, userId)`. -/
def deleteAPIKey (s : APIKeyService) (apiKey userId : String) : Bool × APIKeyService :=
  match s.keys.get apiKey with
  | none => (false, s)
  | some keyData =>
    if keyData.userId ≠ userId then (false, s)
    else
      (true,
        { keys := s.keys.delete apiKey
          usage := s.usage.delete apiKey
          projects := s.projects.delete keyData.projectId })

/-- Method `updateAllowedDomains(apiKey, userId, domains)`; `domains` is `none` when the argument is
left out. -/
def updateAllowedDomains (s : APIKeyService) (apiKey userId : String)
    (domains : Option (List String)) (now : Int) : Option KeyData × APIKeyService :=
  match s.keys.get apiKey with
  | none => (none, s)
  | some keyData =>
    if keyData.userId ≠ userId then (none, s)
    else
      let keyData :=
        { keyData with
          metadata := { keyData.metadata with allowedDomains := domains }
          updatedAt := some now }
      (some keyData, { s with keys := s.keys.set apiKey keyData })

end APIKeyService

/-! ## Scenarios over the registry -/

/-- One authenticated request as the middleware makes it: a validation at clock reading
`validateAt` and, when it succeeds, a `recordUsage`. -/
structure Round where
  origin : Option String
  validateAt : Int
  endpoint : String
  metadata : List (String × String)
  usedAt : Int
  stampedAt : Int
  deriving DecidableEq, Repr

/-- Runs one round for `apiKey`: `none` unless the validation succeeds. -/
def runRound (hostnameOf : String → Option String) (s : APIKeyService) (apiKey : String)
    (r : Round) : Option APIKeyService :=
  match APIKeyService.validateAPIKey hostnameOf s apiKey r.origin r.validateAt with
  | .ok (.valid _, s1) =>
    some (APIKeyService.recordUsage s1 apiKey r.endpoint r.metadata r.usedAt r.stampedAt)
  | _ => none

/-- Runs the rounds in order: `none` as soon as one validation does not succeed. -/
def runRounds (hostnameOf : String → Option String) (apiKey : String) :
    APIKeyService → List Round → Option APIKeyService
  | s, [] => some s
  | s, r :: rs =>
    match runRound hostnameOf s apiKey r with
    | none => none
    | some s1 => runRounds hostnameOf apiKey s1 rs

/-- The result of a `validateAPIKey` call, without the registry. -/
def validationOf (r : Except JsError (Validation × APIKeyService)) : Except JsError Validation :=
  r.map Prod.fst

/-- The registry after a `validateAPIKey` call; the registry is untouched when the call
throws. -/
def registryAfter (s : APIKeyService) (r : Except JsError (Validation × APIKeyService)) :
    APIKeyService :=
  match r with
  | .ok (_, s1) => s1
  | .error _ => s

/-- Calls `validateAPIKey` for `apiKey` once per entry of the list (an origin and a clock
reading), each call on the registry left by the previous one, and collects the results. -/
def validateSeq (hostnameOf : String → Option String) (apiKey : String) :
    APIKeyService → List (Option String × Int) → List (Except JsError Validation)
  | _, [] => []
  | s, (origin, now) :: rest =>
    let r := APIKeyService.validateAPIKey hostnameOf s apiKey origin now
    validationOf r :: validateSeq hostnameOf apiKey (registryAfter s r) rest

/-- A URL parser that accepts nothing, for scenarios in which no URL is parsed. -/
def noUrls : String → Option String := fun _ => none

/-- A registry holding one key with rate limit 2, issued at clock reading 0. -/
def freshRegistry : APIKeyService :=
  (APIKeyService.createAPIKey APIKeyService.new { rateLimit := some 2 } "ab" "id-1" 0 0).2

/-- The registry `freshRegistry` after two recorded requests. -/
def usedRegistry : APIKeyService :=
  APIKeyService.recordUsage
    (APIKeyService.recordUsage freshRegistry "ai_assist_ab" "/api/chat" [] 10 10)
    "ai_assist_ab" "/api/explain" [] 20 20

/-- Two rounds within the first minute after clock reading 0. -/
def twoRounds : List Round :=
  [⟨none, 1000, "/api/chat", [], 1001, 1002⟩, ⟨none, 2000, "/api/explain", [], 2001, 2002⟩]

/-- A URL parser that knows three URLs, for scenarios with an origin. -/
def demoUrls : String → Option String := fun url =>
  if url = "https://example.com" then some "example.com"
  else if url = "https://docs.example.com" then some "docs.example.com"
  else if url = "https://evilexample.com" then some "evilexample.com"
  else none

/-- A registry holding one key issued by `generateKey` for the project at
`https://example.com`. -/
def projectRegistry : APIKeyService :=
  match APIKeyService.generateKey demoUrls APIKeyService.new
    { projectId := some "p1", name := some "Docs", url := "https://example.com" }
    "cd" "id-2" 0 0 with
  | .ok (_, s) => s
  | .error _ => APIKeyService.new

/-- The registry `freshRegistry` after its owner replaced the key's metadata by an object
without `allowedDomains`, through `updateAPIKey`. -/
def patchedRegistry : APIKeyService :=
  (APIKeyService.updateAPIKey freshRegistry "ai_assist_ab" "anonymous"
    [.metadata { allowedDomains := none }] 5).2

/-- The record of the key held by `freshRegistry`. -/
def freshKey : KeyData :=
  (APIKeyService.createAPIKey APIKeyService.new { rateLimit := some 2 } "ab" "id-1" 0 0).1

/-- The record of the key held by `usedRegistry`. -/
def usedKey : KeyData :=
  APIKeyService.bumpUsage (APIKeyService.bumpUsage freshKey "/api/chat" 10) "/api/explain" 20

/-- The registry `freshRegistry` after the rounds `twoRounds`. -/
def afterTwoRounds : APIKeyService :=
  (runRounds noUrls "ai_assist_ab" freshRegistry twoRounds).getD freshRegistry

/-! ## `src/lib/vectordb.js`: the data model -/

/-- A metadata object: its own properties, as name and value pairs. -/
abbrev JsObject := List (String × String)

/-- The read `object?.name` on an optional metadata object. -/
def propOf (o : Option JsObject) (name : String) : Option String :=
  match o with
  | none => none
  | some fields => fields.lookup name

/-- A vector as the callers of `upsertVectors` build it. -/
structure VectorInput where
  id : String
  embedding : List Rat
  text : Option String := none
  url : Option String := none
  title : Option String := none
  apiKey : Option String := none
  timestamp : Option String := none
  metadata : Option JsObject := none
  deriving DecidableEq, Repr

/-- An entry of the in-memory store. -/
structure StoredVector where
  id : String
  values : List Rat
  metadata : Option JsObject
  deriving DecidableEq, Repr

/-- A match returned by a query; `score` is `none` when the backend's match has no `score`
property, so that reading it gives `undefined`. A score that is present is a number: a `null`
score, which the comparisons of the code would read as 0, is outside this model. -/
structure Match where
  id : String
  score : Option Rat
  metadata : Option JsObject
  deriving DecidableEq, Repr

/-- The object returned by an upsert; `upsertedCount` is `none` when the durable backend's
reply does not carry one. -/
structure UpsertResult where
  upsertedCount : Option Nat
  deriving DecidableEq, Repr

/-- The object returned by a delete. -/
structure DeleteResult where
  success : Bool
  deletedCount : Option Nat
  deriving DecidableEq, Repr

/-- The object returned by `getIndexStats`. -/
structure IndexStats where
  totalVectorCount : Nat
  dimension : Nat
  indexFullness : Rat
  deriving DecidableEq, Repr

/-- The options object of a query. `filterApiKey` is `options.filter.apiKey`; `threshold` is
`none` unless `typeof threshold === "number"`. -/
structure QueryOptions where
  topK : Option Int := none
  filterApiKey : Option String := none
  includeMetadata : Option Bool := none
  includeValues : Option Bool := none
  nameSpace : Option String := none
  threshold : Option Rat := none
  deriving DecidableEq, Repr

/-- JavaScript `Array.prototype.slice(0, stop)`. -/
def sliceTo {α : Type} (xs : List α) (stop : Int) : List α :=
  if stop < 0 then xs.take (xs.length + stop).toNat else xs.take stop.toNat

/-- The test `m.score >= threshold`, false when the score is `undefined`. -/
def scoreAtLeast (threshold : Rat) (m : Match) : Bool :=
  match m.score with
  | none => false
  | some x => decide (threshold ≤ x)

/-! ## `InMemoryVectorStore` -/

/-- The fields of an `InMemoryVectorStore`. -/
structure InMemoryVectorStore where
  vectors : JsMap String StoredVector
  initialized : Bool
  deriving DecidableEq, Repr

namespace InMemoryVectorStore

/-- The state built by the constructor. -/
def new : InMemoryVectorStore := ⟨[], true⟩

/-- Method `upsertVectors(vectors)`. The method declares one parameter: `ignored` is the namespace of
the options object that `VectorDatabase` passes as a second argument. -/
def upsertVectors (st : InMemoryVectorStore) (vectors : List VectorInput)
    (ignored : Option String) : UpsertResult × InMemoryVectorStore :=
  let _ := ignored
  let vs := vectors.foldl
    (fun acc vector => acc.set vector.id ⟨vector.id, vector.embedding, vector.metadata⟩)
    st.vectors
  (⟨some vectors.length⟩, { st with vectors := vs })

/-- The filter callback of `queryVectors` (lines 39 to 42). -/
def passesFilter (filterApiKey : Option String) (vector : StoredVector) : Bool :=
  if truthy filterApiKey && decide (propOf vector.metadata "apiKey" ≠ filterApiKey) then false
  else true

/-- Method `queryVectors(queryEmbedding, options)`: only `topK` and `filter` are read from the
options. -/
def queryVectors (st : InMemoryVectorStore) (queryEmbedding : List Rat)
    (options : QueryOptions) : List Match :=
  let _ := queryEmbedding
  let topK := options.topK.getD 5
  let allVectors := JsMap.values st.vectors
  (sliceTo (allVectors.filter (passesFilter options.filterApiKey)) topK).map
    (fun vector => ⟨vector.id, some (4 / 5), vector.metadata⟩)

/-- Method `deleteVectors(ids)`. -/
def deleteVectors (st : InMemoryVectorStore) (ids : List String) :
    DeleteResult × InMemoryVectorStore :=
  (⟨true, some ids.length⟩, { st with vectors := ids.foldl (fun acc id => acc.delete id) st.vectors })

/-- Method `deleteByFilter(filter)`. -/
def deleteByFilter (st : InMemoryVectorStore) (filterApiKey : Option String) :
    DeleteResult × InMemoryVectorStore :=
  let hit := fun (e : String × StoredVector) =>
    truthy filterApiKey && decide (propOf e.2.metadata "apiKey" = filterApiKey)
  (⟨true, some (st.vectors.filter hit).length⟩,
    { st with vectors := st.vectors.filter (fun e => !hit e) })

/-- Method `getIndexStats()`. -/
def getIndexStats (st : InMemoryVectorStore) : IndexStats :=
  ⟨st.vectors.length, 1024, 1 / 10⟩

end InMemoryVectorStore

/-! ## `VectorDatabase` -/

/-- The fields of a `VectorDatabase`. `client` and `index` say whether the handle is set;
`storesBuilt` counts the evaluations of `new InMemoryVectorStore()` by this instance. -/
structure VectorDatabase where
  client : Bool
  index : Bool
  fallbackMode : Bool
  store : Option InMemoryVectorStore
  initialized : Bool
  storesBuilt : Nat
  deriving DecidableEq, Repr

/-- How the `try` block of `initialize` (lines 91 to 123) ends on one call: it completes, it
throws before the client is assigned (missing API key, constructor failure), or it throws after
(listing or creating the index, waiting for it). -/
inductive InitOutcome where
  | ready
  | failedBeforeClient
  | failedAfterClient
  deriving DecidableEq, Repr

namespace VectorDatabase

/-- The state built by the constructor. -/
def new : VectorDatabase := ⟨false, false, false, none, false, 0⟩

/-- The method `initialize()`; `outcome` is how the durable backend behaves on this call. -/
def initializeIndex (db : VectorDatabase) (outcome : InitOutcome) : VectorDatabase :=
  if db.initialized then db
  else
    match outcome with
    | .ready => { db with client := true, index := true, initialized := true }
    | .failedBeforeClient =>
      { db with
        fallbackMode := true
        store := some InMemoryVectorStore.new
        storesBuilt := db.storesBuilt + 1 }
    | .failedAfterClient =>
      { db with
        client := true
        fallbackMode := true
        store := some InMemoryVectorStore.new
        storesBuilt := db.storesBuilt + 1 }

/-- The reference error of reading a name that no enclosing scope declares. -/
def unresolved (name : String) : JsError := .referenceError (name ++ " is not defined")

/-- Evaluation of the arguments of the `console.log` call at line 154, which reads
`formattedVectors.length`. The only declaration of `formattedVectors` is the `const` inside the
`try` block that starts at line 160, so the name is not in scope at line 154. -/
def upsertLogArguments : Except JsError Unit := .error (unresolved "formattedVectors")

/-- Lines 156 to 182 of `upsertVectors`: the fallback branch, the durable write (`write` is how
the backend answers it; with no index handle the `try` block throws by itself) and the `catch`
that switches to a new in-memory store. -/
def upsertVectorsBody (db : VectorDatabase) (write : Except String UpsertResult)
    (vectors : List VectorInput) (nameSpace : Option String) :
    Except JsError UpsertResult × VectorDatabase :=
  if db.fallbackMode then
    match db.store with
    | none => (.error (.typeError "Cannot read properties of null (reading upsertVectors)"), db)
    | some st =>
      let (r, st1) := st.upsertVectors vectors nameSpace
      (.ok r, { db with store := some st1 })
  else
    match (if db.index then write else .error "Cannot read properties of null") with
    | .ok r => (.ok r, db)
    | .error _ =>
      let (r, st1) := InMemoryVectorStore.new.upsertVectors vectors nameSpace
      (.ok r, { db with fallbackMode := true, store := some st1, storesBuilt := db.storesBuilt + 1 })

/-- Method `upsertVectors(vectors, namespace)`. -/
def upsertVectors (db : VectorDatabase) (outcome : InitOutcome)
    (write : Except String UpsertResult) (vectors : List VectorInput)
    (nameSpace : Option String) : Except JsError UpsertResult × VectorDatabase :=
  let db := db.initializeIndex outcome
  match upsertLogArguments with
  | .error e => (.error e, db)
  | .ok _ => upsertVectorsBody db write vectors nameSpace

/-- Method `queryVectors(queryEmbedding, options)`; `response` is how the backend answers the query:
it throws, or replies with or without a `matches` array. -/
def queryVectors (db : VectorDatabase) (outcome : InitOutcome)
    (response : Except String (Option (List Match))) (queryEmbedding : List Rat)
    (options : QueryOptions) : Except JsError (List Match) × VectorDatabase :=
  let db := db.initializeIndex outcome
  let topK := options.topK.getD 5
  if db.fallbackMode then
    match db.store with
    | none => (.error (.typeError "Cannot read properties of null (reading queryVectors)"), db)
    | some st =>
      let results := st.queryVectors queryEmbedding
        { topK := some topK, filterApiKey := options.filterApiKey, nameSpace := options.nameSpace }
      match options.threshold with
      | some threshold => (.ok (results.filter (scoreAtLeast threshold)), db)
      | none => (.ok results, db)
  else
    match (if db.index then response else .error "Cannot read properties of null") with
    | .ok reply =>
      let found := reply.getD []
      match options.threshold with
      | some threshold => (.ok (found.filter (scoreAtLeast threshold)), db)
      | none => (.ok found, db)
    | .error message => (.error (.error ("Failed to query vectors: " ++ message)), db)

/-- Method `deleteVectors(ids)`; `removal` is how the backend answers the delete. -/
def deleteVectors (db : VectorDatabase) (outcome : InitOutcome) (removal : Except String Unit)
    (ids : List String) : Except JsError DeleteResult × VectorDatabase :=
  let db := db.initializeIndex outcome
  if db.fallbackMode then
    match db.store with
    | none => (.error (.typeError "Cannot read properties of null (reading deleteVectors)"), db)
    | some st =>
      let (r, st1) := st.deleteVectors ids
      (.ok r, { db with store := some st1 })
  else
    match (if db.index then removal else .error "Cannot read properties of null") with
    | .ok _ => (.ok ⟨true, some ids.length⟩, db)
    | .error message => (.error (.error ("Failed to delete vectors: " ++ message)), db)

/-- Method `deleteByFilter(filter)`. -/
def deleteByFilter (db : VectorDatabase) (outcome : InitOutcome) (removal : Except String Unit)
    (filterApiKey : Option String) : Except JsError DeleteResult × VectorDatabase :=
  let db := db.initializeIndex outcome
  if db.fallbackMode then
    match db.store with
    | none => (.error (.typeError "Cannot read properties of null (reading deleteByFilter)"), db)
    | some st =>
      let (r, st1) := st.deleteByFilter filterApiKey
      (.ok r, { db with store := some st1 })
  else
    match (if db.index then removal else .error "Cannot read properties of null") with
    | .ok _ => (.ok ⟨true, none⟩, db)
    | .error message => (.error (.error ("Failed to delete vectors by filter: " ++ message)), db)

/-- Method `getIndexStats()`; `described` is how the backend answers `describeIndexStats`. -/
def getIndexStats (db : VectorDatabase) (outcome : InitOutcome)
    (described : Except String IndexStats) : Except JsError IndexStats × VectorDatabase :=
  let db := db.initializeIndex outcome
  if db.fallbackMode then
    match db.store with
    | none => (.error (.typeError "Cannot read properties of null (reading getIndexStats)"), db)
    | some st => (.ok st.getIndexStats, db)
  else
    match (if db.index then described else .error "Cannot read properties of null") with
    | .ok stats => (.ok stats, db)
    | .error message => (.error (.error ("Failed to get index stats: " ++ message)), db)

end VectorDatabase

/-! ## Scenarios over the vector store -/

/-- A vector of project A. -/
def vectorP : VectorInput :=
  { id := "p", embedding := [1, 0], metadata := some [("projectId", "A")] }

/-- A vector of project B. -/
def vectorV : VectorInput :=
  { id := "v", embedding := [0, 1], metadata := some [("projectId", "B")] }

/-- An in-memory store that holds `vectorP`, written under the namespace of project A. -/
def storeWithP : InMemoryVectorStore :=
  (InMemoryVectorStore.new.upsertVectors [vectorP] (some "A_mainContent")).2

/-- An in-memory store that holds `vectorV` only, written under the namespace of project B. -/
def storeWithV : InMemoryVectorStore :=
  (InMemoryVectorStore.new.upsertVectors [vectorV] (some "B_mainContent")).2

/-- A database in fallback mode whose store is `storeWithV`. -/
def fallbackWithV : VectorDatabase :=
  { client := false, index := false, fallbackMode := true, store := some storeWithV,
    initialized := false, storesBuilt := 1 }

/-- The ids of the matches a query returned. -/
def matchIds (r : Except JsError (List Match)) : Except JsError (List String) :=
  r.map (fun found => found.map (fun m => m.id))

/-! ## JavaScript strings

A string is modelled by its code points. `jsLength` is the `.length` of the string, counted in
UTF-16 code units. A prefix cut (`substring(0, n)`) keeps the code points that lie wholly
within the first `n` units: that is the JavaScript result except when unit `n` falls inside a
surrogate pair, where JavaScript also keeps the first half of the pair, a unit that no string
of code points holds. On characters below U+10000 the cut is exact (`takeUnits_of_single`),
as in `preprocessText` (`preprocessText_cut`). -/

/-- The characters matched by `\s` in a regular expression, which are also those removed by
`String.prototype.trim`. -/
def isJsSpace (c : Char) : Bool :=
  let n := c.toNat
  n == 9 || n == 10 || n == 11 || n == 12 || n == 13 || n == 32 || n == 160 || n == 5760 ||
    (8192 ≤ n && n ≤ 8202) || n == 8232 || n == 8233 || n == 8239 || n == 8287 || n == 12288 ||
    n == 65279

/-- The characters matched by `\w` in a regular expression: letters, digits and underscore. -/
def isWordChar (c : Char) : Bool :=
  let n := c.toNat
  (48 ≤ n && n ≤ 57) || (65 ≤ n && n ≤ 90) || n == 95 || (97 ≤ n && n ≤ 122)

/-- The characters kept by `replace(/[^\w\s.,!?-]/g, "")`. -/
def isKept (c : Char) : Bool :=
  let n := c.toNat
  isWordChar c || isJsSpace c || n == 46 || n == 44 || n == 33 || n == 63 || n == 45

/-- The number of UTF-16 code units of a character. -/
def unitsOf (c : Char) : Nat := if c.toNat ≥ 65536 then 2 else 1

/-- JavaScript `.length` of a string. -/
def jsLength (s : String) : Nat := (s.toList.map unitsOf).sum

/-- The replacement `replace(/\s+/g, " ")` on a list of characters; `inRun` says whether the
previous character was whitespace. -/
def collapseSpaces : Bool → List Char → List Char
  | _, [] => []
  | inRun, c :: cs =>
    if isJsSpace c then
      if inRun then collapseSpaces true cs else ' ' :: collapseSpaces true cs
    else c :: collapseSpaces false cs

/-- JavaScript `String.prototype.trim` on a list of characters. -/
def trimChars (cs : List Char) : List Char :=
  ((cs.dropWhile isJsSpace).reverse.dropWhile isJsSpace).reverse

/-- JavaScript `String.prototype.trim`. -/
def jsTrim (s : String) : String := String.mk (trimChars s.toList)

/-- The longest prefix of whole characters that fits in `n` UTF-16 code units. -/
def takeUnits : Nat → List Char → List Char
  | _, [] => []
  | n, c :: cs => if unitsOf c ≤ n then c :: takeUnits (n - unitsOf c) cs else []

/-- JavaScript `substring(0, n)`, up to the first half of a surrogate pair that the cut
splits. -/
def jsPrefix (s : String) (n : Nat) : String := String.mk (takeUnits n s.toList)

/-- JavaScript `Array.prototype.slice(start, stop)`. -/
def jsSlice {α : Type} (xs : List α) (start stop : Int) : List α :=
  let len : Int := xs.length
  let from_ := if start < 0 then max (len + start) 0 else min start len
  let to_ := if stop < 0 then max (len + stop) 0 else min stop len
  (xs.drop from_.toNat).take (to_ - from_).toNat

/-- JavaScript `Array.prototype.join(separator)` on strings. -/
def jsJoin (separator : String) : List String → String
  | [] => ""
  | [x] => x
  | x :: y :: rest => x ++ separator ++ jsJoin separator (y :: rest)

/-- The words of `split(" ")` on a list of characters. -/
def splitChars : List Char → List (List Char)
  | [] => [[]]
  | c :: cs =>
    if c = ' ' then [] :: splitChars cs
    else
      match splitChars cs with
      | [] => [[c]]
      | w :: ws => (c :: w) :: ws

/-- JavaScript `split(" ")`. -/
def splitSpace (s : String) : List String := (splitChars s.toList).map String.mk

/-! ## `src/lib/embeddings.js` -/

/-- A vector of numbers returned by the embedding provider. -/
abbrev Embedding := List Rat

/-- The embedding provider, `this.model.embedContent(_)`: its answer to one call, given the
number of calls made before and the text sent; an error carries the message of the exception
(a reply without `embedding.values` counts as one). -/
abbrev Provider := Nat → String → Except String Embedding

/-- The `message` of an exception. -/
def JsError.message : JsError → String
  | .typeError m => m
  | .referenceError m => m
  | .error m => m

namespace EmbeddingsService

/-- Method `preprocessText(text)`; `none` is an argument that is not a string. -/
def preprocessText (text : Option String) : String :=
  match text with
  | none => ""
  | some t =>
    if t = "" then ""
    else String.mk (takeUnits 8000 (trimChars ((collapseSpaces false t.toList).filter isKept)))

/-- The `try` block of `generateEmbedding` (lines 11 to 19) with `calls` earlier calls of the
provider: the values or the message of the exception raised, and the number of provider calls
afterwards. -/
def generateEmbeddingBody (provider : Provider) (calls : Nat) (text : Option String) :
    Except String Embedding × Nat :=
  let cleanText := preprocessText text
  if cleanText = "" ∨ jsLength cleanText < 10 then
    (.error "Text too short for embedding generation", calls)
  else (provider calls cleanText, calls + 1)

/-- Method `generateEmbedding(text)`: the `catch` wraps the message of whatever the `try`
block raised. -/
def generateEmbedding (provider : Provider) (calls : Nat) (text : Option String) :
    Except JsError Embedding × Nat :=
  match generateEmbeddingBody provider calls text with
  | (.ok values, calls1) => (.ok values, calls1)
  | (.error message, calls1) =>
    (.error (.error ("Failed to generate embedding: " ++ message)), calls1)

/-- An entry of the `embeddings` array of `generateBatchEmbeddings`. -/
structure BatchEmbedding where
  index : Nat
  text : Option String
  embedding : Embedding
  deriving DecidableEq, Repr

/-- An entry of the `errors` array of `generateBatchEmbeddings`. -/
structure BatchError where
  index : Nat
  text : Option String
  error : String
  deriving DecidableEq, Repr

/-- The loop of `generateBatchEmbeddings` from index `i` on, over the texts not yet visited:
the entries pushed to `embeddings` and to `errors`, and the number of provider calls
afterwards. -/
def batchLoop (provider : Provider) :
    List (Option String) → Nat → Nat → (List BatchEmbedding × List BatchError) × Nat
  | [], _, calls => (([], []), calls)
  | text :: rest, i, calls =>
    match generateEmbedding provider calls text with
    | (.ok embedding, calls1) =>
      let r := batchLoop provider rest (i + 1) calls1
      ((⟨i, text, embedding⟩ :: r.1.1, r.1.2), r.2)
    | (.error e, calls1) =>
      let r := batchLoop provider rest (i + 1) calls1
      ((r.1.1, ⟨i, text, e.message⟩ :: r.1.2), r.2)

/-- Method `generateBatchEmbeddings(texts)`. -/
def generateBatchEmbeddings (provider : Provider) (calls : Nat) (texts : List (Option String)) :
    (List BatchEmbedding × List BatchError) × Nat :=
  batchLoop provider texts 0 calls

/-- The `for` loop of `chunkText` from index `i` on: the chunks pushed, or `none` when the loop
is still running after `fuel` iterations. -/
def chunkLoop (words : List String) (maxChunkSize overlap : Int) :
    Nat → Int → Option (List String)
  | 0, _ => none
  | fuel + 1, i =>
    if i < (words.length : Int) then
      let chunk := jsJoin " " (jsSlice words i (i + maxChunkSize))
      match chunkLoop words maxChunkSize overlap fuel (i + (maxChunkSize - overlap)) with
      | none => none
      | some rest => some (if jsLength (jsTrim chunk) > 50 then jsTrim chunk :: rest else rest)
    else some []

/-- Method `chunkText(text, maxChunkSize, overlap)`, both sizes given (they default to 1000 and
100), run for at most `fuel` iterations of its loop. -/
def chunkText (fuel : Nat) (text : String) (maxChunkSize overlap : Int) : Option (List String) :=
  chunkLoop (splitSpace text) maxChunkSize overlap fuel 0

/-- The `for` loop of `chunkText` from index `i` on, without the test of line 74: every `chunk`
formed at line 73, in order. -/
def chunkWindows (words : List String) (maxChunkSize overlap : Int) :
    Nat → Int → Option (List String)
  | 0, _ => none
  | fuel + 1, i =>
    if i < (words.length : Int) then
      match chunkWindows words maxChunkSize overlap fuel (i + (maxChunkSize - overlap)) with
      | none => none
      | some rest => some (jsJoin " " (jsSlice words i (i + maxChunkSize)) :: rest)
    else some []

end EmbeddingsService

/-! ## `src/lib/dataProcessor.js`: the data model -/

/-- A heading of the fetched document. -/
structure Heading where
  level : Int
  text : String
  id : Option String
  deriving DecidableEq, Repr

/-- A list of the fetched document. -/
structure ListBlock where
  type : String
  items : List String
  deriving DecidableEq, Repr

/-- A link of the fetched document; `text` is `none` when the property is missing. -/
structure Link where
  text : Option String
  url : String
  isInternal : Bool
  deriving DecidableEq, Repr

/-- An image of the fetched document. -/
structure Image where
  src : String
  alt : String
  title : String
  deriving DecidableEq, Repr

/-- The `metadata` object of the fetched document. -/
structure PageMetadata where
  author : String
  keywords : String
  publishedTime : String
  modifiedTime : String
  deriving DecidableEq, Repr

/-- The document returned by `scrapeWebsite`; `images` is `none` when the property is
missing. -/
structure ScrapedData where
  url : String
  title : String
  description : String
  headings : List Heading
  paragraphs : List String
  lists : List ListBlock
  links : List Link
  images : Option (List Image)
  metadata : PageMetadata
  deriving DecidableEq, Repr

/-- The `metadata` object of a content unit; a field is `none` when the object built by
`structureContent` does not have it. -/
structure ItemMetadata where
  level : Option Int := none
  id : Option String := none
  index : Option Nat := none
  length : Option Nat := none
  listType : Option String := none
  itemCount : Option Nat := none
  url : Option String := none
  isInternal : Option Bool := none
  deriving DecidableEq, Repr

/-- An object pushed to a bucket by `structureContent`. The buckets `mainContent`,
`informational` and `interactive` receive objects with `type`, `content` and `metadata`
(`unit`); the bucket `navigation` receives objects with `type: "heading"`, `level`, `text`,
`id` and `context`, which have no `content` and no `metadata` property (`navEntry`). -/
inductive ContentItem where
  | unit (type : String) (content : String) (metadata : ItemMetadata)
  | navEntry (level : Int) (text : String) (id : Option String) (context : String)
  deriving DecidableEq, Repr

/-- The property `item.type`. -/
def ContentItem.type : ContentItem → String
  | .unit t _ _ => t
  | .navEntry _ _ _ _ => "heading"

/-- The property `item.content`; `none` is `undefined`. -/
def ContentItem.content : ContentItem → Option String
  | .unit _ c _ => some c
  | .navEntry _ _ _ _ => none

/-- The property `item.metadata`; `none` is `undefined`. -/
def ContentItem.metadata : ContentItem → Option ItemMetadata
  | .unit _ _ m => some m
  | .navEntry _ _ _ _ => none

/-- The object returned by `structureContent`, its properties in creation order. -/
structure StructuredContent where
  mainContent : List ContentItem
  navigation : List ContentItem
  interactive : List ContentItem
  informational : List ContentItem
  deriving DecidableEq, Repr

/-- The pairs of `Object.entries(structuredContent)`. -/
def StructuredContent.entries (c : StructuredContent) : List (String × List ContentItem) :=
  [("mainContent", c.mainContent), ("navigation", c.navigation),
    ("interactive", c.interactive), ("informational", c.informational)]

/-- An entry of the `embeddings` array of `generateContentEmbeddings`; `metadata` is the spread
of `item.metadata`, next to which `type` and `processedAt` are written. -/
structure EmbeddingRecord where
  id : String
  projectId : Option String
  contentType : String
  originalContent : Option String
  embeddingText : String
  embedding : Embedding
  metadata : Option ItemMetadata
  type : String
  processedAt : Int
  deriving DecidableEq, Repr

/-- An entry of the `errors` array of `generateContentEmbeddings`. -/
structure ContentError where
  contentType : String
  index : Nat
  content : String
  error : String
  deriving DecidableEq, Repr

/-- The object returned by `generateContentEmbeddings`. -/
structure EmbeddingResults where
  embeddings : List EmbeddingRecord
  errors : List ContentError
  deriving DecidableEq, Repr

/-- What one iteration of the inner loop of `generateContentEmbeddings` does with its unit:
`continue` at line 155, a push to `allEmbeddings`, a push to `errors`, or an exception that
leaves the `catch` block. -/
inductive ItemOutcome where
  | skipped
  | embedded (record : EmbeddingRecord)
  | failed (entry : ContentError)
  | aborted (e : JsError)
  deriving DecidableEq, Repr

/-- Applies `f` to each element and its position, from position `i` on (`forEach` with the
index argument). -/
def mapWithIndex {α β : Type} (f : α → Nat → β) : List α → Nat → List β
  | [], _ => []
  | x :: xs, i => f x i :: mapWithIndex f xs (i + 1)

/-- The text that a template literal gives for an optional string. -/
def shown (s : Option String) : String := s.getD "undefined"

namespace DataProcessor

/-- The object pushed to `navigation` for a heading (lines 81 to 87). -/
def navigationItem (heading : Heading) : ContentItem :=
  .navEntry heading.level heading.text heading.id ("Main section: " ++ heading.text)

/-- The object pushed to `mainContent` for a heading (lines 90 to 94). -/
def headingItem (heading : Heading) : ContentItem :=
  .unit "heading" heading.text { level := some heading.level, id := heading.id }

/-- The object pushed to `informational` for a paragraph (lines 99 to 103). -/
def paragraphInfoItem (paragraph : String) (index : Nat) : ContentItem :=
  .unit "paragraph" paragraph { index := some index, length := some (jsLength paragraph) }

/-- The object pushed to `mainContent` for a paragraph (lines 105 to 109). -/
def paragraphItem (paragraph : String) (index : Nat) : ContentItem :=
  .unit "paragraph" paragraph { index := some index }

/-- The object pushed to `informational` for a list (lines 114 to 120); `toUpperCase` is
`String.prototype.toUpperCase`. -/
def listItem (toUpperCase : String → String) (list : ListBlock) (index : Nat) : ContentItem :=
  .unit "list" (toUpperCase list.type ++ " LIST: " ++ jsJoin "; " list.items)
    { listType := some list.type, itemCount := some list.items.length, index := some index }

/-- The body of the `forEach` over links (lines 125 to 135): the object pushed to
`interactive`, if any. -/
def linkItem (link : Link) (index : Nat) : Option ContentItem :=
  match link.text with
  | none => none
  | some text =>
    if text ≠ "" ∧ jsLength text > 3 then
      some (.unit "link" ("Link: " ++ text ++ " (" ++ link.url ++ ")")
        { url := some link.url, isInternal := some link.isInternal, index := some index })
    else none

/-- Method `structureContent(scrapedData)`. -/
def structureContent (toUpperCase : String → String) (scrapedData : ScrapedData) :
    StructuredContent :=
  { mainContent :=
      scrapedData.headings.map headingItem ++ mapWithIndex paragraphItem scrapedData.paragraphs 0
    navigation :=
      (scrapedData.headings.filter (fun heading => decide (heading.level ≤ 2))).map navigationItem
    interactive := (mapWithIndex linkItem scrapedData.links 0).filterMap id
    informational :=
      mapWithIndex paragraphInfoItem scrapedData.paragraphs 0 ++
        mapWithIndex (listItem toUpperCase) scrapedData.lists 0 }

/-- Method `prepareTextForEmbedding(contentItem)`. -/
def prepareTextForEmbedding (contentItem : ContentItem) : String :=
  let text := shown contentItem.content
  let text :=
    if contentItem.type = "heading" then "Section Header: " ++ text
    else if contentItem.type = "paragraph" then "Content: " ++ text
    else if contentItem.type = "list" then "List Information: " ++ text
    else if contentItem.type = "link" then "Navigation Link: " ++ text
    else "Website Element: " ++ text
  EmbeddingsService.preprocessText (some text)

/-- One iteration of the inner loop of `generateContentEmbeddings` (lines 149 to 182) on the
unit at position `i` of bucket `contentType`; `processedAt` is the reading of the clock at line
169. -/
def processItem (provider : Provider) (calls : Nat) (projectId : Option String)
    (contentType : String) (i : Nat) (item : ContentItem) (processedAt : Int) :
    ItemOutcome × Nat :=
  let embeddingText := prepareTextForEmbedding item
  if jsLength embeddingText < 20 then (.skipped, calls)
  else
    match EmbeddingsService.generateEmbedding provider calls (some embeddingText) with
    | (.ok embedding, calls1) =>
      (.embedded
        { id := shown projectId ++ "_" ++ contentType ++ "_" ++ toString i
          projectId := projectId
          contentType := contentType
          originalContent := item.content
          embeddingText := embeddingText
          embedding := embedding
          metadata := item.metadata
          type := item.type
          processedAt := processedAt }, calls1)
    | (.error e, calls1) =>
      match item.content with
      | some content => (.failed ⟨contentType, i, jsPrefix content 100, e.message⟩, calls1)
      | none =>
        (.aborted (.typeError "Cannot read properties of undefined (reading substring)"), calls1)

/-- The inner loop of `generateContentEmbeddings` over the units of one bucket, from position
`i` on; `clock` gives the reading of the clock for a bucket and a position. -/
def bucketLoop (provider : Provider) (clock : String → Nat → Int) (projectId : Option String)
    (contentType : String) : List ContentItem → Nat → Nat → Except JsError EmbeddingResults × Nat
  | [], _, calls => (.ok ⟨[], []⟩, calls)
  | item :: rest, i, calls =>
    match processItem provider calls projectId contentType i item (clock contentType i) with
    | (.aborted e, calls1) => (.error e, calls1)
    | (outcome, calls1) =>
      match bucketLoop provider clock projectId contentType rest (i + 1) calls1 with
      | (.error e, calls2) => (.error e, calls2)
      | (.ok r, calls2) =>
        match outcome with
        | .embedded record => (.ok ⟨record :: r.embeddings, r.errors⟩, calls2)
        | .failed entry => (.ok ⟨r.embeddings, entry :: r.errors⟩, calls2)
        | _ => (.ok r, calls2)

/-- The outer loop of `generateContentEmbeddings` over the buckets. -/
def entriesLoop (provider : Provider) (clock : String → Nat → Int) (projectId : Option String) :
    List (String × List ContentItem) → Nat → Except JsError EmbeddingResults × Nat
  | [], calls => (.ok ⟨[], []⟩, calls)
  | (contentType, items) :: rest, calls =>
    match bucketLoop provider clock projectId contentType items 0 calls with
    | (.error e, calls1) => (.error e, calls1)
    | (.ok r, calls1) =>
      match entriesLoop provider clock projectId rest calls1 with
      | (.error e, calls2) => (.error e, calls2)
      | (.ok r2, calls2) => (.ok ⟨r.embeddings ++ r2.embeddings, r.errors ++ r2.errors⟩, calls2)

/-- Method `generateContentEmbeddings(structuredContent, projectId)`. -/
def generateContentEmbeddings (provider : Provider) (clock : String → Nat → Int) (calls : Nat)
    (structuredContent : StructuredContent) (projectId : Option String) :
    Except JsError EmbeddingResults × Nat :=
  entriesLoop provider clock projectId structuredContent.entries calls

end DataProcessor

/-! ## `src/lib/dataProcessor.js` and `src/lib/vectordb.js`: storing a project -/

/-- The behaviour of the durable backend over time: the outcome of the `n`-th run of
`initialize()` and the answer to a durable write made after it. -/
structure DbEnv where
  init : Nat → InitOutcome
  write : Nat → Except String UpsertResult

/-- The `projectMetadata` argument of `storeProcessedData` (lines 39 to 45); `storeEmbeddings`
receives it with `contentType` and `namespace` added. -/
structure ProjectMetadata where
  projectId : Option String
  url : String
  name : Option String
  originalData : ScrapedData
  processedAt : Int
  contentType : Option String := none
  nameSpace : Option String := none
  deriving DecidableEq, Repr

/-- The object returned by `generateProjectStats`. -/
structure ProjectStats where
  headings : Nat
  paragraphs : Nat
  lists : Nat
  links : Nat
  images : Nat
  total : Nat
  successful : Nat
  failed : Nat
  title : String
  description : String
  author : String
  hasStructuredData : Bool
  deriving DecidableEq, Repr

/-- The object returned by `processWebsiteForProject`. -/
structure ProcessResult where
  success : Bool
  projectId : Option String
  stats : ProjectStats
  contentTypes : List String
  embeddingsCount : Nat
  deriving DecidableEq, Repr

/-- The clock readings and serialisations that storing a project consumes: the ISO text of the
clock at each `storeEmbeddings` and at `storeMetadata`, the value of `Date.now()` there, and
`JSON.stringify` of the metadata object. -/
structure StoreClock where
  timestamp : String
  nowMs : Int
  json : String
  deriving DecidableEq, Repr

/-- The `projectConfig` argument of `processWebsiteForProject`. -/
structure ProcessConfig where
  name : Option String
  projectId : Option String
  deriving DecidableEq, Repr

namespace VectorDatabase

/-- The vector that `storeEmbeddings` builds for one embedding record (lines 283 to 298). Of the
spread metadata the string properties are kept. -/
def embeddingVector (projectMetadata : ProjectMetadata) (timestamp : String)
    (embedding : EmbeddingRecord) : VectorInput :=
  { id := embedding.id
    embedding := embedding.embedding
    text := if embedding.embeddingText ≠ "" then some embedding.embeddingText
      else embedding.originalContent
    url := some projectMetadata.url
    title := projectMetadata.name
    apiKey := projectMetadata.projectId
    timestamp := some timestamp
    metadata := some
      [("projectId", shown projectMetadata.projectId),
        ("contentType", shown projectMetadata.contentType),
        ("originalContent", shown (embedding.originalContent.map (fun c => jsPrefix c 1000))),
        ("type", embedding.type),
        ("url", projectMetadata.url),
        ("name", shown projectMetadata.name),
        ("namespace", shown projectMetadata.nameSpace)] }

/-- Method `storeEmbeddings(embeddings, projectMetadata)`, `t` runs of `initialize()` having
been made before; `timestamp` is the ISO text of the clock reading at line 290. -/
def storeEmbeddings (db : VectorDatabase) (env : DbEnv) (t : Nat)
    (embeddings : List EmbeddingRecord) (projectMetadata : ProjectMetadata)
    (timestamp : String) : Except JsError UpsertResult × VectorDatabase × Nat :=
  let db := db.initializeIndex (env.init t)
  let ns :=
    if truthy projectMetadata.nameSpace then shown projectMetadata.nameSpace
    else shown projectMetadata.projectId ++ "_" ++
      (if truthy projectMetadata.contentType then shown projectMetadata.contentType
        else "mainContent")
  let vectors := embeddings.map (embeddingVector projectMetadata timestamp)
  match db.upsertVectors (env.init (t + 1)) (env.write (t + 1)) vectors (some ns) with
  | (.ok r, db1) => (.ok r, db1, t + 2)
  | (.error e, db1) =>
    (.error (.error ("Failed to store embeddings: " ++ e.message)), db1, t + 2)

/-- Method `storeMetadata(projectId, metadata)`, `t` runs of `initialize()` having been made
before. Of `metadata` the properties `url` and `name` are read; `json` is
`JSON.stringify(metadata)`, `nowMs` the value of `Date.now()`, `timestamp` the ISO text of the
clock reading at line 319. -/
def storeMetadata (db : VectorDatabase) (env : DbEnv) (t : Nat) (projectId : Option String)
    (url : String) (name : Option String) (json : String) (nowMs : Int) (timestamp : String) :
    Except JsError UpsertResult × VectorDatabase × Nat :=
  let db := db.initializeIndex (env.init t)
  let ns := shown projectId ++ "_metadata"
  let metadataVector : VectorInput :=
    { id := shown projectId ++ "_metadata_" ++ toString nowMs
      embedding := List.replicate 1024 0
      text := some (jsPrefix json 1000)
      url := some url
      title := name
      apiKey := projectId
      timestamp := some timestamp
      metadata := some
        [("url", url), ("name", shown name), ("isMetadata", "true"),
          ("projectId", shown projectId)] }
  match db.upsertVectors (env.init (t + 1)) (env.write (t + 1)) [metadataVector] (some ns) with
  | (.ok r, db1) => (.ok r, db1, t + 2)
  | (.error e, db1) =>
    (.error (.error ("Failed to store metadata: " ++ e.message)), db1, t + 2)

end VectorDatabase

namespace DataProcessor

/-- Method `generateProjectStats(scrapedData, embeddingResults)`. -/
def generateProjectStats (scrapedData : ScrapedData) (embeddingResults : EmbeddingResults) :
    ProjectStats :=
  { headings := scrapedData.headings.length
    paragraphs := scrapedData.paragraphs.length
    lists := scrapedData.lists.length
    links := scrapedData.links.length
    images := (scrapedData.images.map List.length).getD 0
    total := embeddingResults.embeddings.length
    successful := embeddingResults.embeddings.length
    failed := embeddingResults.errors.length
    title := scrapedData.title
    description := scrapedData.description
    author := scrapedData.metadata.author
    hasStructuredData :=
      decide (scrapedData.metadata.publishedTime ≠ "") || decide (scrapedData.metadata.author ≠ "") }

/-- The `reduce` of `storeProcessedData` (lines 217 to 222): the embeddings grouped by content
type, the groups in order of first appearance. -/
def groupByType (embeddings : List EmbeddingRecord) : JsMap String (List EmbeddingRecord) :=
  embeddings.foldl
    (fun groups embedding =>
      groups.set embedding.contentType
        ((groups.get embedding.contentType).getD [] ++ [embedding]))
    []

/-- The loop of `storeProcessedData` over the groups (lines 225 to 231): it stops at the first
`storeEmbeddings` that throws. -/
def storeGroups (env : DbEnv) (projectMetadata : ProjectMetadata) (stamps : StoreClock) :
    List (String × List EmbeddingRecord) → VectorDatabase → Nat →
      Except JsError Unit × VectorDatabase × Nat
  | [], db, t => (.ok (), db, t)
  | (contentType, typeEmbeddings) :: rest, db, t =>
    match db.storeEmbeddings env t typeEmbeddings
      { projectMetadata with
        contentType := some contentType
        nameSpace := some (shown projectMetadata.projectId ++ "_" ++ contentType) }
      stamps.timestamp with
    | (.error e, db1, t1) => (.error e, db1, t1)
    | (.ok _, db1, t1) => storeGroups env projectMetadata stamps rest db1 t1

/-- Method `storeProjectMetadata(projectMetadata, embeddingResults)`. -/
def storeProjectMetadata (env : DbEnv) (db : VectorDatabase) (t : Nat)
    (projectMetadata : ProjectMetadata) (stamps : StoreClock) :
    Except JsError Unit × VectorDatabase × Nat :=
  match db.storeMetadata env t projectMetadata.projectId projectMetadata.url
    projectMetadata.name stamps.json stamps.nowMs stamps.timestamp with
  | (.error e, db1, t1) => (.error e, db1, t1)
  | (.ok _, db1, t1) => (.ok (), db1, t1)

/-- Method `storeProcessedData(embeddingResults, projectMetadata)`. -/
def storeProcessedData (env : DbEnv) (db : VectorDatabase) (t : Nat)
    (embeddingResults : EmbeddingResults) (projectMetadata : ProjectMetadata)
    (stamps : StoreClock) : Except JsError Unit × VectorDatabase × Nat :=
  match storeGroups env projectMetadata stamps (groupByType embeddingResults.embeddings) db t with
  | (.error e, db1, t1) => (.error e, db1, t1)
  | (.ok _, db1, t1) => storeProjectMetadata env db1 t1 projectMetadata stamps

/-- Method `processWebsiteForProject(url, projectConfig)`. `scrape` is how `scrapeWebsite`
ends (the document, or the message of its exception), `processedAt` the clock reading at line
44; the database starts in state `db` with `t` runs of `initialize()` behind it. -/
def processWebsiteForProject (toUpperCase : String → String) (scrape : Except String ScrapedData)
    (provider : Provider) (clock : String → Nat → Int) (env : DbEnv) (db : VectorDatabase)
    (t : Nat) (stamps : StoreClock) (processedAt : Int) (url : String)
    (projectConfig : ProcessConfig) : Except JsError ProcessResult × VectorDatabase :=
  let wrap := fun (message : String) => JsError.error ("Failed to process website: " ++ message)
  match scrape with
  | .error message => (.error (wrap message), db)
  | .ok scrapedData =>
    let processedContent := structureContent toUpperCase scrapedData
    match generateContentEmbeddings provider clock 0 processedContent projectConfig.projectId with
    | (.error e, _) => (.error (wrap e.message), db)
    | (.ok embeddingResults, _) =>
      match storeProcessedData env db t embeddingResults
        { projectId := projectConfig.projectId
          url := url
          name := projectConfig.name
          originalData := scrapedData
          processedAt := processedAt }
        stamps with
      | (.error e, db1, _) => (.error (wrap e.message), db1)
      | (.ok _, db1, _) =>
        (.ok
          { success := true
            projectId := projectConfig.projectId
            stats := generateProjectStats scrapedData embeddingResults
            contentTypes := processedContent.entries.map Prod.fst
            embeddingsCount := embeddingResults.embeddings.length }, db1)

end DataProcessor

/-! ## Scenarios over ingestion -/

/-- A provider that fails on every call. -/
def providerDown : Provider := fun _ _ => .error "provider unavailable"

/-- A provider that answers every call with the same vector. -/
def providerUp : Provider := fun _ _ => .ok [1, 0]

/-- A clock that always reads 0. -/
def clockZero : String → Nat → Int := fun _ _ => 0

/-- A fetched document without headings, paragraphs, lists and links. -/
def emptyDocument : ScrapedData :=
  { url := "https://example.com", title := "Example", description := "", headings := [],
    paragraphs := [], lists := [], links := [], images := some [],
    metadata := ⟨"", "", "", ""⟩ }

/-- A fetched document with an `h1` "Pricing" and an `h3` "FAQ". -/
def pricingDocument : ScrapedData :=
  { emptyDocument with headings := [⟨1, "Pricing", none⟩, ⟨3, "FAQ", none⟩] }

/-- A fetched document with one paragraph of isolated symbols and a final letter. -/
def symbolsDocument : ScrapedData :=
  { emptyDocument with paragraphs := ["@ @ @ @ @ @ @ @ @ @ @ @ @ x"] }

/-- A backend whose initialization always fails and whose writes always fail. -/
def backendDown : DbEnv := ⟨fun _ => .failedBeforeClient, fun _ => .error "unreachable"⟩

/-- A backend whose initialization succeeds and whose writes are acknowledged. -/
def backendUp : DbEnv := ⟨fun _ => .ready, fun _ => .ok ⟨none⟩⟩

/-- The clock readings and the serialisation used in the storing scenarios. -/
def stampsZero : StoreClock := ⟨"1970-01-01T00:00:00.000Z", 0, "{}"⟩

/-- An upper-casing of the ASCII letters, which is what `toUpperCase` does on the tag names
`ul` and `ol`. -/
def upperAscii (s : String) : String := String.mk (s.toList.map Char.toUpper)

/-- The result of each `generateEmbedding` call that `generateBatchEmbeddings` makes, one per
text and in order, the first with `calls` earlier calls of the provider. -/
def batchOutcomes (provider : Provider) :
    List (Option String) → Nat → List (Except JsError Embedding)
  | [], _ => []
  | text :: rest, calls =>
    (EmbeddingsService.generateEmbedding provider calls text).1 ::
      batchOutcomes provider rest (EmbeddingsService.generateEmbedding provider calls text).2

/-- The chunking rule in the words of the specification: with `words` the text split on the
space character and `s = maxWords - overlapWords`, the windows `words[i .. i + maxWords)` for
`i = 0, s, 2s, ...` below the number of words, each joined with single spaces and trimmed, of
which those longer than 50 are kept. -/
def chunkSpec (text : String) (maxWords overlapWords : Nat) : List String :=
  let words := splitSpace text
  let s := maxWords - overlapWords
  ((List.range' 0 ((words.length + s - 1) / s) s).map
    (fun i => jsTrim (jsJoin " " ((words.drop i).take maxWords)))).filter
    (fun chunk => decide (jsLength chunk > 50))

/-- A provider that fails on its second call only. -/
def providerFlaky : Provider := fun calls _ => if calls = 1 then .error "quota" else .ok [1, 0]

/-- A text of twelve words, each of nine letters and a comma. -/
def longText : String :=
  "aaaaaaaaa, bbbbbbbbb, ccccccccc, ddddddddd, eeeeeeeee, fffffffff, " ++
    "ggggggggg, hhhhhhhhh, iiiiiiiii, jjjjjjjjj, kkkkkkkkk, lllllllll,"

/-! ## `src/lib/apikeys.js`: listing and sequences of operations -/

/-- An entry of the array returned by `listAPIKeys`: the spread of the record with `key`
replaced by the masked token, and the `usageStats` object. -/
structure KeyListing where
  data : KeyData
  totalRequests : Nat
  explanationRequests : Nat
  chatRequests : Nat
  analyzeRequests : Nat
  deriving DecidableEq, Repr

/-- JavaScript `substring(start)` for a start that may be negative, on the characters of the
string. -/
def jsFrom (s : String) (start : Int) : String := String.mk (s.toList.drop start.toNat)

namespace APIKeyService

/-- The masked token of a listing (line 253): the first 12 characters, three dots and the last
four. -/
def maskKey (key : String) : String :=
  jsPrefix key 12 ++ "..." ++ jsFrom key ((jsLength key : Int) - 4)

/-- The object pushed to `userKeys` for one record (lines 251 to 261). -/
def listingOf (data : KeyData) : KeyListing :=
  { data := { data with key := maskKey data.key }
    totalRequests := data.usage.totalRequests
    explanationRequests := data.usage.explanationRequests
    chatRequests := data.usage.chatRequests
    analyzeRequests := data.usage.analyzeRequests }

/-- Method `listAPIKeys(userId)`. The comparator orders entries by decreasing `createdAt`;
`Array.prototype.sort` is stable, as is the insertion sort used here. -/
def listAPIKeys (s : APIKeyService) (userId : String) : List KeyListing :=
  (((JsMap.values s.keys).filter (fun data => decide (data.userId = userId))).map
    listingOf).insertionSort (fun a b => b.data.createdAt ≤ a.data.createdAt)

end APIKeyService

/-- One call of a state-changing method of `APIKeyService`, with its arguments and the values
it draws from the clock and the random generator. -/
inductive RegistryOp where
  | generateKey (cfg : ProjectConfig) (randomHex uuid : String) (createdAt resetAt : Int)
  | createAPIKey (options : CreateOptions) (randomHex uuid : String) (createdAt resetAt : Int)
  | validateAPIKey (apiKey : String) (requestOrigin : Option String) (now : Int)
  | recordUsage (apiKey endpoint : String) (metadata : List (String × String))
      (usedAt stampedAt : Int)
  | updateAPIKey (apiKey userId : String) (updates : List PatchEntry) (now : Int)
  | updateAllowedDomains (apiKey userId : String) (domains : Option (List String)) (now : Int)
  | deleteAPIKey (apiKey userId : String)

/-- The registry after one call; a call that throws leaves it as it was. -/
def applyOp (hostnameOf : String → Option String) (s : APIKeyService) : RegistryOp → APIKeyService
  | .generateKey cfg randomHex uuid createdAt resetAt =>
    match APIKeyService.generateKey hostnameOf s cfg randomHex uuid createdAt resetAt with
    | .ok (_, s1) => s1
    | .error _ => s
  | .createAPIKey options randomHex uuid createdAt resetAt =>
    (APIKeyService.createAPIKey s options randomHex uuid createdAt resetAt).2
  | .validateAPIKey apiKey requestOrigin now =>
    registryAfter s (APIKeyService.validateAPIKey hostnameOf s apiKey requestOrigin now)
  | .recordUsage apiKey endpoint metadata usedAt stampedAt =>
    APIKeyService.recordUsage s apiKey endpoint metadata usedAt stampedAt
  | .updateAPIKey apiKey userId updates now =>
    (APIKeyService.updateAPIKey s apiKey userId updates now).2
  | .updateAllowedDomains apiKey userId domains now =>
    (APIKeyService.updateAllowedDomains s apiKey userId domains now).2
  | .deleteAPIKey apiKey userId => (APIKeyService.deleteAPIKey s apiKey userId).2

/-- The registry after a sequence of calls. -/
def runOps (hostnameOf : String → Option String) :
    APIKeyService → List RegistryOp → APIKeyService
  | s, [] => s
  | s, op :: rest => runOps hostnameOf (applyOp hostnameOf s op) rest

/-- The registered records bound to project `p`. -/
def boundTo (s : APIKeyService) (p : String) : List KeyData :=
  (JsMap.values s.keys).filter (fun data => decide (data.projectId = some p))

/-- Every `generateKey` call of the sequence is for a project that has no registered key at
the time of the call. -/
def issuesFresh (hostnameOf : String → Option String) :
    APIKeyService → List RegistryOp → Prop
  | _, [] => True
  | s, op :: rest =>
    (match op with
      | .generateKey cfg _ _ _ _ => ∀ p, cfg.projectId = some p → boundTo s p = []
      | _ => True) ∧
    issuesFresh hostnameOf (applyOp hostnameOf s op) rest

/-- The arguments and clock readings of one `recordUsage` call. -/
structure UsageCall where
  endpoint : String
  metadata : List (String × String)
  usedAt : Int
  stampedAt : Int
  deriving DecidableEq, Repr

/-- The usage record that a `recordUsage` call pushes for a key bound to `projectId`. -/
def recordOf (projectId : Option String) (call : UsageCall) : UsageRecord :=
  { timestamp := call.stampedAt
    endpoint := call.endpoint
    extra := call.metadata
    projectId := projectId
    feature := APIKeyService.extractFeatureFromEndpoint call.endpoint }

/-- The registry after the given `recordUsage` calls for `apiKey`, in order. -/
def recordAll (apiKey : String) : APIKeyService → List UsageCall → APIKeyService
  | s, [] => s
  | s, call :: rest =>
    recordAll apiKey
      (APIKeyService.recordUsage s apiKey call.endpoint call.metadata call.usedAt call.stampedAt)
      rest

/-! ## `src/lib/middleware.js` -/

/-- A request: its headers (names in lower case), URL and method. -/
structure Request where
  headers : JsObject
  url : String
  method : String
  deriving DecidableEq, Repr

/-- JavaScript `request.headers.get(name)`. -/
def Request.header (request : Request) (name : String) : Option String :=
  request.headers.lookup name

/-- JavaScript `String.prototype.replace(pattern, "")` with a string pattern, on lists of
characters: the first occurrence of the pattern is removed. -/
def removeFirst (pattern : List Char) : List Char → List Char
  | [] => []
  | c :: cs =>
    if pattern.isPrefixOf (c :: cs) then (c :: cs).drop pattern.length
    else c :: removeFirst pattern cs

/-- The expression of line 4 of `middleware.js`: the `x-api-key` header, else the
`authorization` header with "Bearer " removed. -/
def presentedKey (request : Request) : Option String :=
  if truthy (request.header "x-api-key") then request.header "x-api-key"
  else (request.header "authorization").map
    (fun value => String.mk (removeFirst "Bearer ".toList value.toList))

/-- The object returned by `authenticateAPIKey`. -/
inductive AuthResult where
  | rejected (error : String) (status : Nat)
  | authenticated (keyData : KeyData) (apiKey : String)
  deriving DecidableEq, Repr

/-- A response: one built by the middleware from an error message, or the one the wrapped
handler returned. -/
inductive Response where
  | failure (status : Nat) (error : String)
  | handled (status : Nat) (body : String)
  deriving DecidableEq, Repr

/-- A wrapped handler, called with the request and the authentication context: the status and
body of its response, or the message of the exception it throws. The handlers of this
repository do not touch the key registry. -/
abbrev Handler := Request → KeyData → String → Except String (Nat × String)

/-- What a call of the function built by `createAuthenticatedHandler` leaves behind: the
response, the registry, and whether the wrapped handler was called. -/
structure Handled where
  response : Response
  registry : APIKeyService
  handlerRan : Bool
  deriving DecidableEq, Repr

/-- Function `authenticateAPIKey(request)` at clock reading `now`. -/
def authenticateAPIKey (hostnameOf : String → Option String) (s : APIKeyService)
    (request : Request) (now : Int) : Except JsError (AuthResult × APIKeyService) :=
  if !truthy (presentedKey request) then .ok (.rejected "API key required" 401, s)
  else
    let apiKey := (presentedKey request).getD ""
    match APIKeyService.validateAPIKey hostnameOf s apiKey none now with
    | .error e => .error e
    | .ok (.invalid error, s1) => .ok (.rejected error 403, s1)
    | .ok (.valid keyData, s1) => .ok (.authenticated keyData apiKey, s1)

/-- Method `hasFeatureAccess(keyData, feature)` of `APIKeyService`. -/
def hasFeatureAccess (keyData : KeyData) (feature : String) : Bool :=
  keyData.features.contains feature

/-- Function `requireFeature(keyData, feature)`: the error of the refusal, if any. -/
def requireFeature (keyData : KeyData) (feature : String) : Option String :=
  if hasFeatureAccess keyData feature then none
  else some ("Feature '" ++ feature ++ "' not available for this API key")

/-- The metadata object that the middleware passes to `recordUsage` (lines 68 to 71). -/
def usageMetadata (request : Request) : List (String × String) :=
  [("method", request.method), ("userAgent", (request.header "user-agent").getD "null")]

/-- The feature check of `createAuthenticatedHandler` (lines 56 to 64): the error of the
refusal, if any. -/
def featureGate (requiredFeature : Option String) (keyData : KeyData) : Option String :=
  if truthy requiredFeature then requireFeature keyData (requiredFeature.getD "") else none

/-- The function returned by `createAuthenticatedHandler(handler, requiredFeature)`, applied to
a request. `pathnameOf` is `new URL(_).pathname` (`none` when the constructor throws); `now`,
`usedAt` and `stampedAt` are the clock readings of the validation and of `recordUsage`. The
`keyData` of the authentication context is the registered object itself, which `recordUsage`
mutates before the handler is called: the handler sees the record with this request
counted. -/
def createAuthenticatedHandler (hostnameOf pathnameOf : String → Option String)
    (handler : Handler) (requiredFeature : Option String) (s : APIKeyService)
    (request : Request) (now usedAt stampedAt : Int) : Handled :=
  match authenticateAPIKey hostnameOf s request now with
  | .error _ => ⟨.failure 500 "Internal server error", s, false⟩
  | .ok (.rejected error status, s1) => ⟨.failure status error, s1, false⟩
  | .ok (.authenticated keyData apiKey, s1) =>
    match featureGate requiredFeature keyData with
    | some error => ⟨.failure 403 error, s1, false⟩
    | none =>
      match pathnameOf request.url with
      | none => ⟨.failure 500 "Internal server error", s1, false⟩
      | some pathname =>
        let s2 := APIKeyService.recordUsage s1 apiKey pathname (usageMetadata request)
          usedAt stampedAt
        match handler request (APIKeyService.bumpUsage keyData pathname usedAt) apiKey with
        | .ok (status, body) => ⟨.handled status body, s2, true⟩
        | .error _ => ⟨.failure 500 "Internal server error", s2, true⟩

/-! ## The fragments of `src/app/api/chat/route.js` and `src/app/api/explain/route.js` -/

/-- An entry of `relevantContent`; `contentType` is set by the explain handler only. -/
structure Fragment where
  text : String
  type : String
  contentType : Option String
  score : Option Rat
  deriving DecidableEq, Repr

/-- The value of `a || b || fallback` on optional strings. -/
def firstTruthy (a b : Option String) (fallback : String) : String :=
  if truthy a then a.getD fallback else if truthy b then b.getD fallback else fallback

/-- The test `match.score > 0.5`, false when the score is `undefined`. -/
def scoreAboveHalf (m : Match) : Bool :=
  match m.score with
  | none => false
  | some x => decide ((1 : Rat) / 2 < x)

/-- The `map` callback of the chat handler (lines 48 to 52). -/
def chatFragment (m : Match) : Fragment :=
  { text := firstTruthy (propOf m.metadata "originalContent") (propOf m.metadata "text") ""
    type := firstTruthy (propOf m.metadata "type") none "content"
    contentType := none
    score := m.score }

/-- The `map` callback of the explain handler (lines 68 to 73). -/
def explainFragment (m : Match) : Fragment :=
  { text := firstTruthy (propOf m.metadata "originalContent") (propOf m.metadata "text") ""
    type := firstTruthy (propOf m.metadata "type") none "content"
    contentType := some (firstTruthy (propOf m.metadata "contentType") none "unknown")
    score := m.score }

/-- The `relevantContent` of `handleChat` (lines 46 to 52) from the results of its two
queries. -/
def chatRelevantContent (contentMatches interactiveMatches : List Match) : List Fragment :=
  ((contentMatches ++ interactiveMatches).filter scoreAboveHalf).map chatFragment

/-- The `relevantContent` of `handleExplain` (lines 56 to 73) from the result of the main
content query and, when that has fewer than 2 matches, the result of the interactive query. -/
def explainRelevantContent (found interactiveMatches : List Match) : List Fragment :=
  let found := if found.length < 2 then found ++ interactiveMatches else found
  (found.filter scoreAboveHalf).map explainFragment

/-! ## Scenarios over listing, middleware and retrieval -/

/-- A fetched document with four links: two with a visible text longer than 3, one with a
short text and one without text. -/
def linksDocument : ScrapedData :=
  { emptyDocument with
    links := [⟨some "Home", "https://example.com/", true⟩, ⟨some "Go", "https://example.com/go", true⟩,
      ⟨none, "https://example.com/x", true⟩, ⟨some "Pricing", "https://example.com/pricing", true⟩] }

/-- The registry after two `generateKey` calls for the same project `p1`. -/
def reissuedRegistry : APIKeyService :=
  runOps demoUrls APIKeyService.new
    [.generateKey { projectId := some "p1", name := some "Docs", url := "https://example.com" }
        "aa" "id-1" 0 0,
      .generateKey { projectId := some "p1", name := some "Docs", url := "https://example.com" }
        "bb" "id-2" 10 10]

/-- A request that presents the key of `projectRegistry` from a foreign origin. -/
def foreignRequest : Request :=
  { headers := [("x-api-key", "learn_cd"), ("origin", "https://evilexample.com")]
    url := "https://api.example.com/api/chat", method := "POST" }

/-- A request that presents the same key in the `authorization` header, from the origin of the
project. -/
def bearerRequest : Request :=
  { headers := [("authorization", "Bearer learn_cd"), ("origin", "https://example.com")]
    url := "https://api.example.com/api/chat", method := "POST" }

/-- A URL parser that knows the path of the chat endpoint. -/
def demoPaths : String → Option String := fun url =>
  if url = "https://api.example.com/api/chat" then some "/api/chat" else none

/-- A handler that always answers 200. -/
def handlerOk : Handler := fun _ _ _ => .ok (200, "ok")

/-- A handler that always throws. -/
def handlerThrows : Handler := fun _ _ _ => .error "handler failed"

/-- A registry with three keys of two owners, created at clock readings 5, 9 and 7. -/
def ownersRegistry : APIKeyService :=
  runOps noUrls APIKeyService.new
    [.createAPIKey { name := some "first", userId := some "ann" } "a1" "id-1" 5 5,
      .createAPIKey { name := some "second", userId := some "ann" } "a2" "id-2" 9 9,
      .createAPIKey { name := some "third", userId := some "bob" } "b1" "id-3" 7 7]

/-- The fields of a key record other than `name`, `description`, `isActive`, `rateLimit`,
`features`, `metadata` and `updatedAt`. -/
def frozenFields (k : KeyData) :
    String × String × String × Option String × Option String × Option String × Int ×
      Option Int × Usage :=
  (k.key, k.id, k.userId, k.projectId, k.projectName, k.projectUrl, k.createdAt, k.lastUsed,
    k.usage)

/-- The usage log of a token: `this.usage.get(apiKey) || []`. -/
def logOf (s : APIKeyService) (apiKey : String) : List UsageRecord :=
  (s.usage.get apiKey).getD []

/-- Forty `recordUsage` calls on the chat endpoint. -/
def fortyCalls : List UsageCall := List.replicate 40 ⟨"/api/chat", [], 1, 1⟩

/-- Consistent counters for a log of the given length: the hourly counter and the sum of the
three feature counters are at most the total, and the log is no longer than the total. -/
def usageOk (u : Usage) (logLength : Nat) : Prop :=
  0 ≤ u.requestsThisHour ∧ u.requestsThisHour ≤ u.totalRequests ∧
    u.explanationRequests + u.chatRequests + u.analyzeRequests ≤ u.totalRequests ∧
    logLength ≤ u.totalRequests

/-- Every registered key has consistent counters for its usage log. -/
def usageSound (s : APIKeyService) : Prop :=
  ∀ (apiKey : String) (k : KeyData), s.keys.get apiKey = some k →
    usageOk k.usage (logOf s apiKey).length

/-- A sequence of calls over two projects and one stand-alone key, each project being issued
one key. -/
def busyOps : List RegistryOp :=
  [.generateKey { projectId := some "p1", name := some "Docs", url := "https://example.com" }
      "aa" "id-1" 0 0,
    .recordUsage "learn_aa" "/api/chat" [] 1 1,
    .createAPIKey { name := some "first", userId := some "ann" } "a1" "id-2" 2 2,
    .validateAPIKey "learn_aa" none 5000000,
    .recordUsage "learn_aa" "/api/explain" [] 5000001 5000001,
    .generateKey { projectId := some "p2", name := some "Blog", url := "https://docs.example.com" }
      "bb" "id-3" 5000002 5000002,
    .updateAPIKey "learn_aa" "anonymous" [.isActive false] 5000003,
    .updateAllowedDomains "learn_bb" "anonymous" (some []) 5000004,
    .deleteAPIKey "ai_assist_a1" "ann"]

/-- The counters of a record that only `recordUsage` moves: the total and the three feature
counters. -/
def billedCounters (k : KeyData) : Nat × Nat × Nat × Nat :=
  (k.usage.totalRequests, k.usage.explanationRequests, k.usage.chatRequests,
    k.usage.analyzeRequests)

/-- The record of the key held by `projectRegistry`. -/
def projectKey : KeyData :=
  match APIKeyService.generateKey demoUrls APIKeyService.new
    { projectId := some "p1", name := some "Docs", url := "https://example.com" }
    "cd" "id-2" 0 0 with
  | .ok (k, _) => k
  | .error _ => freshKey

/-- A match of the main content query, with score 0.7. -/
def mainMatch : Match :=
  ⟨"m1", some (7 / 10), some [("text", "Pricing starts at 5 dollars"), ("type", "paragraph")]⟩

/-- A match of the interactive query, with score 0.9. -/
def interactiveMatch : Match :=
  ⟨"i1", some (9 / 10), some [("text", "Buy now"), ("type", "link")]⟩

/-! ## Sequences of calls on a `VectorDatabase` -/

/-- One call of a method of `VectorDatabase`, with its arguments and the behaviour of the
durable backend during the call. -/
inductive DbOp where
  | initializeIndex (outcome : InitOutcome)
  | upsertVectors (outcome : InitOutcome) (write : Except String UpsertResult)
      (vectors : List VectorInput) (nameSpace : Option String)
  | queryVectors (outcome : InitOutcome) (response : Except String (Option (List Match)))
      (queryEmbedding : List Rat) (options : QueryOptions)
  | deleteVectors (outcome : InitOutcome) (removal : Except String Unit) (ids : List String)
  | deleteByFilter (outcome : InitOutcome) (removal : Except String Unit)
      (filterApiKey : Option String)
  | getIndexStats (outcome : InitOutcome) (described : Except String IndexStats)
  | storeEmbeddings (env : DbEnv) (t : Nat) (embeddings : List EmbeddingRecord)
      (projectMetadata : ProjectMetadata) (timestamp : String)
  | storeMetadata (env : DbEnv) (t : Nat) (projectId : Option String) (url : String)
      (name : Option String) (json : String) (nowMs : Int) (timestamp : String)

/-- The database after one call, whether the call returns or throws. -/
def applyDbOp (db : VectorDatabase) : DbOp → VectorDatabase
  | .initializeIndex outcome => db.initializeIndex outcome
  | .upsertVectors outcome write vectors nameSpace =>
    (db.upsertVectors outcome write vectors nameSpace).2
  | .queryVectors outcome response queryEmbedding options =>
    (db.queryVectors outcome response queryEmbedding options).2
  | .deleteVectors outcome removal ids => (db.deleteVectors outcome removal ids).2
  | .deleteByFilter outcome removal filterApiKey =>
    (db.deleteByFilter outcome removal filterApiKey).2
  | .getIndexStats outcome described => (db.getIndexStats outcome described).2
  | .storeEmbeddings env t embeddings projectMetadata timestamp =>
    (db.storeEmbeddings env t embeddings projectMetadata timestamp).2.1
  | .storeMetadata env t projectId url name json nowMs timestamp =>
    (db.storeMetadata env t projectId url name json nowMs timestamp).2.1

/-- The database after a sequence of calls. -/
def runDbOps : VectorDatabase → List DbOp → VectorDatabase
  | db, [] => db
  | db, op :: rest => runDbOps (applyDbOp db op) rest

/-- The fallback store of the database, if it has one, holds no vector; and a database in
fallback mode has a store. -/
def storeEmpty (db : VectorDatabase) : Prop :=
  (db.fallbackMode = true → ∃ st, db.store = some st) ∧
    ∀ st, db.store = some st → st.vectors = []

/-- Calls made for project B while the durable backend is down: an upsert under
`B_mainContent`, a deletion and a read of the statistics. -/
def projectBOps : List DbOp :=
  [.upsertVectors .failedBeforeClient (.error "unreachable") [vectorV] (some "B_mainContent"),
    .deleteVectors .failedBeforeClient (.error "unreachable") ["w"],
    .getIndexStats .failedBeforeClient (.error "unreachable")]

/-! ## Lemmas on `JsMap` -/

namespace JsMap

variable {κ α : Type} [DecidableEq κ]

theorem get_set_self (m : JsMap κ α) (k : κ) (v : α) : (m.set k v).get k = some v := by
  induction m with
  | nil => simp [set, get]
  | cons e rest ih =>
    obtain ⟨k1, v1⟩ := e
    by_cases h : k1 = k
    · simp [set, get, h]
    · simp [set, get, h, ih]

theorem get_set_of_ne (m : JsMap κ α) (k k2 : κ) (v : α) (hne : k2 ≠ k) :
    (m.set k v).get k2 = m.get k2 := by
  induction m with
  | nil =>
    have h1 : ¬ k = k2 := fun h => hne h.symm
    simp [set, get, h1]
  | cons e rest ih =>
    obtain ⟨k1, v1⟩ := e
    by_cases h : k1 = k
    · subst h
      have h1 : ¬ k1 = k2 := fun h => hne h.symm
      simp [set, get, h1]
    · by_cases h2 : k1 = k2
      · subst h2
        simp [set, get, h]
      · simp [set, get, h, h2, ih]

theorem set_get_self (m : JsMap κ α) (k : κ) (v : α) (hget : m.get k = some v) :
    m.set k v = m := by
  induction m with
  | nil => simp [get] at hget
  | cons e rest ih =>
    obtain ⟨k1, v1⟩ := e
    by_cases h : k1 = k
    · simp [get, h] at hget
      simp [set, h, hget]
    · simp [get, h] at hget
      simp [set, h, ih hget]

end JsMap

/-! ## Lemmas on `validateAPIKey` and `recordUsage` -/

section Registry

open APIKeyService

theorem resetHour_of_le (k : KeyData) (now : Int)
    (h : now - 60 * 60 * 1000 ≤ k.usage.lastHourReset) : resetHour k now = k := by
  unfold resetHour
  simp only
  rw [if_neg (not_lt.mpr h)]

theorem resetHour_of_lt (k : KeyData) (now : Int)
    (h : k.usage.lastHourReset < now - 60 * 60 * 1000) :
    resetHour k now =
      { k with usage := { k.usage with requestsThisHour := 0, lastHourReset := now } } := by
  unfold resetHour
  simp only
  rw [if_pos h]

theorem validateAPIKey_known (hostnameOf : String → Option String) (s : APIKeyService)
    (apiKey : String) (origin : Option String) (now : Int) (k : KeyData)
    (hk : s.keys.get apiKey = some k) (hact : k.isActive = true)
    (hdom : domainCheck hostnameOf k origin = .ok true) :
    validateAPIKey hostnameOf s apiKey origin now =
      .ok (if ((resetHour k now).usage.requestsThisHour : Int) ≥ (resetHour k now).rateLimit
            then .invalid "Rate limit exceeded" else .valid (resetHour k now),
          { s with keys := s.keys.set apiKey (resetHour k now) }) := by
  unfold validateAPIKey
  simp only [hk, hact, hdom]
  by_cases hlim : ((resetHour k now).usage.requestsThisHour : Int) ≥ (resetHour k now).rateLimit
  · simp [hlim]
  · simp [hlim]


theorem get_after_record (s : APIKeyService) (apiKey endpoint : String)
    (metadata : List (String × String)) (usedAt stampedAt : Int) (k : KeyData)
    (hk : s.keys.get apiKey = some k) :
    (recordUsage s apiKey endpoint metadata usedAt stampedAt).keys.get apiKey =
      some (bumpUsage k endpoint usedAt) := by
  unfold recordUsage
  simp only [hk]
  exact JsMap.get_set_self _ _ _

theorem runRound_some (hostnameOf : String → Option String) (s s1 : APIKeyService)
    (apiKey : String) (r : Round) (k : KeyData)
    (hk : s.keys.get apiKey = some k) (hact : k.isActive = true)
    (hclock : r.validateAt - 60 * 60 * 1000 ≤ k.usage.lastHourReset)
    (hrun : runRound hostnameOf s apiKey r = some s1) :
    (k.usage.requestsThisHour : Int) < k.rateLimit ∧
      s1.keys.get apiKey = some (bumpUsage k r.endpoint r.usedAt) := by
  unfold runRound at hrun
  cases hdom : domainCheck hostnameOf k r.origin with
  | error e =>
    simp [validateAPIKey, hk, hact, hdom] at hrun
  | ok b =>
    cases b with
    | false => simp [validateAPIKey, hk, hact, hdom] at hrun
    | true =>
      rw [validateAPIKey_known hostnameOf s apiKey r.origin r.validateAt k hk hact hdom,
        resetHour_of_le k r.validateAt hclock] at hrun
      by_cases hlim : (k.usage.requestsThisHour : Int) ≥ k.rateLimit
      · simp [hlim] at hrun
      · simp only [hlim, if_false] at hrun
        have hs : s1 = recordUsage { s with keys := s.keys.set apiKey k } apiKey r.endpoint
            r.metadata r.usedAt r.stampedAt := by
          simpa using hrun.symm
        refine ⟨not_le.mp hlim, ?_⟩
        rw [hs]
        exact get_after_record _ _ _ _ _ _ k (JsMap.get_set_self _ _ _)


theorem bumpUsage_frame (k : KeyData) (endpoint : String) (usedAt : Int) :
    (bumpUsage k endpoint usedAt).isActive = k.isActive ∧
    (bumpUsage k endpoint usedAt).rateLimit = k.rateLimit ∧
    (bumpUsage k endpoint usedAt).metadata = k.metadata ∧
    (bumpUsage k endpoint usedAt).usage.lastHourReset = k.usage.lastHourReset ∧
    (bumpUsage k endpoint usedAt).usage.requestsThisHour = k.usage.requestsThisHour + 1 ∧
    (bumpUsage k endpoint usedAt).usage.totalRequests = k.usage.totalRequests + 1 := by
  unfold bumpUsage
  simp only
  split_ifs <;> simp

theorem runRounds_counter (hostnameOf : String → Option String) (apiKey : String) :
    ∀ (rounds : List Round) (s s1 : APIKeyService) (k : KeyData),
      s.keys.get apiKey = some k → k.isActive = true →
      (∀ r ∈ rounds, r.validateAt < k.usage.lastHourReset + 60 * 60 * 1000) →
      runRounds hostnameOf apiKey s rounds = some s1 →
      ∃ k1, s1.keys.get apiKey = some k1 ∧ k1.isActive = true ∧ k1.rateLimit = k.rateLimit ∧
        k1.metadata = k.metadata ∧ k1.usage.lastHourReset = k.usage.lastHourReset ∧
        k1.usage.requestsThisHour = k.usage.requestsThisHour + rounds.length := by
  intro rounds
  induction rounds with
  | nil =>
    intro s s1 k hk hact _ hrun
    simp only [runRounds, Option.some.injEq] at hrun
    subst hrun
    exact ⟨k, hk, hact, rfl, rfl, rfl, by simp⟩
  | cons r rs ih =>
    intro s s1 k hk hact hclock hrun
    unfold runRounds at hrun
    cases hstep : runRound hostnameOf s apiKey r with
    | none => simp [hstep] at hrun
    | some s2 =>
      simp only [hstep] at hrun
      have hr : r.validateAt - 60 * 60 * 1000 ≤ k.usage.lastHourReset := by
        have := hclock r (List.mem_cons_self r rs)
        omega
      obtain ⟨_, hk2⟩ := runRound_some hostnameOf s s2 apiKey r k hk hact hr hstep
      obtain ⟨f1, f2, f3, f4, f5, _⟩ := bumpUsage_frame k r.endpoint r.usedAt
      have hclock2 : ∀ r2 ∈ rs,
          r2.validateAt < (bumpUsage k r.endpoint r.usedAt).usage.lastHourReset + 60 * 60 * 1000 := by
        intro r2 hr2
        rw [f4]
        exact hclock r2 (List.mem_cons_of_mem r hr2)
      obtain ⟨k1, g1, g2, g3, g4, g5, g6⟩ :=
        ih s2 s1 (bumpUsage k r.endpoint r.usedAt) hk2 (f1.trans hact) hclock2 hrun
      refine ⟨k1, g1, g2, g3.trans f2, g4.trans f3, g5.trans f4, ?_⟩
      rw [g6, f5, List.length_cons]
      omega

/-- C1: a key with rate limit `R` and hourly counter 0 that has gone through `R` rounds of a
successful `validateAPIKey` followed by `recordUsage`, all at clock readings less than one hour
after its `lastHourReset`, is refused with "Rate limit exceeded" by the next `validateAPIKey`
made within that hour (without origin, or with an origin that passes the domain block). -/
theorem rate_limit_exceeded_after_limit_rounds (hostnameOf : String → Option String)
    (s s1 : APIKeyService) (apiKey : String) (k : KeyData) (R : Nat) (rounds : List Round)
    (origin : Option String) (now : Int)
    (hk : s.keys.get apiKey = some k) (hact : k.isActive = true)
    (hlimit : k.rateLimit = (R : Int)) (hzero : k.usage.requestsThisHour = 0)
    (hlen : rounds.length = R)
    (hclock : ∀ r ∈ rounds, r.validateAt < k.usage.lastHourReset + 60 * 60 * 1000)
    (hrun : runRounds hostnameOf apiKey s rounds = some s1)
    (hnow : now < k.usage.lastHourReset + 60 * 60 * 1000)
    (hdom : APIKeyService.domainCheck hostnameOf k origin = .ok true) :
    validationOf (APIKeyService.validateAPIKey hostnameOf s1 apiKey origin now) =
      .ok (.invalid "Rate limit exceeded") := by
  obtain ⟨k1, g1, g2, g3, g4, g5, g6⟩ :=
    runRounds_counter hostnameOf apiKey rounds s s1 k hk hact hclock hrun
  have hdom1 : domainCheck hostnameOf k1 origin = .ok true := by
    unfold domainCheck at hdom ⊢
    rw [g4]
    exact hdom
  have hle : now - 60 * 60 * 1000 ≤ k1.usage.lastHourReset := by
    rw [g5]
    omega
  rw [validateAPIKey_known hostnameOf s1 apiKey origin now k1 g1 g2 hdom1,
    resetHour_of_le k1 now hle]
  have hge : (k1.usage.requestsThisHour : Int) ≥ k1.rateLimit := by
    rw [g3, hlimit, g6, hzero, hlen]
    simp
  simp [validationOf, Except.map, hge]

theorem validateAPIKey_same_registry (hostnameOf : String → Option String) (s : APIKeyService)
    (apiKey : String) (origin : Option String) (now : Int) (k : KeyData)
    (hk : s.keys.get apiKey = some k) (hact : k.isActive = true)
    (hdom : domainCheck hostnameOf k origin = .ok true)
    (hclock : now - 60 * 60 * 1000 ≤ k.usage.lastHourReset) :
    validateAPIKey hostnameOf s apiKey origin now =
      .ok (if (k.usage.requestsThisHour : Int) ≥ k.rateLimit
            then .invalid "Rate limit exceeded" else .valid k, s) := by
  rw [validateAPIKey_known hostnameOf s apiKey origin now k hk hact hdom,
    resetHour_of_le k now hclock, JsMap.set_get_self s.keys apiKey k hk]

theorem runRound_progress (hostnameOf : String → Option String) (s : APIKeyService)
    (apiKey : String) (r : Round) (k : KeyData)
    (hk : s.keys.get apiKey = some k) (hact : k.isActive = true)
    (hdom : domainCheck hostnameOf k r.origin = .ok true)
    (hclock : r.validateAt - 60 * 60 * 1000 ≤ k.usage.lastHourReset)
    (hlt : (k.usage.requestsThisHour : Int) < k.rateLimit) :
    runRound hostnameOf s apiKey r =
      some (recordUsage s apiKey r.endpoint r.metadata r.usedAt r.stampedAt) := by
  unfold runRound
  rw [validateAPIKey_same_registry hostnameOf s apiKey r.origin r.validateAt k hk hact hdom hclock]
  have hlim : ¬ (k.usage.requestsThisHour : Int) ≥ k.rateLimit := not_le.mpr hlt
  simp [hlim]

theorem domainCheck_no_restriction (hostnameOf : String → Option String) (k : KeyData)
    (origin : Option String) (hnone : k.metadata.allowedDomains = some []) :
    domainCheck hostnameOf k origin = .ok true := by
  unfold domainCheck
  cases origin with
  | none => rfl
  | some o =>
    by_cases ho : o = ""
    · simp [ho]
    · simp [ho, hnone]

theorem createAPIKey_get (s : APIKeyService) (options : CreateOptions) (randomHex uuid : String)
    (createdAt resetAt : Int) :
    (createAPIKey s options randomHex uuid createdAt resetAt).2.keys.get
        (createAPIKey s options randomHex uuid createdAt resetAt).1.key =
      some (createAPIKey s options randomHex uuid createdAt resetAt).1 := by
  unfold createAPIKey
  exact JsMap.get_set_self _ _ _


theorem validateSeq_same (hostnameOf : String → Option String) (s : APIKeyService)
    (apiKey : String) (k : KeyData) (hk : s.keys.get apiKey = some k) (hact : k.isActive = true)
    (hlt : (k.usage.requestsThisHour : Int) < k.rateLimit) :
    ∀ calls : List (Option String × Int),
      (∀ c ∈ calls, domainCheck hostnameOf k c.1 = .ok true ∧
        c.2 - 60 * 60 * 1000 ≤ k.usage.lastHourReset) →
      validateSeq hostnameOf apiKey s calls = calls.map (fun _ => .ok (.valid k)) := by
  intro calls
  induction calls with
  | nil => intro _; rfl
  | cons c rest ih =>
    intro hall
    obtain ⟨origin, now⟩ := c
    obtain ⟨hdom, hclock⟩ := hall (origin, now) (List.mem_cons_self _ _)
    have hlim : ¬ (k.usage.requestsThisHour : Int) ≥ k.rateLimit := not_le.mpr hlt
    have hv := validateAPIKey_same_registry hostnameOf s apiKey origin now k hk hact hdom hclock
    simp only [hlim, if_false] at hv
    unfold validateSeq
    simp only [hv, validationOf, registryAfter, Except.map, List.map_cons]
    rw [ih (fun c hc => hall c (List.mem_cons_of_mem _ hc))]

/-- C4 (amended): on a key freshly issued by `createAPIKey` with `rateLimit = 2`, three
consecutive `validateAPIKey` calls less than a minute after issuance all return valid, since
validation does not count requests; when each successful validation is followed by
`recordUsage`, the first two rounds succeed and the third validation returns
"Rate limit exceeded". -/
theorem fresh_key_limit_two (hostnameOf : String → Option String) (s : APIKeyService)
    (options : CreateOptions) (randomHex uuid : String) (createdAt resetAt : Int)
    (o1 o2 o3 : Option String) (t1 t2 t3 : Int) (r1 r2 : Round)
    (hlimit : options.rateLimit = some 2)
    (h1 : t1 < resetAt + 60000) (h2 : t2 < resetAt + 60000) (h3 : t3 < resetAt + 60000)
    (hr1 : r1.validateAt < resetAt + 60000) (hr2 : r2.validateAt < resetAt + 60000) :
    validateSeq hostnameOf (createAPIKey s options randomHex uuid createdAt resetAt).1.key
        (createAPIKey s options randomHex uuid createdAt resetAt).2
        [(o1, t1), (o2, t2), (o3, t3)] =
      [.ok (.valid (createAPIKey s options randomHex uuid createdAt resetAt).1),
        .ok (.valid (createAPIKey s options randomHex uuid createdAt resetAt).1),
        .ok (.valid (createAPIKey s options randomHex uuid createdAt resetAt).1)] ∧
    ∃ s2, runRounds hostnameOf (createAPIKey s options randomHex uuid createdAt resetAt).1.key
        (createAPIKey s options randomHex uuid createdAt resetAt).2 [r1, r2] = some s2 ∧
      validationOf (validateAPIKey hostnameOf s2
        (createAPIKey s options randomHex uuid createdAt resetAt).1.key o3 t3) =
        .ok (.invalid "Rate limit exceeded") := by
  have hget := createAPIKey_get s options randomHex uuid createdAt resetAt
  generalize hs0 : (createAPIKey s options randomHex uuid createdAt resetAt).2 = s0 at hget ⊢
  have hact : (createAPIKey s options randomHex uuid createdAt resetAt).1.isActive = true := rfl
  have hmeta : (createAPIKey s options randomHex uuid createdAt resetAt).1.metadata.allowedDomains
      = some [] := rfl
  have hzero : (createAPIKey s options randomHex uuid createdAt resetAt).1.usage.requestsThisHour
      = 0 := rfl
  have hreset : (createAPIKey s options randomHex uuid createdAt resetAt).1.usage.lastHourReset
      = resetAt := rfl
  have hrate : (createAPIKey s options randomHex uuid createdAt resetAt).1.rateLimit = 2 := by
    simp [createAPIKey, hlimit]
  generalize hk0 : (createAPIKey s options randomHex uuid createdAt resetAt).1 = k0 at *
  generalize hkey : k0.key = apiKey at *
  have hdom : ∀ o, domainCheck hostnameOf k0 o = .ok true :=
    fun o => domainCheck_no_restriction hostnameOf k0 o hmeta
  constructor
  · have hlt : (k0.usage.requestsThisHour : Int) < k0.rateLimit := by
      rw [hzero, hrate]; norm_num
    have := validateSeq_same hostnameOf s0 apiKey k0 hget hact hlt [(o1, t1), (o2, t2), (o3, t3)]
      (by
        intro c hc
        refine ⟨hdom c.1, ?_⟩
        rw [hreset]
        simp only [List.mem_cons, List.mem_singleton, List.not_mem_nil, or_false] at hc
        rcases hc with rfl | rfl | rfl <;> simp only <;> omega)
    simpa using this
  · -- first round
    have hlt0 : (k0.usage.requestsThisHour : Int) < k0.rateLimit := by
      rw [hzero, hrate]; norm_num
    have hstep1 := runRound_progress hostnameOf s0 apiKey r1 k0 hget hact (hdom r1.origin)
      (by rw [hreset]; omega) hlt0
    have hget1 := get_after_record s0 apiKey r1.endpoint r1.metadata r1.usedAt r1.stampedAt k0 hget
    obtain ⟨a1, a2, a3, a4, a5, _⟩ := bumpUsage_frame k0 r1.endpoint r1.usedAt
    generalize recordUsage s0 apiKey r1.endpoint r1.metadata r1.usedAt r1.stampedAt = s1 at *
    generalize bumpUsage k0 r1.endpoint r1.usedAt = k1 at *
    have hdom1 : ∀ o, domainCheck hostnameOf k1 o = .ok true :=
      fun o => domainCheck_no_restriction hostnameOf k1 o (by rw [a3]; exact hmeta)
    have hlt1 : (k1.usage.requestsThisHour : Int) < k1.rateLimit := by
      rw [a5, a2, hzero, hrate]; norm_num
    have hstep2 := runRound_progress hostnameOf s1 apiKey r2 k1 hget1 (a1.trans hact)
      (hdom1 r2.origin) (by rw [a4, hreset]; omega) hlt1
    have hget2 := get_after_record s1 apiKey r2.endpoint r2.metadata r2.usedAt r2.stampedAt k1 hget1
    obtain ⟨b1, b2, b3, b4, b5, _⟩ := bumpUsage_frame k1 r2.endpoint r2.usedAt
    generalize recordUsage s1 apiKey r2.endpoint r2.metadata r2.usedAt r2.stampedAt = s2 at *
    generalize bumpUsage k1 r2.endpoint r2.usedAt = k2 at *
    refine ⟨s2, ?_, ?_⟩
    · simp [runRounds, hstep1, hstep2]
    · have hdom2 : domainCheck hostnameOf k2 o3 = .ok true :=
        domainCheck_no_restriction hostnameOf k2 o3 (by rw [b3, a3]; exact hmeta)
      rw [validateAPIKey_same_registry hostnameOf s2 apiKey o3 t3 k2 hget2
        (b1.trans (a1.trans hact)) hdom2 (by rw [b4, a4, hreset]; omega)]
      have hge : (k2.usage.requestsThisHour : Int) ≥ k2.rateLimit := by
        rw [b5, b2, a5, a2, hzero, hrate]; norm_num
      simp [validationOf, Except.map, hge]


/-- C3 (amended): for a known, active key and a clock reading `now` strictly more than one hour
after `lastHourReset`, `validateAPIKey` (without origin, or with one that passes the domain
block) sets `requestsThisHour` to 0 and `lastHourReset` to `now` before the limit check, and so
returns valid whenever `rateLimit > 0`, whatever the counter was. -/
theorem reset_after_more_than_one_hour (hostnameOf : String → Option String)
    (s : APIKeyService) (apiKey : String) (origin : Option String) (now : Int) (k : KeyData)
    (hk : s.keys.get apiKey = some k) (hact : k.isActive = true)
    (hdom : domainCheck hostnameOf k origin = .ok true)
    (hlate : k.usage.lastHourReset + 60 * 60 * 1000 < now) (hpos : 0 < k.rateLimit) :
    validateAPIKey hostnameOf s apiKey origin now =
      .ok (.valid { k with usage := { k.usage with requestsThisHour := 0, lastHourReset := now } },
        { s with keys := (s.keys.set apiKey
            { k with usage := { k.usage with requestsThisHour := 0, lastHourReset := now } }) }) := by
  have hlt : k.usage.lastHourReset < now - 60 * 60 * 1000 := by omega
  rw [validateAPIKey_known hostnameOf s apiKey origin now k hk hact hdom,
    resetHour_of_lt k now hlt]
  have hlim : ¬ ((0 : Nat) : Int) ≥ k.rateLimit := by
    simp only [Nat.cast_zero, ge_iff_le, not_le]
    exact hpos
  simp only [hlim, if_false]

/-- C3, as stated, fails at exactly one hour: the key of `usedRegistry` is known and active, has
rate limit 2, counter 2 and `lastHourReset = 0`; at clock reading 3600000 the counter is not
reset and the validation is refused. -/
theorem no_reset_at_exactly_one_hour :
    (usedRegistry.keys.get "ai_assist_ab").map
        (fun k => (k.isActive, k.rateLimit, k.usage.requestsThisHour, k.usage.lastHourReset)) =
      some (true, 2, 2, 0) ∧
    (3600000 : Int) - 0 ≥ 60 * 60 * 1000 ∧
    validationOf (validateAPIKey noUrls usedRegistry "ai_assist_ab" none 3600000) =
      .ok (.invalid "Rate limit exceeded") := by
  refine ⟨by decide, by norm_num, by rfl⟩

theorem pushUsage_eq (old : List UsageRecord) (rec : UsageRecord) :
    pushUsage old rec = (old ++ [rec]).drop (old.length + 1 - 1000) := by
  unfold pushUsage
  simp only [List.length_append, List.length_singleton]
  split_ifs with h
  · rfl
  · have : old.length + 1 - 1000 = 0 := by omega
    rw [this, List.drop_zero]

/-- C5: `recordUsage` leaves the registry unchanged for an unknown token; for a known one it
adds 1 to `totalRequests` and to `requestsThisHour`, adds 1 to the first of
`explanationRequests`, `chatRequests`, `analyzeRequests` whose word (explain, chat, analyze) the
endpoint contains and to none otherwise, pushes one usage record labelled explanation, chat,
analysis or unknown by the same rule at the end of the key's log (kept to its last 1000
entries), and changes no other key, no other log and no project binding. -/
theorem recordUsage_effect (s : APIKeyService) (apiKey endpoint : String)
    (metadata : List (String × String)) (usedAt stampedAt : Int) :
    (s.keys.get apiKey = none →
      recordUsage s apiKey endpoint metadata usedAt stampedAt = s) ∧
    (∀ k, s.keys.get apiKey = some k →
      ∃ k1 label,
        (recordUsage s apiKey endpoint metadata usedAt stampedAt).keys.get apiKey = some k1 ∧
        k1.usage.totalRequests = k.usage.totalRequests + 1 ∧
        k1.usage.requestsThisHour = k.usage.requestsThisHour + 1 ∧
        k1.usage.explanationRequests = k.usage.explanationRequests +
          (if includes endpoint "explain" then 1 else 0) ∧
        k1.usage.chatRequests = k.usage.chatRequests +
          (if !includes endpoint "explain" && includes endpoint "chat" then 1 else 0) ∧
        k1.usage.analyzeRequests = k.usage.analyzeRequests +
          (if !includes endpoint "explain" && !includes endpoint "chat" &&
            includes endpoint "analyze" then 1 else 0) ∧
        label = (if includes endpoint "explain" then "explanation"
          else if includes endpoint "chat" then "chat"
          else if includes endpoint "analyze" then "analysis" else "unknown") ∧
        (recordUsage s apiKey endpoint metadata usedAt stampedAt).usage.get apiKey =
          some ((((s.usage.get apiKey).getD []) ++
              [(⟨stampedAt, endpoint, metadata, k.projectId, label⟩ : UsageRecord)]).drop
            (((s.usage.get apiKey).getD []).length + 1 - 1000)) ∧
        (∀ other, other ≠ apiKey →
          (recordUsage s apiKey endpoint metadata usedAt stampedAt).keys.get other =
            s.keys.get other ∧
          (recordUsage s apiKey endpoint metadata usedAt stampedAt).usage.get other =
            s.usage.get other) ∧
        (recordUsage s apiKey endpoint metadata usedAt stampedAt).projects = s.projects) := by
  constructor
  · intro hnone
    simp [recordUsage, hnone]
  · intro k hk
    refine ⟨bumpUsage k endpoint usedAt, extractFeatureFromEndpoint endpoint, ?_⟩
    have hrec : recordUsage s apiKey endpoint metadata usedAt stampedAt =
        { s with
          usage := s.usage.set apiKey (pushUsage ((s.usage.get apiKey).getD [])
            ⟨stampedAt, endpoint, metadata, (bumpUsage k endpoint usedAt).projectId,
              extractFeatureFromEndpoint endpoint⟩)
          keys := s.keys.set apiKey (bumpUsage k endpoint usedAt) } := by
      simp [recordUsage, hk]
    have hproj : (bumpUsage k endpoint usedAt).projectId = k.projectId := rfl
    rw [hrec, hproj, pushUsage_eq]
    refine ⟨JsMap.get_set_self _ _ _, ?_, ?_, ?_, ?_, ?_, ?_, JsMap.get_set_self _ _ _, ?_, rfl⟩
    · unfold bumpUsage; simp only; split_ifs <;> rfl
    · unfold bumpUsage; simp only; split_ifs <;> rfl
    · unfold bumpUsage; simp only; split_ifs <;> simp_all
    · unfold bumpUsage; simp only; split_ifs <;> simp_all
    · unfold bumpUsage; simp only; split_ifs <;> simp_all
    · rfl
    · intro other hne
      exact ⟨JsMap.get_set_of_ne _ _ _ _ hne, JsMap.get_set_of_ne _ _ _ _ hne⟩


theorem domainMatches_false_iff (h : String) (ds : List String) :
    domainMatches h ds = false ↔ ∀ d ∈ ds, h ≠ d ∧ endsWith h ("." ++ d) = false := by
  unfold domainMatches
  rw [List.any_eq_false]
  constructor
  · intro hall d hd
    have := hall d hd
    simpa [not_or] using this
  · intro hall d hd
    have := hall d hd
    simpa [not_or] using this

theorem validateAPIKey_of_domainCheck_false (hostnameOf : String → Option String)
    (s : APIKeyService) (apiKey : String) (origin : Option String) (now : Int) (k : KeyData)
    (hk : s.keys.get apiKey = some k) (hact : k.isActive = true)
    (hdom : domainCheck hostnameOf k origin = .ok false) :
    validateAPIKey hostnameOf s apiKey origin now =
      .ok (.invalid "Domain not authorized for this API key", s) := by
  unfold validateAPIKey
  simp [hk, hact, hdom]

/-- C2 (amended): when a non-empty origin given for a known, active key finds an
`allowedDomains` array in the key's metadata and, if that array is non-empty, parses as a URL,
`validateAPIKey` returns a result, determined in this order: "Invalid API key" for an unknown
token; else "API key is disabled" for an inactive key; else "Domain not authorized for this API
key" if a non-empty origin is given, `allowedDomains` is non-empty and the origin's hostname is
neither equal to an allowed domain nor ends with a dot followed by one; else "Rate limit
exceeded" if, after the hourly reset, `requestsThisHour >= rateLimit`; else valid with the
key's record. -/
theorem validateAPIKey_result_order (hostnameOf : String → Option String) (s : APIKeyService)
    (apiKey : String) (origin : Option String) (now : Int)
    (hread : ∀ k o, s.keys.get apiKey = some k → k.isActive = true → origin = some o → o ≠ "" →
      ∃ ds, k.metadata.allowedDomains = some ds ∧ (ds ≠ [] → ∃ h, hostnameOf o = some h)) :
    ∃ v s1, validateAPIKey hostnameOf s apiKey origin now = .ok (v, s1) ∧
      (s.keys.get apiKey = none → v = .invalid "Invalid API key") ∧
      (∀ k, s.keys.get apiKey = some k →
        (k.isActive = false → v = .invalid "API key is disabled") ∧
        (k.isActive = true →
          ((∃ o ds h, origin = some o ∧ o ≠ "" ∧ k.metadata.allowedDomains = some ds ∧ ds ≠ [] ∧
              hostnameOf o = some h ∧ ∀ d ∈ ds, h ≠ d ∧ endsWith h ("." ++ d) = false) →
            v = .invalid "Domain not authorized for this API key") ∧
          ((¬ ∃ o ds h, origin = some o ∧ o ≠ "" ∧ k.metadata.allowedDomains = some ds ∧ ds ≠ [] ∧
              hostnameOf o = some h ∧ ∀ d ∈ ds, h ≠ d ∧ endsWith h ("." ++ d) = false) →
            (((resetHour k now).usage.requestsThisHour : Int) ≥ (resetHour k now).rateLimit →
              v = .invalid "Rate limit exceeded") ∧
            (((resetHour k now).usage.requestsThisHour : Int) < (resetHour k now).rateLimit →
              v = .valid (resetHour k now))))) := by
  cases hk : s.keys.get apiKey with
  | none =>
    refine ⟨.invalid "Invalid API key", s, by simp [validateAPIKey, hk], fun _ => rfl, ?_⟩
    intro k hk2
    cases hk2
  | some k =>
    by_cases hact : k.isActive = true
    · -- the domain block
      have hdc : (domainCheck hostnameOf k origin = .ok false ∧
            ∃ o ds h, origin = some o ∧ o ≠ "" ∧ k.metadata.allowedDomains = some ds ∧ ds ≠ [] ∧
              hostnameOf o = some h ∧ ∀ d ∈ ds, h ≠ d ∧ endsWith h ("." ++ d) = false) ∨
          (domainCheck hostnameOf k origin = .ok true ∧
            ¬ ∃ o ds h, origin = some o ∧ o ≠ "" ∧ k.metadata.allowedDomains = some ds ∧ ds ≠ [] ∧
              hostnameOf o = some h ∧ ∀ d ∈ ds, h ≠ d ∧ endsWith h ("." ++ d) = false) := by
        cases horigin : origin with
        | none =>
          right
          refine ⟨by simp [domainCheck], ?_⟩
          rintro ⟨o, ds, h, ho, _⟩
          cases ho
        | some o =>
          by_cases ho : o = ""
          · right
            refine ⟨by simp [domainCheck, ho], ?_⟩
            rintro ⟨o2, ds, h, ho2, hne, _⟩
            cases ho2
            exact hne ho
          · obtain ⟨ds, hds, hparse⟩ := hread k o hk hact horigin ho
            by_cases hnil : ds = []
            · right
              refine ⟨by simp [domainCheck, ho, hds, hnil], ?_⟩
              rintro ⟨o2, ds2, h, _, _, hds2, hne2, _⟩
              rw [hds] at hds2
              cases hds2
              exact hne2 hnil
            · obtain ⟨h, hh⟩ := hparse hnil
              have hlen : ds.length > 0 := List.length_pos.mpr hnil
              have hval : domainCheck hostnameOf k (some o) = .ok (domainMatches h ds) := by
                simp [domainCheck, ho, hds, hlen, hh]
              cases hm : domainMatches h ds with
              | false =>
                left
                rw [hm] at hval
                exact ⟨hval, o, ds, h, rfl, ho, hds, hnil, hh,
                  (domainMatches_false_iff h ds).mp hm⟩
              | true =>
                right
                rw [hm] at hval
                refine ⟨hval, ?_⟩
                rintro ⟨o2, ds2, h2, ho2, _, hds2, _, hh2, hall⟩
                cases ho2
                rw [hds] at hds2
                cases hds2
                rw [hh] at hh2
                cases hh2
                have := (domainMatches_false_iff h ds).mpr hall
                rw [hm] at this
                cases this
      rcases hdc with ⟨hfalse, hrefused⟩ | ⟨htrue, hpass⟩
      · refine ⟨_, _, validateAPIKey_of_domainCheck_false hostnameOf s apiKey origin now k hk hact
          hfalse, (fun h => by cases h), ?_⟩
        intro k2 hk2
        cases hk2
        refine ⟨(fun h => by rw [hact] at h; cases h), fun _ => ⟨fun _ => rfl, fun h => ?_⟩⟩
        exact absurd hrefused h
      · refine ⟨_, _, validateAPIKey_known hostnameOf s apiKey origin now k hk hact htrue,
          (fun h => by cases h), ?_⟩
        intro k2 hk2
        cases hk2
        refine ⟨(fun h => by rw [hact] at h; cases h), fun _ => ⟨fun h => absurd h hpass, fun _ => ?_⟩⟩
        constructor
        · intro hge
          rw [if_pos hge]
        · intro hlt
          rw [if_neg (not_le.mpr hlt)]
    · have hfalse : k.isActive = false := by simpa using hact
      refine ⟨.invalid "API key is disabled", s, by simp [validateAPIKey, hk, hfalse],
        (fun h => by cases h), ?_⟩
      intro k2 hk2
      cases hk2
      exact ⟨fun _ => rfl, fun h => by rw [hfalse] at h; cases h⟩

/-- C2, as stated, fails on a reachable registry: after `createAPIKey` and an `updateAPIKey`
by the owner whose patch carries a metadata object without `allowedDomains`, a validation with
an origin throws a `TypeError` instead of returning a result. -/
theorem validateAPIKey_throws_after_metadata_patch :
    (patchedRegistry.keys.get "ai_assist_ab").map (fun k => (k.isActive, k.metadata.allowedDomains))
      = some (true, none) ∧
    validationOf (validateAPIKey demoUrls patchedRegistry "ai_assist_ab"
        (some "https://example.com") 10) =
      .error (.typeError "Cannot read properties of undefined (reading length)") := by
  refine ⟨by decide, by rfl⟩


theorem rate_limit_exceeded_after_limit_rounds_witness :
    validationOf (validateAPIKey noUrls afterTwoRounds "ai_assist_ab" none 3000) =
      .ok (.invalid "Rate limit exceeded") :=
  rate_limit_exceeded_after_limit_rounds noUrls freshRegistry afterTwoRounds "ai_assist_ab"
    freshKey 2 twoRounds none 3000 (by rfl) (by rfl) (by rfl) (by rfl) (by rfl)
    (by decide) (by rfl) (by decide) (by rfl)

theorem validateAPIKey_result_order_witness :
    validationOf (validateAPIKey demoUrls projectRegistry "learn_cd"
        (some "https://evilexample.com") 10) =
      .ok (.invalid "Domain not authorized for this API key") := by
  have hget : ∃ k, projectRegistry.keys.get "learn_cd" = some k ∧ k.isActive = true ∧
      k.metadata.allowedDomains = some ["example.com"] := ⟨_, rfl, rfl, rfl⟩
  obtain ⟨k, hk, hact, hds⟩ := hget
  obtain ⟨v, s1, hv, _, hrest⟩ := validateAPIKey_result_order demoUrls projectRegistry "learn_cd"
    (some "https://evilexample.com") 10
    (by
      intro k2 o hk2 _ ho _
      rw [hk] at hk2
      cases hk2
      cases ho
      exact ⟨["example.com"], hds, fun _ => ⟨"evilexample.com", rfl⟩⟩)
  have hdomain := ((hrest k hk).2 hact).1
    ⟨"https://evilexample.com", ["example.com"], "evilexample.com", rfl, by decide, hds,
      by decide, rfl, by decide⟩
  rw [hv, hdomain]
  rfl

theorem reset_after_more_than_one_hour_witness :
    validationOf (validateAPIKey noUrls usedRegistry "ai_assist_ab" none 3600001) =
      .ok (.valid { usedKey with
        usage := { usedKey.usage with requestsThisHour := 0, lastHourReset := 3600001 } }) := by
  rw [reset_after_more_than_one_hour noUrls usedRegistry "ai_assist_ab" none 3600001 usedKey
    (by rfl) (by rfl) (by rfl) (by decide) (by decide)]
  rfl

/-- C4, as stated, fails: on the key of `freshRegistry` (rate limit 2, issued at clock reading
0) three consecutive validations at clock readings 1000, 2000 and 3000 all return valid. -/
theorem three_validations_all_valid :
    validateSeq noUrls "ai_assist_ab" freshRegistry [(none, 1000), (none, 2000), (none, 3000)] =
      [.ok (.valid freshKey), .ok (.valid freshKey), .ok (.valid freshKey)] := by
  rfl

theorem fresh_key_limit_two_witness :
    ∃ s2, runRounds noUrls "ai_assist_ab" freshRegistry twoRounds = some s2 ∧
      validationOf (validateAPIKey noUrls s2 "ai_assist_ab" none 3000) =
        .ok (.invalid "Rate limit exceeded") :=
  (fresh_key_limit_two noUrls APIKeyService.new { rateLimit := some 2 } "ab" "id-1" 0 0
    none none none 1000 2000 3000
    ⟨none, 1000, "/api/chat", [], 1001, 1002⟩ ⟨none, 2000, "/api/explain", [], 2001, 2002⟩
    rfl (by decide) (by decide) (by decide) (by decide) (by decide)).2

theorem recordUsage_effect_witness :
    ((recordUsage freshRegistry "ai_assist_ab" "/api/chat" [] 10 10).keys.get "ai_assist_ab").map
        (fun k => (k.usage.totalRequests, k.usage.chatRequests)) = some (1, 1) ∧
    recordUsage freshRegistry "unknown-token" "/api/chat" [] 10 10 = freshRegistry := by
  obtain ⟨hnone, hsome⟩ := recordUsage_effect freshRegistry "ai_assist_ab" "/api/chat" [] 10 10
  obtain ⟨k1, label, hget, ht, _, _, hc, _⟩ := hsome freshKey (by rfl)
  refine ⟨?_, (recordUsage_effect freshRegistry "unknown-token" "/api/chat" [] 10 10).1 (by rfl)⟩
  rw [hget]
  simp only [Option.map_some']
  rw [ht, hc]
  rfl


end Registry

/-! ## Theorems on the vector store -/

section Vectors

theorem JsMap.mem_values_of_get {κ α : Type} [DecidableEq κ] (m : JsMap κ α) (k : κ) (v : α)
    (hget : m.get k = some v) : v ∈ JsMap.values m := by
  induction m with
  | nil => simp [JsMap.get] at hget
  | cons e rest ih =>
    obtain ⟨k1, v1⟩ := e
    by_cases h : k1 = k
    · simp [JsMap.get, h] at hget
      simp [JsMap.values, hget]
    · simp [JsMap.get, h] at hget
      have := ih hget
      simp only [JsMap.values, List.map_cons, List.mem_cons]
      exact Or.inr this

theorem sliceTo_of_length_le {α : Type} (xs : List α) (stop : Int)
    (hstop : (xs.length : Int) ≤ stop) : sliceTo xs stop = xs := by
  unfold sliceTo
  have h0 : ¬ stop < 0 := by omega
  rw [if_neg h0]
  apply List.take_of_length_le
  omega

/-- C7: whatever the state of the database, the outcome of initialization and the reply of the
durable backend, when the options carry a numeric threshold `t` every match that
`VectorDatabase.queryVectors` returns has a score, and that score is at least `t`: in fallback
mode and in durable mode alike. -/
theorem queryVectors_respects_threshold (db : VectorDatabase) (outcome : InitOutcome)
    (response : Except String (Option (List Match))) (queryEmbedding : List Rat)
    (options : QueryOptions) (t : Rat) (found : List Match)
    (ht : options.threshold = some t)
    (hres : (db.queryVectors outcome response queryEmbedding options).1 = .ok found) :
    ∀ m ∈ found, ∃ x, m.score = some x ∧ ¬ x < t := by
  have key : ∀ (ms : List Match), ∀ m ∈ ms.filter (scoreAtLeast t),
      ∃ x, m.score = some x ∧ ¬ x < t := by
    intro ms m hm
    have hs := (List.mem_filter.mp hm).2
    unfold scoreAtLeast at hs
    cases hscore : m.score with
    | none => simp [hscore] at hs
    | some x =>
      simp only [hscore, decide_eq_true_eq] at hs
      exact ⟨x, rfl, not_lt.mpr hs⟩
  unfold VectorDatabase.queryVectors at hres
  simp only [ht] at hres
  split at hres
  · split at hres
    · simp at hres
    · simp only [Except.ok.injEq] at hres
      subst hres
      exact key _
  · split at hres
    · simp only [Except.ok.injEq] at hres
      subst hres
      exact key _
    · simp at hres


theorem durable_query_example :
    (VectorDatabase.new.queryVectors .ready
      (.ok (some [⟨"near", some 1, none⟩, ⟨"far", some 0, none⟩, ⟨"unscored", none, none⟩]))
      [1, 0] { threshold := some 1 }).1 = .ok [⟨"near", some 1, none⟩] := by
  have h10 : ¬ ((1 : Rat) ≤ 0) := by norm_num
  simp [VectorDatabase.queryVectors, VectorDatabase.initializeIndex, VectorDatabase.new,
    scoreAtLeast, List.filter, h10]

theorem queryVectors_respects_threshold_witness :
    (VectorDatabase.new.queryVectors .ready
      (.ok (some [⟨"near", some 1, none⟩, ⟨"far", some 0, none⟩, ⟨"unscored", none, none⟩]))
      [1, 0] { threshold := some 1 }).1 = .ok [⟨"near", some 1, none⟩] ∧
    ∃ x, (⟨"near", some 1, none⟩ : Match).score = some x ∧ ¬ x < 1 :=
  ⟨durable_query_example,
    queryVectors_respects_threshold VectorDatabase.new .ready
      (.ok (some [⟨"near", some 1, none⟩, ⟨"far", some 0, none⟩, ⟨"unscored", none, none⟩]))
      [1, 0] { threshold := some 1 } 1 [⟨"near", some 1, none⟩] rfl durable_query_example
      ⟨"near", some 1, none⟩ (List.mem_singleton.mpr rfl)⟩

theorem upsertVectors_one (st : InMemoryVectorStore) (v : VectorInput) (ns : Option String) :
    (st.upsertVectors [v] ns).2.vectors =
      st.vectors.set v.id ⟨v.id, v.embedding, v.metadata⟩ := by
  simp [InMemoryVectorStore.upsertVectors]

/-- On an `InMemoryVectorStore` taken by itself, after `upsertVectors([v], ns)` the call
`queryVectors(v.embedding, options)` returns a match with id `v.id` (score 0.8 and the metadata
of `v`) whenever `topK` is at least the number of vectors then stored and the `apiKey` filter,
if any, is the `apiKey` of the metadata of `v`. -/
theorem fallback_round_trip (st : InMemoryVectorStore) (v : VectorInput) (ns : Option String)
    (options : QueryOptions)
    (hfilter : truthy options.filterApiKey = false ∨
      propOf v.metadata "apiKey" = options.filterApiKey)
    (hroom : ((st.upsertVectors [v] ns).2.vectors.length : Int) ≤ options.topK.getD 5) :
    ∃ m ∈ (st.upsertVectors [v] ns).2.queryVectors v.embedding options,
      m.id = v.id ∧ m.score = some (4 / 5) ∧ m.metadata = v.metadata := by
  have hmem : (⟨v.id, v.embedding, v.metadata⟩ : StoredVector) ∈
      JsMap.values (st.upsertVectors [v] ns).2.vectors := by
    rw [upsertVectors_one]
    exact JsMap.mem_values_of_get _ v.id _ (JsMap.get_set_self _ _ _)
  have hpass : InMemoryVectorStore.passesFilter options.filterApiKey
      ⟨v.id, v.embedding, v.metadata⟩ = true := by
    unfold InMemoryVectorStore.passesFilter
    rcases hfilter with h | h
    · simp [h]
    · simp [h]
  have hfiltered : (⟨v.id, v.embedding, v.metadata⟩ : StoredVector) ∈
      (JsMap.values (st.upsertVectors [v] ns).2.vectors).filter
        (InMemoryVectorStore.passesFilter options.filterApiKey) :=
    List.mem_filter.mpr ⟨hmem, hpass⟩
  have hlen : (((JsMap.values (st.upsertVectors [v] ns).2.vectors).filter
      (InMemoryVectorStore.passesFilter options.filterApiKey)).length : Int) ≤
      options.topK.getD 5 := by
    have h1 := List.length_filter_le (InMemoryVectorStore.passesFilter options.filterApiKey)
      (JsMap.values (st.upsertVectors [v] ns).2.vectors)
    have h2 : (JsMap.values (st.upsertVectors [v] ns).2.vectors).length =
        (st.upsertVectors [v] ns).2.vectors.length := by
      simp [JsMap.values]
    omega
  refine ⟨⟨v.id, some (4 / 5), v.metadata⟩, ?_, rfl, rfl, rfl⟩
  unfold InMemoryVectorStore.queryVectors
  simp only
  rw [sliceTo_of_length_le _ _ hlen]
  exact List.mem_map.mpr ⟨_, hfiltered, rfl⟩

theorem fallback_round_trip_witness :
    ∃ m ∈ (InMemoryVectorStore.new.upsertVectors [vectorV] (some "B_mainContent")).2.queryVectors
        vectorV.embedding { topK := some 1, nameSpace := some "B_mainContent" },
      m.id = vectorV.id ∧ m.score = some (4 / 5) ∧ m.metadata = vectorV.metadata :=
  fallback_round_trip InMemoryVectorStore.new vectorV (some "B_mainContent")
    { topK := some 1, nameSpace := some "B_mainContent" } (Or.inl rfl) (by decide)

/-- On an `InMemoryVectorStore` taken by itself the query is a mock that ignores the
embedding: after `vectorV` is upserted into a store that already holds `vectorP`, the query for
the embedding of `vectorV` with `topK: 1` returns `vectorP`, the first vector inserted, and no
match with the id of `vectorV`. -/
theorem round_trip_fails_with_prior_content :
    ((storeWithP.upsertVectors [vectorV] (some "B_mainContent")).2.queryVectors
        vectorV.embedding { topK := some 1, nameSpace := some "B_mainContent" }).map
      (fun m => m.id) = ["p"] ∧
    ¬ ∃ m ∈ (storeWithP.upsertVectors [vectorV] (some "B_mainContent")).2.queryVectors
        vectorV.embedding { topK := some 1, nameSpace := some "B_mainContent" },
      m.id = vectorV.id := by
  have h : (storeWithP.upsertVectors [vectorV] (some "B_mainContent")).2.queryVectors
      vectorV.embedding { topK := some 1, nameSpace := some "B_mainContent" } =
      [⟨"p", some (4 / 5), some [("projectId", "A")]⟩] := by rfl
  rw [h]
  refine ⟨rfl, ?_⟩
  rintro ⟨m, hm, hid⟩
  simp only [List.mem_singleton] at hm
  subst hm
  revert hid
  decide

/-- C8: `VectorDatabase.upsertVectors` never returns: for every state, every outcome of
initialization, every answer of the durable backend and every argument it throws the reference
error raised at line 154, after `initialize()` and before any store is written. -/
theorem upsertVectors_always_throws (db : VectorDatabase) (outcome : InitOutcome)
    (write : Except String UpsertResult) (vectors : List VectorInput)
    (nameSpace : Option String) :
    db.upsertVectors outcome write vectors nameSpace =
      (.error (.referenceError "formattedVectors is not defined"),
        db.initializeIndex outcome) := by
  rfl

/-- C9: a database whose initialization fails on two consecutive operations builds two
in-memory stores. After two `getIndexStats` calls on a new instance, both with the durable
backend failing, `fallbackMode` is true, `initialized` is still false and the constructor of
the store has run twice; and on `fallbackWithV`, whose store holds a vector, one such call
replaces that store by an empty one and reports zero vectors. -/
theorem fallback_store_is_rebuilt :
    ((VectorDatabase.new.getIndexStats .failedBeforeClient (.error "down")).2.getIndexStats
        .failedBeforeClient (.error "down")).2 =
      { client := false, index := false, fallbackMode := true,
        store := some InMemoryVectorStore.new, initialized := false, storesBuilt := 2 } ∧
    fallbackWithV.getIndexStats .failedBeforeClient (.error "down") =
      (.ok ⟨0, 1024, 1 / 10⟩,
        { fallbackWithV with store := some InMemoryVectorStore.new, storesBuilt := 2 }) := by
  exact ⟨rfl, rfl⟩

/-- An `InMemoryVectorStore` taken by itself has no namespaces: its `upsertVectors` and
`queryVectors` do not depend on the namespace they are passed, and on a store filled under
`B_mainContent` a query restricted to `A_mainContent` returns the vector. No call sequence on
a `VectorDatabase` fills the store (`storeEmpty_runDbOps`). -/
theorem store_ignores_namespace :
    (∀ (st : InMemoryVectorStore) (vectors : List VectorInput) (n1 n2 : Option String),
      st.upsertVectors vectors n1 = st.upsertVectors vectors n2) ∧
    (∀ (st : InMemoryVectorStore) (e : List Rat) (options : QueryOptions) (n : Option String),
      st.queryVectors e { options with nameSpace := n } = st.queryVectors e options) ∧
    storeWithV.queryVectors [1, 0] { nameSpace := some "A_mainContent" } =
      [⟨"v", some (4 / 5), some [("projectId", "B")]⟩] := by
  exact ⟨fun _ _ _ _ => rfl, fun _ _ _ _ => rfl, rfl⟩

theorem threshold_in_fallback_example :
    matchIds (fallbackWithV.queryVectors .ready (.ok none) [0, 1]
        { threshold := some (1 / 2) }).1 = .ok ["v"] ∧
    matchIds (fallbackWithV.queryVectors .ready (.ok none) [0, 1]
        { threshold := some (9 / 10) }).1 = .ok [] := by
  have h1 : ((2 : Rat)⁻¹ ≤ 4 / 5) := by norm_num
  have h2 : ¬ ((9 : Rat) / 10 ≤ 4 / 5) := by norm_num
  constructor <;>
    simp [List.filter, matchIds, Except.map, VectorDatabase.queryVectors, VectorDatabase.initializeIndex,
      fallbackWithV, storeWithV, InMemoryVectorStore.queryVectors,
      InMemoryVectorStore.upsertVectors, InMemoryVectorStore.new, InMemoryVectorStore.passesFilter,
      JsMap.values, JsMap.set, sliceTo, scoreAtLeast, truthy, vectorV, h1, h2]

end Vectors

/-! ## Theorems on `src/lib/embeddings.js` -/

section Embeddings

open EmbeddingsService

theorem mem_of_mem_takeUnits (c : Char) : ∀ (n : Nat) (cs : List Char),
    c ∈ takeUnits n cs → c ∈ cs := by
  intro n cs
  induction cs generalizing n with
  | nil => intro h; simp [takeUnits] at h
  | cons d ds ih =>
    intro h
    unfold takeUnits at h
    split_ifs at h with hfit
    · rcases List.mem_cons.mp h with h1 | h1
      · exact List.mem_cons.mpr (Or.inl h1)
      · exact List.mem_cons.mpr (Or.inr (ih _ h1))
    · simp at h

theorem units_takeUnits_le : ∀ (n : Nat) (cs : List Char),
    ((takeUnits n cs).map unitsOf).sum ≤ n := by
  intro n cs
  induction cs generalizing n with
  | nil => simp [takeUnits]
  | cons d ds ih =>
    unfold takeUnits
    split_ifs with hfit
    · have := ih (n - unitsOf d)
      simp only [List.map_cons, List.sum_cons]
      omega
    · simp

theorem mem_of_mem_trimChars (c : Char) (cs : List Char) (h : c ∈ trimChars cs) : c ∈ cs := by
  unfold trimChars at h
  have h1 := List.mem_reverse.mp h
  have h2 := (List.dropWhile_sublist _).subset h1
  have h3 := List.mem_reverse.mp h2
  exact (List.dropWhile_sublist _).subset h3

theorem preprocessText_kept (text : Option String) :
    ∀ c ∈ (preprocessText text).toList, isKept c = true := by
  intro c hc
  unfold preprocessText at hc
  cases text with
  | none => simp at hc
  | some t =>
    simp only at hc
    split_ifs at hc with hempty
    · simp at hc
    · have h1 := mem_of_mem_takeUnits c _ _ hc
      have h2 := mem_of_mem_trimChars c _ h1
      exact (List.mem_filter.mp h2).2

theorem preprocessText_length (text : Option String) : jsLength (preprocessText text) ≤ 8000 := by
  unfold preprocessText
  cases text with
  | none => simp [jsLength]
  | some t =>
    simp only
    split_ifs with hempty
    · simp [jsLength]
    · exact units_takeUnits_le _ _

theorem jsLength_empty : jsLength "" = 0 := rfl

theorem generateEmbedding_of_short (provider : Provider) (calls : Nat) (text : Option String)
    (hshort : jsLength (preprocessText text) < 10) :
    generateEmbedding provider calls text =
      (.error (.error "Failed to generate embedding: Text too short for embedding generation"),
        calls) := by
  unfold generateEmbedding generateEmbeddingBody
  simp only
  rw [if_pos (Or.inr hshort)]
  rfl

theorem generateEmbedding_of_long (provider : Provider) (calls : Nat) (text : Option String)
    (hlong : 10 ≤ jsLength (preprocessText text)) :
    generateEmbedding provider calls text =
      (match provider calls (preprocessText text) with
        | .ok values => .ok values
        | .error message => .error (.error ("Failed to generate embedding: " ++ message)),
        calls + 1) := by
  have hne : ¬ (preprocessText text = "" ∨ jsLength (preprocessText text) < 10) := by
    rintro (h | h)
    · rw [h, jsLength_empty] at hlong
      omega
    · omega
  unfold generateEmbedding generateEmbeddingBody
  simp only
  rw [if_neg hne]
  cases provider calls (preprocessText text) <;> rfl

/-- C14: `generateEmbedding` fails with the text-too-short error (which its own `catch` wraps
like any other), without calling the provider, when `preprocessText(text)` has length below
10, and only then: with a normalized length of at least 10 it calls the provider exactly once,
on the normalized text, and returns the vector of the provider or fails with the wrapped
message of the provider. The normalized text has at most 8000 characters, all of them word
characters, whitespace or one of `. , ! ? -`. -/
theorem generateEmbedding_contract (provider : Provider) (calls : Nat) (text : Option String) :
    (jsLength (preprocessText text) < 10 →
      generateEmbedding provider calls text =
        (.error (.error "Failed to generate embedding: Text too short for embedding generation"),
          calls)) ∧
    (10 ≤ jsLength (preprocessText text) →
      generateEmbedding provider calls text =
        (match provider calls (preprocessText text) with
          | .ok values => .ok values
          | .error message => .error (.error ("Failed to generate embedding: " ++ message)),
          calls + 1)) ∧
    jsLength (preprocessText text) ≤ 8000 ∧
    ∀ c ∈ (preprocessText text).toList,
      isWordChar c = true ∨ isJsSpace c = true ∨ c ∈ ".,!?-".toList := by
  refine ⟨generateEmbedding_of_short provider calls text,
    generateEmbedding_of_long provider calls text, preprocessText_length text, ?_⟩
  · intro c hc
    have hk := preprocessText_kept text c hc
    unfold isKept at hk
    simp only [Bool.or_eq_true, beq_iff_eq] at hk
    rcases hk with (((((hw | hs) | h46) | h44) | h33) | h63) | h45
    · exact Or.inl hw
    · exact Or.inr (Or.inl hs)
    all_goals
      right; right
      have hc2 : c = Char.ofNat c.toNat := by simp [Char.ofNat_toNat]
      rw [hc2]
      first
        | rw [h46]; decide
        | rw [h44]; decide
        | rw [h33]; decide
        | rw [h63]; decide
        | rw [h45]; decide

end Embeddings

section Batch

open EmbeddingsService

theorem batchLoop_cons (provider : Provider) (text : Option String) (rest : List (Option String))
    (i calls : Nat) :
    batchLoop provider (text :: rest) i calls =
      match (generateEmbedding provider calls text).1 with
      | .ok embedding =>
        ((⟨i, text, embedding⟩ ::
            (batchLoop provider rest (i + 1) (generateEmbedding provider calls text).2).1.1,
          (batchLoop provider rest (i + 1) (generateEmbedding provider calls text).2).1.2),
          (batchLoop provider rest (i + 1) (generateEmbedding provider calls text).2).2)
      | .error e =>
        (((batchLoop provider rest (i + 1) (generateEmbedding provider calls text).2).1.1,
          ⟨i, text, e.message⟩ ::
            (batchLoop provider rest (i + 1) (generateEmbedding provider calls text).2).1.2),
          (batchLoop provider rest (i + 1) (generateEmbedding provider calls text).2).2) := by
  conv_lhs => unfold batchLoop
  rcases hg : generateEmbedding provider calls text with ⟨r, c⟩
  cases r <;> rfl

theorem batchLoop_bounds (provider : Provider) :
    ∀ (texts : List (Option String)) (i calls : Nat),
      (∀ x ∈ (batchLoop provider texts i calls).1.1.map (fun e => e.index),
        i ≤ x ∧ x < i + texts.length) ∧
      (∀ x ∈ (batchLoop provider texts i calls).1.2.map (fun e => e.index),
        i ≤ x ∧ x < i + texts.length) ∧
      ((batchLoop provider texts i calls).1.1.map (fun e => e.index)).Pairwise (· < ·) ∧
      ((batchLoop provider texts i calls).1.2.map (fun e => e.index)).Pairwise (· < ·) := by
  intro texts
  induction texts with
  | nil =>
    intro i calls
    simp [batchLoop]
  | cons text rest ih =>
    intro i calls
    obtain ⟨h1, h2, h3, h4⟩ := ih (i + 1) (generateEmbedding provider calls text).2
    rw [batchLoop_cons]
    cases hr : (generateEmbedding provider calls text).1 with
    | ok v =>
      simp only [List.map_cons, List.mem_cons, List.length_cons, List.pairwise_cons]
      refine ⟨?_, ?_, ⟨?_, h3⟩, h4⟩
      · rintro x (rfl | hx)
        · omega
        · have := h1 x hx; omega
      · intro x hx
        have := h2 x hx; omega
      · intro x hx
        have := h1 x hx; omega
    | error e =>
      simp only [List.map_cons, List.mem_cons, List.length_cons, List.pairwise_cons]
      refine ⟨?_, ?_, h3, ⟨?_, h4⟩⟩
      · intro x hx
        have := h1 x hx; omega
      · rintro x (rfl | hx)
        · omega
        · have := h2 x hx; omega
      · intro x hx
        have := h2 x hx; omega

theorem batchLoop_members (provider : Provider) :
    ∀ (texts : List (Option String)) (i calls j : Nat),
      (∀ v, (batchOutcomes provider texts calls)[j]? = some (.ok v) →
        ∃ t, texts[j]? = some t ∧
          (⟨i + j, t, v⟩ : BatchEmbedding) ∈ (batchLoop provider texts i calls).1.1 ∧
          i + j ∉ (batchLoop provider texts i calls).1.2.map (fun e => e.index)) ∧
      (∀ e, (batchOutcomes provider texts calls)[j]? = some (.error e) →
        ∃ t, texts[j]? = some t ∧
          (⟨i + j, t, e.message⟩ : BatchError) ∈ (batchLoop provider texts i calls).1.2 ∧
          i + j ∉ (batchLoop provider texts i calls).1.1.map (fun e => e.index)) := by
  intro texts
  induction texts with
  | nil =>
    intro i calls j
    simp [batchOutcomes]
  | cons text rest ih =>
    intro i calls j
    obtain ⟨b1, b2, _, _⟩ := batchLoop_bounds provider rest (i + 1)
      (generateEmbedding provider calls text).2
    rw [batchLoop_cons]
    cases j with
    | zero =>
      cases hr : (generateEmbedding provider calls text).1 with
      | ok v0 =>
        constructor
        · intro v hv
          simp only [batchOutcomes, hr, List.getElem?_cons_zero, Option.some.injEq,
            Except.ok.injEq] at hv
          subst hv
          refine ⟨text, by simp, by simp, ?_⟩
          intro hmem
          have := b2 _ hmem
          omega
        · intro e he
          simp [batchOutcomes, hr] at he
      | error e0 =>
        constructor
        · intro v hv
          simp [batchOutcomes, hr] at hv
        · intro e he
          simp only [batchOutcomes, hr, List.getElem?_cons_zero, Option.some.injEq,
            Except.error.injEq] at he
          subst he
          refine ⟨text, by simp, by simp, ?_⟩
          intro hmem
          have := b1 _ hmem
          omega
    | succ j =>
      obtain ⟨i1, i2⟩ := ih (i + 1) (generateEmbedding provider calls text).2 j
      have hidx : i + (j + 1) = i + 1 + j := by omega
      cases hr : (generateEmbedding provider calls text).1 with
      | ok v0 =>
        constructor
        · intro v hv
          simp only [batchOutcomes, List.getElem?_cons_succ] at hv
          obtain ⟨t, ht, hm, hn⟩ := i1 v hv
          refine ⟨t, by simpa using ht, ?_, ?_⟩
          · rw [hidx]; exact List.mem_cons_of_mem _ hm
          · rw [hidx]; exact hn
        · intro e he
          simp only [batchOutcomes, List.getElem?_cons_succ] at he
          obtain ⟨t, ht, hm, hn⟩ := i2 e he
          refine ⟨t, by simpa using ht, ?_, ?_⟩
          · rw [hidx]; exact hm
          · rw [hidx]
            simp only [List.map_cons, List.mem_cons, not_or]
            exact ⟨by omega, hn⟩
      | error e0 =>
        constructor
        · intro v hv
          simp only [batchOutcomes, List.getElem?_cons_succ] at hv
          obtain ⟨t, ht, hm, hn⟩ := i1 v hv
          refine ⟨t, by simpa using ht, ?_, ?_⟩
          · rw [hidx]; exact hm
          · rw [hidx]
            simp only [List.map_cons, List.mem_cons, not_or]
            exact ⟨by omega, hn⟩
        · intro e he
          simp only [batchOutcomes, List.getElem?_cons_succ] at he
          obtain ⟨t, ht, hm, hn⟩ := i2 e he
          refine ⟨t, by simpa using ht, ?_, ?_⟩
          · rw [hidx]; exact List.mem_cons_of_mem _ hm
          · rw [hidx]; exact hn

theorem batchOutcomes_length (provider : Provider) :
    ∀ (texts : List (Option String)) (calls : Nat),
      (batchOutcomes provider texts calls).length = texts.length := by
  intro texts
  induction texts with
  | nil => intro calls; rfl
  | cons text rest ih =>
    intro calls
    simp [batchOutcomes, ih]

theorem batchLoop_texts (provider : Provider) :
    ∀ (texts : List (Option String)) (i calls : Nat),
      (∀ b ∈ (batchLoop provider texts i calls).1.1, texts[b.index - i]? = some b.text) ∧
      (∀ b ∈ (batchLoop provider texts i calls).1.2, texts[b.index - i]? = some b.text) := by
  intro texts
  induction texts with
  | nil =>
    intro i calls
    simp [batchLoop]
  | cons text rest ih =>
    intro i calls
    obtain ⟨h1, h2⟩ := ih (i + 1) (generateEmbedding provider calls text).2
    obtain ⟨b1, b2, _, _⟩ := batchLoop_bounds provider rest (i + 1)
      (generateEmbedding provider calls text).2
    have step1 : ∀ b ∈ (batchLoop provider rest (i + 1)
        (generateEmbedding provider calls text).2).1.1,
        (text :: rest)[b.index - i]? = some b.text := by
      intro b hb
      have hb1 := b1 b.index (List.mem_map.mpr ⟨b, hb, rfl⟩)
      have : b.index - i = (b.index - (i + 1)) + 1 := by omega
      rw [this, List.getElem?_cons_succ]
      exact h1 b hb
    have step2 : ∀ b ∈ (batchLoop provider rest (i + 1)
        (generateEmbedding provider calls text).2).1.2,
        (text :: rest)[b.index - i]? = some b.text := by
      intro b hb
      have hb1 := b2 b.index (List.mem_map.mpr ⟨b, hb, rfl⟩)
      have : b.index - i = (b.index - (i + 1)) + 1 := by omega
      rw [this, List.getElem?_cons_succ]
      exact h2 b hb
    rw [batchLoop_cons]
    cases hr : (generateEmbedding provider calls text).1 with
    | ok v =>
      refine ⟨?_, step2⟩
      intro b hb
      rcases List.mem_cons.mp hb with rfl | hb
      · simp
      · exact step1 b hb
    | error e =>
      refine ⟨step1, ?_⟩
      intro b hb
      rcases List.mem_cons.mp hb with rfl | hb
      · simp
      · exact step2 b hb

/-- C13: `generateBatchEmbeddings` always returns. With the results of its successive
`generateEmbedding` calls listed in `batchOutcomes`, every index below the number of texts is
in exactly one of `embeddings` and `errors`: in `embeddings` when its call succeeded, in
`errors` when its call failed; no other index occurs, both lists are in strictly increasing
index order, and each entry carries the text at its index. -/
theorem generateBatchEmbeddings_partition (provider : Provider) (calls : Nat)
    (texts : List (Option String)) :
    (∀ i, i < texts.length →
      ((∃ v, (batchOutcomes provider texts calls)[i]? = some (.ok v)) ∧
        i ∈ (generateBatchEmbeddings provider calls texts).1.1.map (fun e => e.index) ∧
        i ∉ (generateBatchEmbeddings provider calls texts).1.2.map (fun e => e.index)) ∨
      ((∃ e, (batchOutcomes provider texts calls)[i]? = some (.error e)) ∧
        i ∈ (generateBatchEmbeddings provider calls texts).1.2.map (fun e => e.index) ∧
        i ∉ (generateBatchEmbeddings provider calls texts).1.1.map (fun e => e.index))) ∧
    (∀ x ∈ (generateBatchEmbeddings provider calls texts).1.1.map (fun e => e.index),
      x < texts.length) ∧
    (∀ x ∈ (generateBatchEmbeddings provider calls texts).1.2.map (fun e => e.index),
      x < texts.length) ∧
    ((generateBatchEmbeddings provider calls texts).1.1.map (fun e => e.index)).Pairwise
      (· < ·) ∧
    ((generateBatchEmbeddings provider calls texts).1.2.map (fun e => e.index)).Pairwise
      (· < ·) ∧
    (∀ b ∈ (generateBatchEmbeddings provider calls texts).1.1, texts[b.index]? = some b.text) ∧
    (∀ b ∈ (generateBatchEmbeddings provider calls texts).1.2, texts[b.index]? = some b.text) := by
  unfold generateBatchEmbeddings
  obtain ⟨b1, b2, p1, p2⟩ := batchLoop_bounds provider texts 0 calls
  obtain ⟨t1, t2⟩ := batchLoop_texts provider texts 0 calls
  refine ⟨?_, ?_, ?_, p1, p2, ?_, ?_⟩
  · intro i hi
    obtain ⟨m1, m2⟩ := batchLoop_members provider texts 0 calls i
    have hlen : i < (batchOutcomes provider texts calls).length := by
      rw [batchOutcomes_length]; exact hi
    cases ho : (batchOutcomes provider texts calls)[i]? with
    | none =>
      have := List.getElem?_eq_none_iff.mp ho
      omega
    | some o =>
      cases o with
      | ok v =>
        left
        obtain ⟨t, _, hm, hn⟩ := m1 v ho
        rw [Nat.zero_add] at hm hn
        exact ⟨⟨v, rfl⟩, List.mem_map.mpr ⟨_, hm, rfl⟩, hn⟩
      | error e =>
        right
        obtain ⟨t, _, hm, hn⟩ := m2 e ho
        rw [Nat.zero_add] at hm hn
        exact ⟨⟨e, rfl⟩, List.mem_map.mpr ⟨_, hm, rfl⟩, hn⟩
  · intro x hx
    have := b1 x hx
    omega
  · intro x hx
    have := b2 x hx
    omega
  · intro b hb
    simpa using t1 b hb
  · intro b hb
    simpa using t2 b hb

theorem generateBatchEmbeddings_partition_witness :
    (generateBatchEmbeddings providerFlaky 0
        [some "the first text is long enough", some "the second text is long enough",
          none]).1.1.map (fun e => e.index) = [0] ∧
    (generateBatchEmbeddings providerFlaky 0
        [some "the first text is long enough", some "the second text is long enough",
          none]).1.2.map (fun e => e.index) = [1, 2] ∧
    ((generateBatchEmbeddings providerFlaky 0
        [some "the first text is long enough", some "the second text is long enough",
          none]).1.2.map (fun e => e.index)).Pairwise (· < ·) :=
  ⟨by decide, by decide,
    (generateBatchEmbeddings_partition providerFlaky 0
      [some "the first text is long enough", some "the second text is long enough",
        none]).2.2.2.2.1⟩

end Batch

section Chunks

open EmbeddingsService

theorem splitChars_ne_nil : ∀ cs : List Char, splitChars cs ≠ [] := by
  intro cs
  induction cs with
  | nil => simp [splitChars]
  | cons c rest ih =>
    unfold splitChars
    split_ifs
    · simp
    · cases h : splitChars rest with
      | nil => exact absurd h ih
      | cons w ws => simp

theorem splitSpace_length_pos (text : String) : 0 < (splitSpace text).length := by
  unfold splitSpace
  rw [List.length_map]
  exact List.length_pos.mpr (splitChars_ne_nil _)

theorem chunkLoop_eq_windows (words : List String) (maxChunkSize overlap : Int) :
    ∀ (fuel : Nat) (i : Int),
      chunkLoop words maxChunkSize overlap fuel i =
        (chunkWindows words maxChunkSize overlap fuel i).map
          (fun ws => (ws.map jsTrim).filter (fun chunk => decide (jsLength chunk > 50))) := by
  intro fuel
  induction fuel with
  | zero => intro i; rfl
  | succ fuel ih =>
    intro i
    unfold chunkLoop chunkWindows
    by_cases hi : i < (words.length : Int)
    · simp only [hi, if_true]
      rw [ih]
      cases chunkWindows words maxChunkSize overlap fuel (i + (maxChunkSize - overlap)) with
      | none => rfl
      | some rest =>
        simp only [Option.map_some', List.map_cons, List.filter_cons]
        by_cases hlen : jsLength (jsTrim (jsJoin " " (jsSlice words i (i + maxChunkSize)))) > 50
        · simp [hlen]
        · simp [hlen]
    · simp [hi]

theorem chunkLoop_stuck (words : List String) (maxChunkSize overlap : Int)
    (hwords : 0 < words.length) (hstep : maxChunkSize - overlap ≤ 0) :
    ∀ (fuel : Nat) (i : Int), i ≤ 0 → chunkLoop words maxChunkSize overlap fuel i = none := by
  intro fuel
  induction fuel with
  | zero => intro i _; rfl
  | succ fuel ih =>
    intro i hi
    unfold chunkLoop
    have hlt : i < (words.length : Int) := by omega
    simp only [hlt, if_true]
    rw [ih (i + (maxChunkSize - overlap)) (by omega)]

theorem chunkWindows_mono (words : List String) (maxChunkSize overlap : Int) :
    ∀ (fuel : Nat) (i : Int) (r : List String),
      chunkWindows words maxChunkSize overlap fuel i = some r →
      ∀ extra : Nat, chunkWindows words maxChunkSize overlap (fuel + extra) i = some r := by
  intro fuel
  induction fuel with
  | zero => intro i r h; simp [chunkWindows] at h
  | succ fuel ih =>
    intro i r h extra
    have hf : fuel + 1 + extra = (fuel + extra) + 1 := by omega
    rw [hf]
    unfold chunkWindows at h ⊢
    by_cases hi : i < (words.length : Int)
    · simp only [hi, if_true] at h ⊢
      cases hrec : chunkWindows words maxChunkSize overlap fuel (i + (maxChunkSize - overlap)) with
      | none => simp [hrec] at h
      | some rest =>
        rw [ih _ rest hrec extra]
        simpa [hrec] using h
    · simp only [hi, if_false] at h ⊢
      exact h

theorem jsSlice_window {α : Type} (xs : List α) (i m : Nat) (hi : i < xs.length) :
    jsSlice xs (i : Int) ((i : Int) + (m : Int)) = (xs.drop i).take m := by
  unfold jsSlice
  have h1 : ¬ ((i : Int) < 0) := by omega
  have h2 : ¬ ((i : Int) + (m : Int) < 0) := by omega
  simp only [h1, h2, if_false]
  have h3 : min (i : Int) (xs.length : Int) = (i : Int) := by omega
  rw [h3]
  simp only [Int.toNat_ofNat]
  by_cases hle : i + m ≤ xs.length
  · have h4 : min ((i : Int) + (m : Int)) (xs.length : Int) = (i : Int) + (m : Int) := by omega
    rw [h4]
    have h5 : ((i : Int) + (m : Int) - (i : Int)).toNat = m := by omega
    rw [h5]
  · have h4 : min ((i : Int) + (m : Int)) (xs.length : Int) = (xs.length : Int) := by omega
    rw [h4]
    have h5 : ((xs.length : Int) - (i : Int)).toNat = xs.length - i := by omega
    rw [h5]
    rw [List.take_of_length_le (by rw [List.length_drop]),
      List.take_of_length_le (by rw [List.length_drop]; omega)]

theorem ceil_step (n i s : Nat) (hs : 0 < s) (hi : i < n) :
    (n - i + s - 1) / s = (n - (i + s) + s - 1) / s + 1 := by
  by_cases hle : i + s ≤ n
  · have h : n - i + s - 1 = (n - (i + s) + s - 1) + s := by omega
    rw [h, Nat.add_div_right _ hs]
  · have h : n - i + s - 1 = (n - i - 1) + s := by omega
    have h0 : n - (i + s) + s - 1 = s - 1 := by omega
    rw [h, Nat.add_div_right _ hs, h0, Nat.div_eq_of_lt (by omega), Nat.div_eq_of_lt (by omega)]

theorem chunkWindows_enough (words : List String) (maxWords overlapWords : Nat)
    (hlt : overlapWords < maxWords) :
    ∀ (fuel i : Nat), words.length - i < fuel →
      chunkWindows words (maxWords : Int) (overlapWords : Int) fuel (i : Int) =
        some ((List.range' i ((words.length - i + (maxWords - overlapWords) - 1) /
            (maxWords - overlapWords)) (maxWords - overlapWords)).map
          (fun j => jsJoin " " ((words.drop j).take maxWords))) := by
  intro fuel
  induction fuel with
  | zero => intro i h; omega
  | succ fuel ih =>
    intro i hfuel
    unfold chunkWindows
    by_cases hi : i < words.length
    · have hi2 : (i : Int) < (words.length : Int) := by omega
      simp only [hi2, if_true]
      have hnext : (i : Int) + ((maxWords : Int) - (overlapWords : Int)) =
          ((i + (maxWords - overlapWords) : Nat) : Int) := by omega
      rw [hnext, ih (i + (maxWords - overlapWords)) (by omega),
        ceil_step words.length i (maxWords - overlapWords) (by omega) hi,
        jsSlice_window words i maxWords hi]
      rfl
    · have hi2 : ¬ (i : Int) < (words.length : Int) := by omega
      simp only [hi2, if_false]
      have h0 : words.length - i + (maxWords - overlapWords) - 1 = (maxWords - overlapWords) - 1 := by
        omega
      rw [h0, Nat.div_eq_of_lt (by omega)]
      rfl

/-- C16: for integers `maxWords > overlapWords >= 0`, `chunkText` returns (with any number of
loop iterations above the number of words allowed) exactly the list of the specification: the
windows `words[i .. i + maxWords)` for `i = 0, s, 2s, ...` below the number of words, in
increasing `i`, joined with single spaces and trimmed, those of trimmed length above 50 being
kept; the start indices used are exactly the multiples of `s` below the number of words. -/
theorem chunkText_eq_spec (text : String) (maxWords overlapWords fuel : Nat)
    (hlt : overlapWords < maxWords) (hfuel : (splitSpace text).length < fuel) :
    chunkText fuel text (maxWords : Int) (overlapWords : Int) =
      some (chunkSpec text maxWords overlapWords) ∧
    ∀ i, i ∈ List.range' 0
        (((splitSpace text).length + (maxWords - overlapWords) - 1) / (maxWords - overlapWords))
        (maxWords - overlapWords) ↔
      i < (splitSpace text).length ∧ (maxWords - overlapWords) ∣ i := by
  constructor
  · unfold chunkText
    rw [chunkLoop_eq_windows]
    have h := chunkWindows_enough (splitSpace text) maxWords overlapWords hlt fuel 0 (by omega)
    simp only [Nat.cast_zero, Nat.sub_zero] at h
    rw [h]
    simp only [Option.map_some', chunkSpec, List.map_map]
    rfl
  · intro i
    have hs : 0 < maxWords - overlapWords := by omega
    generalize maxWords - overlapWords = s at hs
    generalize (splitSpace text).length = n
    rw [List.mem_range']
    constructor
    · rintro ⟨j, hj, rfl⟩
      refine ⟨?_, ⟨j, by omega⟩⟩
      have h1 : j + 1 ≤ (n + s - 1) / s := hj
      have h2 := (Nat.le_div_iff_mul_le hs).mp h1
      have h3 : (j + 1) * s = s * j + s := by ring
      omega
    · rintro ⟨hi, ⟨j, rfl⟩⟩
      refine ⟨j, ?_, by omega⟩
      have h1 : j + 1 ≤ (n + s - 1) / s := by
        apply (Nat.le_div_iff_mul_le hs).mpr
        have h3 : (j + 1) * s = s * j + s := by ring
        omega
      exact h1

theorem chunkText_eq_spec_witness :
    chunkText 13 longText 8 2 = some (chunkSpec longText 8 2) ∧
    chunkSpec longText 8 2 =
      ["aaaaaaaaa, bbbbbbbbb, ccccccccc, ddddddddd, eeeeeeeee, fffffffff, ggggggggg, hhhhhhhhh,",
        "ggggggggg, hhhhhhhhh, iiiiiiiii, jjjjjjjjj, kkkkkkkkk, lllllllll,"] :=
  ⟨(chunkText_eq_spec longText 8 2 13 (by decide) (by decide)).1, by decide⟩

/-- C17 (amended): `chunkText("one two three four five", 3, 1)` forms exactly three word
windows, "one two three", "three four five" and "five" (start indices 0, 2 and 4), and returns
those that survive the 50-character floor, which is none of them: the result is empty. -/
theorem scenario_c_windows (fuel : Nat) (hfuel : 4 ≤ fuel) :
    chunkWindows (splitSpace "one two three four five") 3 1 fuel 0 =
      some ["one two three", "three four five", "five"] ∧
    chunkText fuel "one two three four five" 3 1 = some [] := by
  have h4 : chunkWindows (splitSpace "one two three four five") 3 1 4 0 =
      some ["one two three", "three four five", "five"] := by decide
  have hw := chunkWindows_mono _ 3 1 4 0 _ h4 (fuel - 4)
  have hf : 4 + (fuel - 4) = fuel := by omega
  rw [hf] at hw
  refine ⟨hw, ?_⟩
  unfold chunkText
  rw [chunkLoop_eq_windows, hw]
  decide

theorem scenario_c_windows_witness :
    chunkWindows (splitSpace "one two three four five") 3 1 10 0 =
      some ["one two three", "three four five", "five"] ∧
    chunkText 10 "one two three four five" 3 1 = some [] :=
  scenario_c_windows 10 (by decide)

/-- C17, as stated, fails: the loop of `chunkText("one two three four five", 3, 1)` runs a
third time at index 4 and forms the window "five", so the windows formed are not the two of
the scenario. -/
theorem scenario_c_third_window :
    chunkWindows (splitSpace "one two three four five") 3 1 4 0 ≠
      some ["one two three", "three four five"] ∧
    (chunkWindows (splitSpace "one two three four five") 3 1 4 0).map List.length = some 3 := by
  decide

/-- C18: when `overlap >= maxChunkSize` the loop of `chunkText` never ends, whatever the text:
the index does not grow, the loop test stays true, and no number of iterations is enough for a
result. -/
theorem chunkText_never_returns (fuel : Nat) (text : String) (maxChunkSize : Int)
    (excess : Nat) :
    chunkText fuel text maxChunkSize (maxChunkSize + (excess : Int)) = none := by
  unfold chunkText
  exact chunkLoop_stuck _ _ _ (splitSpace_length_pos text) (by omega) fuel 0 (le_refl 0)

end Chunks

/-! ## Theorems on `src/lib/dataProcessor.js` -/

section Structure

open EmbeddingsService DataProcessor

theorem mapWithIndex_length {α β : Type} (f : α → Nat → β) :
    ∀ (xs : List α) (i : Nat), (mapWithIndex f xs i).length = xs.length := by
  intro xs
  induction xs with
  | nil => intro i; rfl
  | cons x rest ih => intro i; simp [mapWithIndex, ih]

theorem mapWithIndex_getElem? {α β : Type} (f : α → Nat → β) :
    ∀ (xs : List α) (i j : Nat),
      (mapWithIndex f xs i)[j]? = (xs[j]?).map (fun x => f x (i + j)) := by
  intro xs
  induction xs with
  | nil => intro i j; simp [mapWithIndex]
  | cons x rest ih =>
    intro i j
    cases j with
    | zero => simp [mapWithIndex]
    | succ j =>
      simp only [mapWithIndex, List.getElem?_cons_succ]
      rw [ih]
      have : i + 1 + j = i + (j + 1) := by omega
      rw [this]

theorem mem_mapWithIndex {α β : Type} (f : α → Nat → β) :
    ∀ (xs : List α) (i : Nat) (y : β), y ∈ mapWithIndex f xs i → ∃ x j, x ∈ xs ∧ y = f x j := by
  intro xs
  induction xs with
  | nil => intro i y h; simp [mapWithIndex] at h
  | cons x rest ih =>
    intro i y h
    simp only [mapWithIndex, List.mem_cons] at h
    rcases h with rfl | h
    · exact ⟨x, i, List.mem_cons_self _ _, rfl⟩
    · obtain ⟨x2, j, hx2, hy⟩ := ih (i + 1) y h
      exact ⟨x2, j, List.mem_cons_of_mem _ hx2, hy⟩

/-- C19: `structureContent` puts a heading in `navigation` exactly when its level is at most 2,
and makes `mainContent` of all headings in input order followed by all paragraphs in input
order; on the document with an `h1` "Pricing" and an `h3` "FAQ", "Pricing" is in both buckets
and "FAQ" in `mainContent` only. The function is pure: its result is a function of the
document alone. -/
theorem structureContent_headings (toUpperCase : String → String) (scrapedData : ScrapedData) :
    (∀ heading ∈ scrapedData.headings,
      navigationItem heading ∈ (structureContent toUpperCase scrapedData).navigation ↔
        heading.level ≤ 2) ∧
    (∀ item ∈ (structureContent toUpperCase scrapedData).navigation,
      ∃ heading ∈ scrapedData.headings, heading.level ≤ 2 ∧ item = navigationItem heading) ∧
    (structureContent toUpperCase scrapedData).mainContent.map (fun item => item.content) =
      scrapedData.headings.map (fun heading => some heading.text) ++
        scrapedData.paragraphs.map some ∧
    (structureContent toUpperCase scrapedData).mainContent.map (fun item => item.type) =
      scrapedData.headings.map (fun _ => "heading") ++
        scrapedData.paragraphs.map (fun _ => "paragraph") ∧
    (structureContent toUpperCase pricingDocument).navigation =
      [.navEntry 1 "Pricing" none "Main section: Pricing"] ∧
    (structureContent toUpperCase pricingDocument).mainContent =
      [.unit "heading" "Pricing" { level := some 1 }, .unit "heading" "FAQ" { level := some 3 }] := by
  have hcontent : ∀ (ps : List String) (i : Nat),
      (mapWithIndex paragraphItem ps i).map (fun item => item.content) = ps.map some := by
    intro ps
    induction ps with
    | nil => intro i; rfl
    | cons p rest ih =>
      intro i
      simp only [mapWithIndex, List.map_cons, ih]
      rfl
  have htype : ∀ (ps : List String) (i : Nat),
      (mapWithIndex paragraphItem ps i).map (fun item => item.type) =
        ps.map (fun _ => "paragraph") := by
    intro ps
    induction ps with
    | nil => intro i; rfl
    | cons p rest ih =>
      intro i
      simp only [mapWithIndex, List.map_cons, ih]
      rfl
  refine ⟨?_, ?_, ?_, ?_, rfl, rfl⟩
  · intro heading hmem
    simp only [structureContent, List.mem_map, List.mem_filter, decide_eq_true_eq]
    constructor
    · rintro ⟨h2, ⟨_, hlevel⟩, heq⟩
      simp only [navigationItem, ContentItem.navEntry.injEq] at heq
      rw [← heq.1]
      exact hlevel
    · intro hlevel
      exact ⟨heading, ⟨hmem, hlevel⟩, rfl⟩
  · intro item hitem
    simp only [structureContent, List.mem_map, List.mem_filter, decide_eq_true_eq] at hitem
    obtain ⟨heading, ⟨hmem, hlevel⟩, heq⟩ := hitem
    exact ⟨heading, hmem, hlevel, heq.symm⟩
  · simp only [structureContent, List.map_append, List.map_map, hcontent]
    rfl
  · simp only [structureContent, List.map_append, List.map_map, htype]
    rfl

/-- C20: the `informational` bucket of `structureContent` is the paragraphs in input order,
followed by exactly one unit per input list, in input order, whose content is the upper-cased
list type, then " LIST: ", then the items joined by "; ", and whose metadata records the list
type, the item count and the position of the list; no other bucket holds a unit of type
list. -/
theorem structureContent_informational (toUpperCase : String → String)
    (scrapedData : ScrapedData) :
    (structureContent toUpperCase scrapedData).informational.length =
      scrapedData.paragraphs.length + scrapedData.lists.length ∧
    (∀ (j : Nat) (paragraph : String), scrapedData.paragraphs[j]? = some paragraph →
      (structureContent toUpperCase scrapedData).informational[j]? =
        some (.unit "paragraph" paragraph
          { index := some j, length := some (jsLength paragraph) })) ∧
    (∀ (j : Nat) (list : ListBlock), scrapedData.lists[j]? = some list →
      (structureContent toUpperCase scrapedData).informational[scrapedData.paragraphs.length + j]? =
        some (.unit "list" (toUpperCase list.type ++ " LIST: " ++ jsJoin "; " list.items)
          { listType := some list.type, itemCount := some list.items.length,
            index := some j })) ∧
    (∀ item ∈ (structureContent toUpperCase scrapedData).mainContent ++
        (structureContent toUpperCase scrapedData).navigation ++
        (structureContent toUpperCase scrapedData).interactive, item.type ≠ "list") := by
  refine ⟨?_, ?_, ?_, ?_⟩
  · simp [structureContent, mapWithIndex_length]
  · intro j paragraph hj
    have hlt : j < scrapedData.paragraphs.length := by
      by_contra hge
      rw [List.getElem?_eq_none (by omega)] at hj
      cases hj
    simp only [structureContent]
    rw [List.getElem?_append_left (by rw [mapWithIndex_length]; exact hlt),
      mapWithIndex_getElem?, hj]
    simp [paragraphInfoItem]
  · intro j list hj
    simp only [structureContent]
    rw [List.getElem?_append_right (by rw [mapWithIndex_length]; omega),
      mapWithIndex_length, Nat.add_sub_cancel_left, mapWithIndex_getElem?, hj]
    simp [listItem]
  · intro item hitem
    simp only [structureContent, List.mem_append, List.mem_map, List.mem_filter,
      List.mem_filterMap, id] at hitem
    rcases hitem with (hmain | hnav) | hlink
    · rcases hmain with ⟨h, _, rfl⟩ | hpar
      · simp [headingItem, ContentItem.type]
      · obtain ⟨p, j, _, rfl⟩ := mem_mapWithIndex _ _ _ _ hpar
        simp [paragraphItem, ContentItem.type]
    · obtain ⟨h, _, rfl⟩ := hnav
      simp [navigationItem, ContentItem.type]
    · obtain ⟨o, ho, rfl⟩ := hlink
      obtain ⟨l, j, _, hl⟩ := mem_mapWithIndex _ _ _ _ ho
      unfold linkItem at hl
      cases hlt : l.text with
      | none => simp [hlt] at hl
      | some text =>
        simp only [hlt] at hl
        split_ifs at hl
        simp only [Option.some.injEq] at hl
        subst hl
        simp [ContentItem.type]

end Structure

section Ingestion

open EmbeddingsService DataProcessor

theorem prepareText_navEntry (level : Int) (text : String) (id : Option String)
    (context : String) :
    prepareTextForEmbedding (.navEntry level text id context) = "Section Header undefined" := by
  rfl

theorem processItem_eq (provider : Provider) (calls : Nat) (projectId : Option String)
    (contentType : String) (i : Nat) (item : ContentItem) (processedAt : Int) :
    processItem provider calls projectId contentType i item processedAt =
      if jsLength (prepareTextForEmbedding item) < 20 then (.skipped, calls)
      else
        match generateEmbedding provider calls (some (prepareTextForEmbedding item)) with
        | (.ok embedding, calls1) =>
          (.embedded
            { id := shown projectId ++ "_" ++ contentType ++ "_" ++ toString i
              projectId := projectId
              contentType := contentType
              originalContent := item.content
              embeddingText := prepareTextForEmbedding item
              embedding := embedding
              metadata := item.metadata
              type := item.type
              processedAt := processedAt }, calls1)
        | (.error e, calls1) =>
          match item.content with
          | some content => (.failed ⟨contentType, i, jsPrefix content 100, e.message⟩, calls1)
          | none =>
            (.aborted (.typeError "Cannot read properties of undefined (reading substring)"),
              calls1) := by
  rfl

/-- C11: a failure on a unit of the `navigation` bucket aborts the run. The units of that
bucket have no `content`, so their embedding text is always "Section Header undefined", long
enough to be sent; when the provider fails on it, the `catch` block of line 175 itself throws
on `item.content.substring`, and `generateContentEmbeddings` throws instead of returning the
embeddings and errors: so it does on the document with an `h1` "Pricing" and an `h3` "FAQ". -/
theorem navigation_failure_aborts_run :
    (∀ (message : String) (calls : Nat) (projectId : Option String) (contentType : String)
        (i : Nat) (level : Int) (text : String) (id : Option String) (context : String)
        (processedAt : Int),
      processItem (fun _ _ => .error message) calls projectId contentType i
          (.navEntry level text id context) processedAt =
        (.aborted (.typeError "Cannot read properties of undefined (reading substring)"),
          calls + 1)) ∧
    (structureContent upperAscii pricingDocument).navigation =
      [.navEntry 1 "Pricing" none "Main section: Pricing"] ∧
    (generateContentEmbeddings providerDown clockZero 0
        (structureContent upperAscii pricingDocument) (some "p1")).1 =
      .error (.typeError "Cannot read properties of undefined (reading substring)") := by
  refine ⟨?_, by decide, by rfl⟩
  intro message calls projectId contentType i level text id context processedAt
  have h1 : ¬ jsLength "Section Header undefined" < 20 := by decide
  have h2 : 10 ≤ jsLength (preprocessText (some "Section Header undefined")) := by decide
  rw [processItem_eq, prepareText_navEntry, if_neg h1,
    generateEmbedding_of_long _ calls (some "Section Header undefined") h2]
  rfl

/-- C12: `processWebsiteForProject` throws on every document without headings, paragraphs,
lists and links, whatever the backend does: no embedding is produced, `storeMetadata` calls
`upsertVectors`, which throws the reference error of line 154 of `vectordb.js`, and the error
comes back wrapped twice. -/
theorem empty_document_ingestion_throws (toUpperCase : String → String)
    (scrapedData : ScrapedData) (provider : Provider) (clock : String → Nat → Int)
    (env : DbEnv) (db : VectorDatabase) (t : Nat) (stamps : StoreClock) (processedAt : Int)
    (url : String) (projectConfig : ProcessConfig) :
    (processWebsiteForProject toUpperCase
        (.ok { scrapedData with headings := [], paragraphs := [], lists := [], links := [] })
        provider clock env db t stamps processedAt url projectConfig).1 =
      .error (.error
        "Failed to process website: Failed to store metadata: formattedVectors is not defined") := by
  rfl

/-- C15 (amended): a unit whose prepared embedding text (`prepareTextForEmbedding`: the type
label and the content, normalized once) has length below 20 is skipped at line 155: the
provider is not called for it and the loop goes on as if the unit were not there, so it is in
neither list. A unit with content whose prepared text has length at least 20 but normalizes
again to a text of length below 10 is not sent to the provider either, but is recorded in
`errors` with the text-too-short message. -/
theorem short_units (provider : Provider) (clock : String → Nat → Int) (calls : Nat)
    (projectId : Option String) (contentType : String) (i : Nat) (item : ContentItem)
    (rest : List ContentItem) :
    (jsLength (prepareTextForEmbedding item) < 20 →
      processItem provider calls projectId contentType i item (clock contentType i) =
        (.skipped, calls) ∧
      bucketLoop provider clock projectId contentType (item :: rest) i calls =
        bucketLoop provider clock projectId contentType rest (i + 1) calls) ∧
    (20 ≤ jsLength (prepareTextForEmbedding item) →
      jsLength (preprocessText (some (prepareTextForEmbedding item))) < 10 →
      ∀ content, item.content = some content →
        processItem provider calls projectId contentType i item (clock contentType i) =
          (.failed ⟨contentType, i, jsPrefix content 100,
            "Failed to generate embedding: Text too short for embedding generation"⟩, calls)) := by
  constructor
  · intro hshort
    have hskip : processItem provider calls projectId contentType i item (clock contentType i) =
        (.skipped, calls) := by
      rw [processItem_eq, if_pos hshort]
    refine ⟨hskip, ?_⟩
    conv_lhs => unfold bucketLoop
    rw [hskip]
    simp only
    rcases bucketLoop provider clock projectId contentType rest (i + 1) calls with ⟨r, c⟩
    cases r <;> rfl
  · intro hlong hclean content hcontent
    have h1 : ¬ jsLength (prepareTextForEmbedding item) < 20 := by omega
    rw [processItem_eq, if_neg h1, generateEmbedding_of_short _ _ _ hclean]
    simp only [hcontent]
    rfl

theorem short_units_witness :
    (processItem providerUp 0 (some "p1") "mainContent" 1
        (.unit "heading" "FAQ" { level := some 3 }) 0 = (.skipped, 0)) ∧
    processItem providerUp 0 (some "p1") "mainContent" 0
        (.unit "paragraph" "@ @ @ @ @ @ @ @ @ @ @ @ @ x" { index := some 0 }) 0 =
      (.failed ⟨"mainContent", 0, "@ @ @ @ @ @ @ @ @ @ @ @ @ x",
        "Failed to generate embedding: Text too short for embedding generation"⟩, 0) :=
  ⟨((short_units providerUp clockZero 0 (some "p1") "mainContent" 1
      (.unit "heading" "FAQ" { level := some 3 }) []).1 (by decide)).1,
    (short_units providerUp clockZero 0 (some "p1") "mainContent" 0
      (.unit "paragraph" "@ @ @ @ @ @ @ @ @ @ @ @ @ x" { index := some 0 }) []).2
      (by decide) (by decide) _ rfl⟩

/-- C15, as stated, fails: the paragraph of `symbolsDocument` has a normalized text of length 9
("Content x", the text on which `generateEmbedding` applies its minimum), the provider is not
called, and yet the unit is in the returned `errors`, once per bucket that holds it. -/
theorem short_unit_is_errored :
    jsLength (preprocessText (some (prepareTextForEmbedding
      (.unit "paragraph" "@ @ @ @ @ @ @ @ @ @ @ @ @ x" { index := some 0 })))) = 9 ∧
    generateContentEmbeddings providerUp clockZero 0
        (structureContent upperAscii symbolsDocument) (some "p1") =
      (.ok ⟨[], [⟨"mainContent", 0, "@ @ @ @ @ @ @ @ @ @ @ @ @ x",
          "Failed to generate embedding: Text too short for embedding generation"⟩,
        ⟨"informational", 0, "@ @ @ @ @ @ @ @ @ @ @ @ @ x",
          "Failed to generate embedding: Text too short for embedding generation"⟩]⟩, 0) := by
  refine ⟨by decide, by rfl⟩

theorem generateEmbedding_contract_witness :
    generateEmbedding providerUp 3 (some "short") =
      (.error (.error "Failed to generate embedding: Text too short for embedding generation"),
        3) ∧
    generateEmbedding providerUp 3 (some "  long   enough, surely!  ") = (.ok [1, 0], 4) :=
  ⟨(generateEmbedding_contract providerUp 3 (some "short")).1 (by decide),
    (generateEmbedding_contract providerUp 3 (some "  long   enough, surely!  ")).2.1
      (by decide)⟩

theorem structureContent_headings_witness :
    (navigationItem ⟨1, "Pricing", none⟩ ∈ (structureContent upperAscii pricingDocument).navigation ↔
      (1 : Int) ≤ 2) ∧
    (navigationItem ⟨3, "FAQ", none⟩ ∈ (structureContent upperAscii pricingDocument).navigation ↔
      (3 : Int) ≤ 2) :=
  ⟨(structureContent_headings upperAscii pricingDocument).1 ⟨1, "Pricing", none⟩ (by decide),
    (structureContent_headings upperAscii pricingDocument).1 ⟨3, "FAQ", none⟩ (by decide)⟩

theorem structureContent_informational_witness :
    (structureContent upperAscii
        { emptyDocument with
          paragraphs := ["A paragraph that is long enough."]
          lists := [⟨"ul", ["Free", "Pro"]⟩] }).informational[1]? =
      some (.unit "list" "UL LIST: Free; Pro"
        { listType := some "ul", itemCount := some 2, index := some 0 }) :=
  (structureContent_informational upperAscii
    { emptyDocument with
      paragraphs := ["A paragraph that is long enough."]
      lists := [⟨"ul", ["Free", "Pro"]⟩] }).2.2.1 0 ⟨"ul", ["Free", "Pro"]⟩ rfl

end Ingestion

section Links

open DataProcessor

/-- The object that `structureContent` pushes to `interactive` for a link with visible text
`text` at position `j`. -/
theorem linkItem_some (link : Link) (j : Nat) (text : String) (htext : link.text = some text)
    (hlong : 3 < jsLength text) :
    linkItem link j = some (.unit "link" ("Link: " ++ text ++ " (" ++ link.url ++ ")")
      { url := some link.url, isInternal := some link.isInternal, index := some j }) := by
  unfold linkItem
  have hne : text ≠ "" := by
    intro h
    rw [h, jsLength_empty] at hlong
    omega
  simp only [htext]
  rw [if_pos ⟨hne, hlong⟩]

theorem linkItem_inv (link : Link) (j : Nat) (item : ContentItem)
    (h : linkItem link j = some item) :
    ∃ text, link.text = some text ∧ 3 < jsLength text ∧
      item = .unit "link" ("Link: " ++ text ++ " (" ++ link.url ++ ")")
        { url := some link.url, isInternal := some link.isInternal, index := some j } := by
  unfold linkItem at h
  cases htext : link.text with
  | none => simp [htext] at h
  | some text =>
    simp only [htext] at h
    split_ifs at h with hc
    simp only [Option.some.injEq] at h
    exact ⟨text, rfl, hc.2, h.symm⟩

/-- The loop over the links from position `i` on: what it pushes, and in which order. -/
theorem linkLoop_spec :
    ∀ (links : List Link) (i : Nat),
      (∀ (j : Nat) (link : Link) (text : String), links[j]? = some link →
        link.text = some text → 3 < jsLength text →
        ContentItem.unit "link" ("Link: " ++ text ++ " (" ++ link.url ++ ")")
          { url := some link.url, isInternal := some link.isInternal, index := some (i + j) } ∈
          (mapWithIndex linkItem links i).filterMap id) ∧
      (∀ item ∈ (mapWithIndex linkItem links i).filterMap id,
        ∃ (j : Nat) (link : Link) (text : String), links[j]? = some link ∧
          link.text = some text ∧ 3 < jsLength text ∧
          item = .unit "link" ("Link: " ++ text ++ " (" ++ link.url ++ ")")
            { url := some link.url, isInternal := some link.isInternal,
              index := some (i + j) }) ∧
      (((mapWithIndex linkItem links i).filterMap id).map
        (fun item => item.metadata.bind (fun m => m.index))).Pairwise
          (fun a b => ∃ x y, a = some x ∧ b = some y ∧ x < y) := by
  intro links
  induction links with
  | nil =>
    intro i
    simp [mapWithIndex]
  | cons l rest ih =>
    intro i
    obtain ⟨h1, h2, h3⟩ := ih (i + 1)
    have hstep : (mapWithIndex linkItem (l :: rest) i).filterMap id =
        (match linkItem l i with
          | some item => item :: (mapWithIndex linkItem rest (i + 1)).filterMap id
          | none => (mapWithIndex linkItem rest (i + 1)).filterMap id) := by
      simp only [mapWithIndex]
      cases linkItem l i <;> simp
    rw [hstep]
    refine ⟨?_, ?_, ?_⟩
    · intro j link text hj htext hlong
      cases j with
      | zero =>
        simp only [List.getElem?_cons_zero, Option.some.injEq] at hj
        subst hj
        rw [linkItem_some l i text htext hlong]
        simp
      | succ j =>
        simp only [List.getElem?_cons_succ] at hj
        have hm := h1 j link text hj htext hlong
        have hidx : i + (j + 1) = i + 1 + j := by omega
        rw [hidx]
        cases linkItem l i with
        | none => exact hm
        | some item => exact List.mem_cons_of_mem _ hm
    · intro item hitem
      have hrest : item ∈ (mapWithIndex linkItem rest (i + 1)).filterMap id →
          ∃ (j : Nat) (link : Link) (text : String), (l :: rest)[j]? = some link ∧
            link.text = some text ∧ 3 < jsLength text ∧
            item = .unit "link" ("Link: " ++ text ++ " (" ++ link.url ++ ")")
              { url := some link.url, isInternal := some link.isInternal,
                index := some (i + j) } := by
        intro hmem
        obtain ⟨j, link, text, hj, htext, hlong, heq⟩ := h2 item hmem
        refine ⟨j + 1, link, text, by simpa using hj, htext, hlong, ?_⟩
        have hidx : i + (j + 1) = i + 1 + j := by omega
        rw [hidx]
        exact heq
      cases hl : linkItem l i with
      | none =>
        rw [hl] at hitem
        exact hrest hitem
      | some first =>
        rw [hl] at hitem
        rcases List.mem_cons.mp hitem with rfl | hmem
        · obtain ⟨text, htext, hlong, heq⟩ := linkItem_inv l i item hl
          exact ⟨0, l, text, by simp, htext, hlong, by simpa using heq⟩
        · exact hrest hmem
    · cases hl : linkItem l i with
      | none => exact h3
      | some first =>
        simp only [List.map_cons, List.pairwise_cons]
        refine ⟨?_, h3⟩
        intro b hb
        obtain ⟨item, hitem, rfl⟩ := List.mem_map.mp hb
        obtain ⟨j, link, text, _, _, _, heq⟩ := h2 item hitem
        obtain ⟨text0, _, _, heq0⟩ := linkItem_inv l i first hl
        refine ⟨i, i + 1 + j, ?_, ?_, by omega⟩
        · rw [heq0]; rfl
        · rw [heq]; rfl

/-- C21: the `interactive` bucket of `structureContent` holds exactly the links whose visible
text has length above 3: each such link is there with its text, URL and original position,
every unit of the bucket comes from such a link, and the positions recorded are strictly
increasing, which is input order. No other bucket holds a unit of type link, so a link whose
text is missing or of length at most 3 is in no bucket. -/
theorem structureContent_interactive (toUpperCase : String → String)
    (scrapedData : ScrapedData) :
    (∀ (j : Nat) (link : Link) (text : String), scrapedData.links[j]? = some link →
      link.text = some text → 3 < jsLength text →
      ContentItem.unit "link" ("Link: " ++ text ++ " (" ++ link.url ++ ")")
        { url := some link.url, isInternal := some link.isInternal, index := some j } ∈
        (structureContent toUpperCase scrapedData).interactive) ∧
    (∀ item ∈ (structureContent toUpperCase scrapedData).interactive,
      ∃ (j : Nat) (link : Link) (text : String), scrapedData.links[j]? = some link ∧
        link.text = some text ∧ 3 < jsLength text ∧
        item = .unit "link" ("Link: " ++ text ++ " (" ++ link.url ++ ")")
          { url := some link.url, isInternal := some link.isInternal, index := some j }) ∧
    (((structureContent toUpperCase scrapedData).interactive.map
      (fun item => item.metadata.bind (fun m => m.index))).Pairwise
        (fun a b => ∃ x y, a = some x ∧ b = some y ∧ x < y)) ∧
    (∀ item ∈ (structureContent toUpperCase scrapedData).mainContent ++
        (structureContent toUpperCase scrapedData).navigation ++
        (structureContent toUpperCase scrapedData).informational, item.type ≠ "link") := by
  obtain ⟨h1, h2, h3⟩ := linkLoop_spec scrapedData.links 0
  refine ⟨?_, ?_, h3, ?_⟩
  · intro j link text hj htext hlong
    have := h1 j link text hj htext hlong
    rw [Nat.zero_add] at this
    exact this
  · intro item hitem
    obtain ⟨j, link, text, hj, htext, hlong, heq⟩ := h2 item hitem
    rw [Nat.zero_add] at heq
    exact ⟨j, link, text, hj, htext, hlong, heq⟩
  · intro item hitem
    simp only [structureContent, List.mem_append, List.mem_map, List.mem_filter] at hitem
    rcases hitem with (hmain | hnav) | hinfo
    · rcases hmain with ⟨h, _, rfl⟩ | hpar
      · simp [headingItem, ContentItem.type]
      · obtain ⟨p, j, _, rfl⟩ := mem_mapWithIndex _ _ _ _ hpar
        simp [paragraphItem, ContentItem.type]
    · obtain ⟨h, _, rfl⟩ := hnav
      simp [navigationItem, ContentItem.type]
    · rcases hinfo with hpar | hlist
      · obtain ⟨p, j, _, rfl⟩ := mem_mapWithIndex _ _ _ _ hpar
        simp [paragraphInfoItem, ContentItem.type]
      · obtain ⟨l, j, _, rfl⟩ := mem_mapWithIndex _ _ _ _ hlist
        simp [listItem, ContentItem.type]

theorem structureContent_interactive_witness :
    ContentItem.unit "link" "Link: Pricing (https://example.com/pricing)"
        { url := some "https://example.com/pricing", isInternal := some true, index := some 3 } ∈
      (structureContent upperAscii linksDocument).interactive ∧
    (structureContent upperAscii linksDocument).interactive.length = 2 :=
  ⟨(structureContent_interactive upperAscii linksDocument).1 3
      ⟨some "Pricing", "https://example.com/pricing", true⟩ "Pricing" rfl rfl (by decide),
    by decide⟩

end Links

/-! ## Theorems on ownership, patches and the usage log -/

section Ownership

open APIKeyService

/-- C22: when the token is known but owned by someone else, `updateAPIKey` returns null and
`deleteAPIKey` returns false, the registry (keys, usage logs, project bindings) is exactly as
before, and both results are those obtained for a token that is not registered. -/
theorem foreign_owner_like_missing (s : APIKeyService) (apiKey userId : String)
    (updates : List PatchEntry) (now : Int) :
    (∀ k, s.keys.get apiKey = some k → k.userId ≠ userId →
      updateAPIKey s apiKey userId updates now = (none, s) ∧
      deleteAPIKey s apiKey userId = (false, s)) ∧
    (s.keys.get apiKey = none →
      updateAPIKey s apiKey userId updates now = (none, s) ∧
      deleteAPIKey s apiKey userId = (false, s)) := by
  constructor
  · intro k hk hne
    constructor
    · unfold updateAPIKey
      simp only [hk]
      rw [if_pos hne]
    · unfold deleteAPIKey
      simp only [hk]
      rw [if_pos hne]
  · intro hnone
    constructor
    · unfold updateAPIKey
      simp only [hnone]
    · unfold deleteAPIKey
      simp only [hnone]

theorem foreign_owner_like_missing_witness :
    (updateAPIKey ownersRegistry "ai_assist_a1" "bob" [.isActive false] 20 =
        (none, ownersRegistry) ∧
      deleteAPIKey ownersRegistry "ai_assist_a1" "bob" = (false, ownersRegistry)) ∧
    (updateAPIKey ownersRegistry "ai_assist_zz" "bob" [.isActive false] 20 =
        (none, ownersRegistry) ∧
      deleteAPIKey ownersRegistry "ai_assist_zz" "bob" = (false, ownersRegistry)) :=
  ⟨(foreign_owner_like_missing ownersRegistry "ai_assist_a1" "bob" [.isActive false] 20).1
      (createAPIKey APIKeyService.new { name := some "first", userId := some "ann" }
        "a1" "id-1" 5 5).1 (by rfl) (by decide),
    (foreign_owner_like_missing ownersRegistry "ai_assist_zz" "bob" [.isActive false] 20).2
      (by rfl)⟩

theorem JsMap.keys_set_of_get {κ α : Type} [DecidableEq κ] (m : JsMap κ α) (k : κ) (v v0 : α)
    (hget : m.get k = some v0) : (m.set k v).map Prod.fst = m.map Prod.fst := by
  induction m with
  | nil => simp [JsMap.get] at hget
  | cons e rest ih =>
    obtain ⟨k1, v1⟩ := e
    by_cases h : k1 = k
    · simp [JsMap.set, h]
    · simp only [JsMap.get, h, if_false] at hget
      simp [JsMap.set, h, ih hget]

theorem assign_frozen (e : PatchEntry) (k : KeyData) :
    frozenFields (e.assign k) = frozenFields k := by
  cases e <;> rfl

theorem patch_frozen (updates : List PatchEntry) :
    ∀ k : KeyData,
      frozenFields (updates.foldl
        (fun acc e => if allowedUpdates.contains e.field then e.assign acc else acc) k) =
        frozenFields k := by
  induction updates with
  | nil => intro k; rfl
  | cons e rest ih =>
    intro k
    simp only [List.foldl_cons]
    rw [ih]
    split_ifs
    · exact assign_frozen e k
    · rfl

/-- C23: whatever entries the patch holds, an `updateAPIKey` by the owner returns a record
registered under the same token whose token, id, owner, project binding (id, name, URL),
creation time, last-used time and usage counters are those of the old record; the set and
order of registered tokens, the usage logs and the project bindings are unchanged. The fields
outside that list are `name`, `description`, `isActive`, `rateLimit`, `features`, `metadata`
and `updatedAt`, which is set to the time of the call. -/
theorem updateAPIKey_frame (s : APIKeyService) (apiKey userId : String)
    (updates : List PatchEntry) (now : Int) (k : KeyData)
    (hk : s.keys.get apiKey = some k) (hown : k.userId = userId) :
    ∃ k1, (updateAPIKey s apiKey userId updates now).1 = some k1 ∧
      (updateAPIKey s apiKey userId updates now).2.keys.get apiKey = some k1 ∧
      frozenFields k1 = frozenFields k ∧
      k1.updatedAt = some now ∧
      (updateAPIKey s apiKey userId updates now).2.keys.map Prod.fst = s.keys.map Prod.fst ∧
      (∀ other, other ≠ apiKey →
        (updateAPIKey s apiKey userId updates now).2.keys.get other = s.keys.get other) ∧
      (updateAPIKey s apiKey userId updates now).2.usage = s.usage ∧
      (updateAPIKey s apiKey userId updates now).2.projects = s.projects := by
  have hnot : ¬ k.userId ≠ userId := fun h => h hown
  have heq : updateAPIKey s apiKey userId updates now =
      (some { (updates.foldl
          (fun acc e => if allowedUpdates.contains e.field then e.assign acc else acc) k) with
          updatedAt := some now },
        { s with keys := (s.keys.set apiKey
          { (updates.foldl
            (fun acc e => if allowedUpdates.contains e.field then e.assign acc else acc) k) with
            updatedAt := some now }) }) := by
    unfold updateAPIKey
    simp only [hk]
    rw [if_neg hnot]
  rw [heq]
  refine ⟨_, rfl, JsMap.get_set_self _ _ _, ?_, rfl, JsMap.keys_set_of_get _ _ _ k hk, ?_, rfl,
    rfl⟩
  · exact patch_frozen updates k
  · intro other hne
    exact JsMap.get_set_of_ne _ _ _ _ hne

theorem updateAPIKey_frame_witness :
    ∃ k1, (updateAPIKey freshRegistry "ai_assist_ab" "anonymous"
        [.other "key" "stolen" (by decide), .other "usage" "0" (by decide), .rateLimit 9,
          .other "userId" "mallory" (by decide)] 50).1 = some k1 ∧
      k1.key = "ai_assist_ab" ∧ k1.userId = "anonymous" ∧ k1.usage = freshKey.usage ∧
      k1.rateLimit = 9 := by
  obtain ⟨k1, h1, _, h3, _⟩ := updateAPIKey_frame freshRegistry "ai_assist_ab" "anonymous"
    [.other "key" "stolen" (by decide), .other "usage" "0" (by decide), .rateLimit 9,
      .other "userId" "mallory" (by decide)] 50 freshKey (by rfl) (by rfl)
  refine ⟨k1, h1, ?_, ?_, ?_, ?_⟩
  · exact congrArg (fun t => t.1) h3
  · exact congrArg (fun t => t.2.2.1) h3
  · exact congrArg (fun t => t.2.2.2.2.2.2.2.2) h3
  · have h : (updateAPIKey freshRegistry "ai_assist_ab" "anonymous"
        [.other "key" "stolen" (by decide), .other "usage" "0" (by decide), .rateLimit 9,
          .other "userId" "mallory" (by decide)] 50).1.map (fun r => r.rateLimit) = some 9 := by
      rfl
    rw [h1] at h
    simpa using h

theorem recordUsage_log (s : APIKeyService) (apiKey : String) (call : UsageCall) (k : KeyData)
    (hk : s.keys.get apiKey = some k) :
    logOf (recordUsage s apiKey call.endpoint call.metadata call.usedAt call.stampedAt) apiKey =
        (logOf s apiKey ++ [recordOf k.projectId call]).drop
          ((logOf s apiKey).length + 1 - 1000) ∧
      ∃ k1, (recordUsage s apiKey call.endpoint call.metadata call.usedAt
          call.stampedAt).keys.get apiKey = some k1 ∧ k1.projectId = k.projectId := by
  have hrec : recordUsage s apiKey call.endpoint call.metadata call.usedAt call.stampedAt =
      { s with
        usage := s.usage.set apiKey (pushUsage ((s.usage.get apiKey).getD [])
          ⟨call.stampedAt, call.endpoint, call.metadata,
            (bumpUsage k call.endpoint call.usedAt).projectId,
            extractFeatureFromEndpoint call.endpoint⟩)
        keys := s.keys.set apiKey (bumpUsage k call.endpoint call.usedAt) } := by
    simp [recordUsage, hk]
  rw [hrec]
  refine ⟨?_, _, JsMap.get_set_self _ _ _, rfl⟩
  unfold logOf
  simp only [JsMap.get_set_self, Option.getD_some]
  rw [pushUsage_eq]
  rfl

theorem recordAll_log (apiKey : String) :
    ∀ (calls : List UsageCall) (s : APIKeyService) (k : KeyData),
      s.keys.get apiKey = some k → (logOf s apiKey).length ≤ 1000 →
      logOf (recordAll apiKey s calls) apiKey =
        (logOf s apiKey ++ calls.map (recordOf k.projectId)).drop
          ((logOf s apiKey).length + calls.length - 1000) := by
  intro calls
  induction calls with
  | nil =>
    intro s k _ hlen
    have h0 : (logOf s apiKey).length + ([] : List UsageCall).length - 1000 = 0 := by
      simp only [List.length_nil]
      omega
    simp only [recordAll, List.map_nil, List.append_nil, h0, List.drop_zero]
  | cons call rest ih =>
    intro s k hk hlen
    obtain ⟨hlog, k1, hk1, hproj⟩ := recordUsage_log s apiKey call k hk
    simp only [recordAll]
    have hlen1 : (logOf (recordUsage s apiKey call.endpoint call.metadata call.usedAt
        call.stampedAt) apiKey).length ≤ 1000 := by
      rw [hlog, List.length_drop, List.length_append, List.length_singleton]
      omega
    rw [ih _ k1 hk1 hlen1, hproj, hlog]
    have ha : (logOf s apiKey).length + 1 - 1000 ≤ (logOf s apiKey ++ [recordOf k.projectId call]).length := by
      rw [List.length_append, List.length_singleton]
      omega
    rw [← List.drop_append_of_le_length ha, List.drop_drop, List.length_drop,
      List.length_append, List.length_singleton, List.append_assoc, List.singleton_append,
      List.map_cons, List.length_cons]
    have hn : (logOf s apiKey).length + 1 - 1000 +
        ((logOf s apiKey).length + 1 - ((logOf s apiKey).length + 1 - 1000) + rest.length - 1000) =
        (logOf s apiKey).length + (rest.length + 1) - 1000 := by
      omega
    rw [hn]

/-- C25: after `n` `recordUsage` calls on a registered key whose log was empty, the log of the
key is the last `min(n, 1000)` records pushed, in the order of the calls: its length is
`min(n, 1000)` and the oldest records are the ones dropped. -/
theorem usage_log_window (s : APIKeyService) (apiKey : String) (k : KeyData)
    (calls : List UsageCall) (hk : s.keys.get apiKey = some k) (hempty : logOf s apiKey = []) :
    logOf (recordAll apiKey s calls) apiKey =
      (calls.map (recordOf k.projectId)).drop (calls.length - 1000) ∧
    (logOf (recordAll apiKey s calls) apiKey).length = min calls.length 1000 := by
  have h := recordAll_log apiKey calls s k hk (by rw [hempty]; simp)
  rw [hempty] at h
  simp only [List.nil_append, List.length_nil, Nat.zero_add] at h
  refine ⟨h, ?_⟩
  rw [h, List.length_drop, List.length_map]
  omega

theorem usage_log_window_witness :
    (logOf (recordAll "ai_assist_ab" freshRegistry fortyCalls) "ai_assist_ab").length = 40 := by
  have h := (usage_log_window freshRegistry "ai_assist_ab" freshKey fortyCalls (by rfl)
    (by rfl)).2
  rw [h]
  decide

end Ownership

/-! ## Theorems on the reachable states of the registry -/

section Reachable

open APIKeyService

theorem JsMap.get_delete {κ α : Type} [DecidableEq κ] (m : JsMap κ α) (k k2 : κ) :
    (m.delete k).get k2 = if k2 = k then none else m.get k2 := by
  induction m with
  | nil => simp [JsMap.delete, JsMap.get]
  | cons e rest ih =>
    obtain ⟨k1, v1⟩ := e
    have ih1 := ih
    simp only [JsMap.delete, ne_eq, decide_not] at ih1
    by_cases h : k1 = k
    · by_cases h2 : k2 = k
      · subst h2
        simp only [if_true] at ih1
        simp [JsMap.delete, JsMap.get, ih1, h]
      · have h3 : ¬ k = k2 := fun h => h2 h.symm
        simp [JsMap.delete, JsMap.get, ih1, h, h2, h3]
    · by_cases h2 : k1 = k2
      · have h3 : ¬ k2 = k := fun h4 => h (h2.trans h4)
        simp [JsMap.delete, JsMap.get, h, h2, h3]
      · simp [JsMap.delete, JsMap.get, h, h2, ih1]

theorem usageSound_set (s : APIKeyService) (apiKey : String) (k1 : KeyData)
    (log1 : List UsageRecord) (projects : JsMap (Option String) String) (hs : usageSound s)
    (h1 : usageOk k1.usage log1.length) :
    usageSound
      { keys := s.keys.set apiKey k1, usage := s.usage.set apiKey log1, projects := projects } := by
  intro tok k hk
  by_cases h : tok = apiKey
  · subst h
    rw [JsMap.get_set_self] at hk
    cases hk
    unfold logOf
    simp only [JsMap.get_set_self, Option.getD_some]
    exact h1
  · simp only [JsMap.get_set_of_ne _ _ _ _ h] at hk
    unfold logOf
    simp only [JsMap.get_set_of_ne _ _ _ _ h]
    exact hs tok k hk

theorem usageSound_setKey (s : APIKeyService) (apiKey : String) (k1 : KeyData)
    (hs : usageSound s) (h1 : usageOk k1.usage (logOf s apiKey).length) :
    usageSound { s with keys := s.keys.set apiKey k1 } := by
  intro tok k hk
  by_cases h : tok = apiKey
  · subst h
    simp only [JsMap.get_set_self] at hk
    cases hk
    exact h1
  · simp only [JsMap.get_set_of_ne _ _ _ _ h] at hk
    exact hs tok k hk

theorem usageOk_zero (resetAt : Int) : usageOk ⟨0, 0, resetAt, 0, 0, 0⟩ 0 := by
  simp [usageOk]

theorem usageOk_resetHour (k : KeyData) (now : Int) (n : Nat) (h : usageOk k.usage n) :
    usageOk (resetHour k now).usage n := by
  unfold resetHour
  simp only
  split_ifs
  · obtain ⟨_, _, h3, h4⟩ := h
    exact ⟨Nat.zero_le _, Nat.zero_le _, h3, h4⟩
  · exact h

theorem usageOk_bumpUsage (k : KeyData) (endpoint : String) (usedAt : Int) (n : Nat)
    (h : usageOk k.usage n) : usageOk (bumpUsage k endpoint usedAt).usage (n + 1) := by
  obtain ⟨_, h2, h3, h4⟩ := h
  unfold bumpUsage usageOk
  simp only
  split_ifs <;> simp only <;> omega

theorem pushUsage_length_le (old : List UsageRecord) (rec : UsageRecord) :
    (pushUsage old rec).length ≤ old.length + 1 := by
  unfold pushUsage
  simp only
  split_ifs
  · rw [List.length_drop, List.length_append, List.length_singleton]
    omega
  · rw [List.length_append, List.length_singleton]

theorem usageOk_mono (u : Usage) (n m : Nat) (hnm : m ≤ n) (h : usageOk u n) : usageOk u m :=
  ⟨h.1, h.2.1, h.2.2.1, le_trans hnm h.2.2.2⟩

theorem usageSound_applyOp (hostnameOf : String → Option String) (s : APIKeyService)
    (op : RegistryOp) (hs : usageSound s) : usageSound (applyOp hostnameOf s op) := by
  cases op with
  | generateKey cfg randomHex uuid createdAt resetAt =>
    simp only [applyOp, generateKey]
    cases hostnameOf cfg.url with
    | none => exact hs
    | some host => exact usageSound_set s _ _ [] _ hs (usageOk_zero resetAt)
  | createAPIKey options randomHex uuid createdAt resetAt =>
    simp only [applyOp, createAPIKey]
    exact usageSound_set s _ _ [] _ hs (usageOk_zero resetAt)
  | validateAPIKey apiKey requestOrigin now =>
    simp only [applyOp, validateAPIKey, registryAfter]
    cases hk : s.keys.get apiKey with
    | none => exact hs
    | some k =>
      simp only
      cases hd : domainCheck hostnameOf k requestOrigin with
      | error e => split_ifs <;> exact hs
      | ok b =>
        cases b with
        | false => split_ifs <;> exact hs
        | true =>
          simp only
          split_ifs
          · exact hs
          · exact usageSound_setKey s apiKey _ hs (usageOk_resetHour k now _ (hs apiKey k hk))
          · exact usageSound_setKey s apiKey _ hs (usageOk_resetHour k now _ (hs apiKey k hk))
  | recordUsage apiKey endpoint metadata usedAt stampedAt =>
    simp only [applyOp, recordUsage]
    cases hk : s.keys.get apiKey with
    | none => exact hs
    | some k =>
      exact usageSound_set s apiKey _ _ _ hs
        (usageOk_mono _ _ _ (pushUsage_length_le _ _)
          (usageOk_bumpUsage k endpoint usedAt _ (hs apiKey k hk)))
  | updateAPIKey apiKey userId updates now =>
    simp only [applyOp, updateAPIKey]
    cases hk : s.keys.get apiKey with
    | none => exact hs
    | some k =>
      simp only
      split_ifs
      · exact hs
      · refine usageSound_setKey s apiKey _ hs ?_
        have hf := congrArg (fun t => t.2.2.2.2.2.2.2.2) (patch_frozen updates k)
        simp only [frozenFields] at hf
        simp only [hf]
        exact hs apiKey k hk
  | updateAllowedDomains apiKey userId domains now =>
    simp only [applyOp, updateAllowedDomains]
    cases hk : s.keys.get apiKey with
    | none => exact hs
    | some k =>
      simp only
      split_ifs
      · exact hs
      · exact usageSound_setKey s apiKey _ hs (hs apiKey k hk)
  | deleteAPIKey apiKey userId =>
    simp only [applyOp, deleteAPIKey]
    cases hk : s.keys.get apiKey with
    | none => exact hs
    | some k =>
      simp only
      split_ifs
      · exact hs
      · intro tok k2 hk2
        simp only [JsMap.get_delete] at hk2
        by_cases h : tok = apiKey
        · simp [h] at hk2
        · simp only [h, if_false] at hk2
          unfold logOf
          simp only [JsMap.get_delete, h, if_false]
          exact hs tok k2 hk2

theorem usageSound_runOps (hostnameOf : String → Option String) :
    ∀ (ops : List RegistryOp) (s : APIKeyService), usageSound s →
      usageSound (runOps hostnameOf s ops) := by
  intro ops
  induction ops with
  | nil => intro s hs; exact hs
  | cons op rest ih =>
    intro s hs
    exact ih _ (usageSound_applyOp hostnameOf s op hs)

/-- C30: in every registry reached from the empty one through `generateKey`, `createAPIKey`,
`validateAPIKey`, `recordUsage`, `updateAPIKey`, `updateAllowedDomains` and `deleteAPIKey`
calls, every registered key has `0 ≤ requestsThisHour ≤ totalRequests`,
`explanationRequests + chatRequests + analyzeRequests ≤ totalRequests`, and a usage log of
length at most `totalRequests`. -/
theorem reachable_usage_sound (hostnameOf : String → Option String) (ops : List RegistryOp)
    (apiKey : String) (k : KeyData)
    (hk : (runOps hostnameOf APIKeyService.new ops).keys.get apiKey = some k) :
    0 ≤ k.usage.requestsThisHour ∧ k.usage.requestsThisHour ≤ k.usage.totalRequests ∧
      k.usage.explanationRequests + k.usage.chatRequests + k.usage.analyzeRequests ≤
        k.usage.totalRequests ∧
      (logOf (runOps hostnameOf APIKeyService.new ops) apiKey).length ≤
        k.usage.totalRequests := by
  have hnew : usageSound APIKeyService.new := by
    intro tok k0 h0
    simp [APIKeyService.new, JsMap.get] at h0
  exact usageSound_runOps hostnameOf ops APIKeyService.new hnew apiKey k hk

theorem reachable_usage_sound_witness :
    ∃ k, (runOps demoUrls APIKeyService.new busyOps).keys.get "learn_aa" = some k ∧
      k.usage.requestsThisHour = 1 ∧ k.usage.totalRequests = 2 ∧
      (logOf (runOps demoUrls APIKeyService.new busyOps) "learn_aa").length ≤
        k.usage.totalRequests :=
  ⟨_, rfl, rfl, rfl, (reachable_usage_sound demoUrls busyOps "learn_aa" _ rfl).2.2.2⟩

end Reachable

/-! ## Theorems on project bindings -/

section Bindings

open APIKeyService

theorem JsMap.filter_set_length {κ α : Type} [DecidableEq κ] (P : α → Bool) (m : JsMap κ α)
    (k : κ) (v : α) :
    ((JsMap.values (m.set k v)).filter P).length ≤
      ((JsMap.values m).filter P).length + (if P v then 1 else 0) := by
  induction m with
  | nil =>
    cases h : P v <;> simp [JsMap.values, JsMap.set, h]
  | cons e rest ih =>
    obtain ⟨k1, v1⟩ := e
    simp only [JsMap.values] at ih
    by_cases hk : k1 = k
    · cases h : P v <;> cases h1 : P v1 <;> simp [JsMap.values, JsMap.set, hk, h, h1]
    · cases h1 : P v1
      · simpa [JsMap.values, JsMap.set, hk, h1] using ih
      · simp only [JsMap.values, JsMap.set, hk, if_false, List.map_cons, List.filter_cons, h1,
          if_true, List.length_cons]
        omega

theorem JsMap.filter_set_length_of_get {κ α : Type} [DecidableEq κ] (P : α → Bool)
    (m : JsMap κ α) (k : κ) (v v0 : α) (hget : m.get k = some v0) (hP : P v = P v0) :
    ((JsMap.values (m.set k v)).filter P).length = ((JsMap.values m).filter P).length := by
  induction m with
  | nil => simp [JsMap.get] at hget
  | cons e rest ih =>
    obtain ⟨k1, v1⟩ := e
    by_cases hk : k1 = k
    · simp only [JsMap.get, hk, if_true, Option.some.injEq] at hget
      subst hget
      simp only [JsMap.values, JsMap.set, hk, if_true, List.map_cons, List.filter_cons, hP]
      split_ifs <;> simp only [List.length_cons]
    · simp only [JsMap.get, hk, if_false] at hget
      have ih1 := ih hget
      simp only [JsMap.values] at ih1
      simp only [JsMap.values, JsMap.set, hk, if_false, List.map_cons, List.filter_cons]
      split_ifs
      · simp only [List.length_cons, ih1]
      · exact ih1

theorem JsMap.filter_delete_length {κ α : Type} [DecidableEq κ] (P : α → Bool) (m : JsMap κ α)
    (k : κ) :
    ((JsMap.values (m.delete k)).filter P).length ≤ ((JsMap.values m).filter P).length := by
  induction m with
  | nil => simp [JsMap.values, JsMap.delete]
  | cons e rest ih =>
    obtain ⟨k1, v1⟩ := e
    simp only [JsMap.values, JsMap.delete] at ih
    simp only [JsMap.values, JsMap.delete, List.filter_cons, List.map_cons]
    by_cases hk : k1 = k
    · have hd : decide (k1 ≠ k) = false := by simp [hk]
      simp only [hd, Bool.false_eq_true, if_false]
      split_ifs
      · simp only [List.length_cons]
        omega
      · exact ih
    · have hd : decide (k1 ≠ k) = true := by simp [hk]
      simp only [hd, if_true, List.map_cons, List.filter_cons]
      split_ifs
      · simp only [List.length_cons]
        omega
      · exact ih

theorem boundTo_setKey (s : APIKeyService) (apiKey : String) (k0 k1 : KeyData)
    (usage : JsMap String (List UsageRecord)) (p : String)
    (hk : s.keys.get apiKey = some k0) (hproj : k1.projectId = k0.projectId) :
    (boundTo { s with keys := s.keys.set apiKey k1, usage := usage } p).length =
      (boundTo s p).length := by
  unfold boundTo
  exact JsMap.filter_set_length_of_get _ s.keys apiKey k1 k0 hk (by simp only [hproj])

theorem boundTo_applyOp (hostnameOf : String → Option String) (s : APIKeyService)
    (op : RegistryOp) (hs : ∀ p, (boundTo s p).length ≤ 1)
    (hfresh : match op with
      | .generateKey cfg _ _ _ _ => ∀ p, cfg.projectId = some p → boundTo s p = []
      | _ => True) :
    ∀ p, (boundTo (applyOp hostnameOf s op) p).length ≤ 1 := by
  intro p
  cases op with
  | generateKey cfg randomHex uuid createdAt resetAt =>
    simp only [applyOp, generateKey]
    cases hostnameOf cfg.url with
    | none => exact hs p
    | some host =>
      simp only
      unfold boundTo
      refine le_trans (JsMap.filter_set_length _ s.keys _ _) ?_
      simp only
      by_cases hp : cfg.projectId = some p
      · have h0 := hfresh p hp
        unfold boundTo at h0
        rw [h0]
        simp only [List.length_nil, Nat.zero_add]
        split_ifs <;> omega
      · have h1 := hs p
        unfold boundTo at h1
        simp only [hp, decide_False, Bool.false_eq_true, if_false, Nat.add_zero]
        exact h1
  | createAPIKey options randomHex uuid createdAt resetAt =>
    simp only [applyOp, createAPIKey]
    unfold boundTo
    refine le_trans (JsMap.filter_set_length _ s.keys _ _) ?_
    have h1 := hs p
    unfold boundTo at h1
    simpa using h1
  | validateAPIKey apiKey requestOrigin now =>
    simp only [applyOp, validateAPIKey, registryAfter]
    cases hk : s.keys.get apiKey with
    | none => exact hs p
    | some k =>
      simp only
      cases hd : domainCheck hostnameOf k requestOrigin with
      | error e => split_ifs <;> exact hs p
      | ok b =>
        cases b with
        | false => split_ifs <;> exact hs p
        | true =>
          have hset := boundTo_setKey s apiKey k (resetHour k now) s.usage p hk
            (by unfold resetHour; simp only; split_ifs <;> rfl)
          simp only
          split_ifs
          · exact hs p
          · exact hset ▸ hs p
          · exact hset ▸ hs p
  | recordUsage apiKey endpoint metadata usedAt stampedAt =>
    simp only [applyOp, recordUsage]
    cases hk : s.keys.get apiKey with
    | none => exact hs p
    | some k =>
      simp only
      have hset := boundTo_setKey s apiKey k (bumpUsage k endpoint usedAt)
        (s.usage.set apiKey (pushUsage ((s.usage.get apiKey).getD [])
          ⟨stampedAt, endpoint, metadata, (bumpUsage k endpoint usedAt).projectId,
            extractFeatureFromEndpoint endpoint⟩)) p hk rfl
      exact hset ▸ hs p
  | updateAPIKey apiKey userId updates now =>
    simp only [applyOp, updateAPIKey]
    cases hk : s.keys.get apiKey with
    | none => exact hs p
    | some k =>
      simp only
      split_ifs
      · exact hs p
      · have hf := congrArg (fun t => t.2.2.2.1) (patch_frozen updates k)
        simp only [frozenFields] at hf
        have hset := boundTo_setKey s apiKey k
          { (updates.foldl
            (fun acc e => if allowedUpdates.contains e.field then e.assign acc else acc) k) with
            updatedAt := some now } s.usage p hk hf
        exact hset ▸ hs p
  | updateAllowedDomains apiKey userId domains now =>
    simp only [applyOp, updateAllowedDomains]
    cases hk : s.keys.get apiKey with
    | none => exact hs p
    | some k =>
      simp only
      split_ifs
      · exact hs p
      · have hset := boundTo_setKey s apiKey k
          { k with
            metadata := { k.metadata with allowedDomains := domains }
            updatedAt := some now } s.usage p hk rfl
        exact hset ▸ hs p
  | deleteAPIKey apiKey userId =>
    simp only [applyOp, deleteAPIKey]
    cases hk : s.keys.get apiKey with
    | none => exact hs p
    | some k =>
      simp only
      split_ifs
      · exact hs p
      · unfold boundTo
        refine le_trans (JsMap.filter_delete_length _ s.keys apiKey) ?_
        exact hs p

theorem boundTo_runOps (hostnameOf : String → Option String) :
    ∀ (ops : List RegistryOp) (s : APIKeyService), (∀ p, (boundTo s p).length ≤ 1) →
      issuesFresh hostnameOf s ops → ∀ p, (boundTo (runOps hostnameOf s ops) p).length ≤ 1 := by
  intro ops
  induction ops with
  | nil => intro s hs _; exact hs
  | cons op rest ih =>
    intro s hs hfresh
    exact ih _ (boundTo_applyOp hostnameOf s op hs hfresh.1) hfresh.2

/-- C24: two `generateKey` calls for the same project leave two registered, active keys bound
to it; the project map points to the second one. -/
theorem reissue_leaves_two_live_keys :
    (boundTo reissuedRegistry "p1").map (fun k => (k.key, k.isActive)) =
        [("learn_aa", true), ("learn_bb", true)] ∧
      reissuedRegistry.projects = [(some "p1", "learn_bb")] := by
  constructor <;> rfl

/-- C24 (amended): in every registry reached from the empty one through `generateKey`,
`createAPIKey`, `validateAPIKey`, `recordUsage`, `updateAPIKey`, `updateAllowedDomains` and
`deleteAPIKey` calls in which every `generateKey` is for a project that has no registered key
at the time of the call, at most one registered key, active or not, is bound to any project
id. -/
theorem one_key_per_project_when_fresh (hostnameOf : String → Option String)
    (ops : List RegistryOp) (hfresh : issuesFresh hostnameOf APIKeyService.new ops)
    (p : String) : (boundTo (runOps hostnameOf APIKeyService.new ops) p).length ≤ 1 :=
  boundTo_runOps hostnameOf ops APIKeyService.new (fun _ => Nat.zero_le 1) hfresh p

theorem one_key_per_project_when_fresh_witness :
    issuesFresh demoUrls APIKeyService.new busyOps ∧
      (boundTo (runOps demoUrls APIKeyService.new busyOps) "p1").length ≤ 1 := by
  have hfresh : issuesFresh demoUrls APIKeyService.new busyOps := by
    refine ⟨?_, trivial, trivial, trivial, trivial, ?_, trivial, trivial, trivial, trivial⟩
    · intro p hp
      cases hp
      rfl
    · intro p hp
      cases hp
      rfl
  exact ⟨hfresh, one_key_per_project_when_fresh demoUrls busyOps hfresh "p1"⟩

end Bindings

/-! ## Theorems on `listAPIKeys` -/

section Listing

open APIKeyService

/-- C28: the array returned by `listAPIKeys` is a rearrangement of the listing entries of the
registered records whose owner is the given one, one entry per such record; every entry has
that owner; and the entries are in order of non-increasing creation time (newest first). -/
theorem listAPIKeys_owner_newest_first (s : APIKeyService) (userId : String) :
    List.Perm (listAPIKeys s userId)
        (((JsMap.values s.keys).filter (fun data => decide (data.userId = userId))).map
          listingOf) ∧
      (∀ entry ∈ listAPIKeys s userId, entry.data.userId = userId) ∧
      List.Sorted (fun a b => b.data.createdAt ≤ a.data.createdAt) (listAPIKeys s userId) := by
  refine ⟨List.perm_insertionSort _ _, ?_, ?_⟩
  · intro entry he
    have he1 := (List.perm_insertionSort _ _).mem_iff.mp he
    simp only [List.mem_map, List.mem_filter, decide_eq_true_eq] at he1
    obtain ⟨data, ⟨_, hown⟩, rfl⟩ := he1
    exact hown
  · haveI : IsTotal KeyListing (fun a b => b.data.createdAt ≤ a.data.createdAt) :=
      ⟨fun a b => le_total _ _⟩
    haveI : IsTrans KeyListing (fun a b => b.data.createdAt ≤ a.data.createdAt) :=
      ⟨fun a b c hab hbc => le_trans hbc hab⟩
    exact List.sorted_insertionSort _ _

theorem listAPIKeys_owner_newest_first_witness :
    (listAPIKeys ownersRegistry "ann").map (fun entry => (entry.data.name, entry.data.createdAt)) =
        [(some "second", 9), (some "first", 5)] ∧
      ∀ entry ∈ listAPIKeys ownersRegistry "ann", entry.data.userId = "ann" :=
  ⟨by rfl, (listAPIKeys_owner_newest_first ownersRegistry "ann").2.1⟩

end Listing

/-! ## Theorems on `src/lib/middleware.js` -/

section Middleware

open APIKeyService

theorem domainCheck_none (hostnameOf : String → Option String) (k : KeyData) :
    domainCheck hostnameOf k none = .ok true := rfl

theorem validateAPIKey_none_active (hostnameOf : String → Option String) (s : APIKeyService)
    (apiKey : String) (now : Int) (k : KeyData) (hk : s.keys.get apiKey = some k)
    (hactive : k.isActive = true) :
    validateAPIKey hostnameOf s apiKey none now =
      if ((resetHour k now).usage.requestsThisHour : Int) ≥ (resetHour k now).rateLimit then
        .ok (.invalid "Rate limit exceeded", { s with keys := s.keys.set apiKey (resetHour k now) })
      else
        .ok (.valid (resetHour k now), { s with keys := s.keys.set apiKey (resetHour k now) }) := by
  unfold validateAPIKey
  simp only [hk, hactive, domainCheck_none]
  rfl

/-- C29: two requests that present the same key (the `x-api-key` header, else the
`authorization` header with "Bearer " removed) against the same registry at the same clock
reading get the same result from `authenticateAPIKey`, whatever their other headers; and an
active key under its rate limit is authenticated whatever its `allowedDomains` list and
whatever the origin of the request. -/
theorem authenticateAPIKey_origin_blind (hostnameOf : String → Option String)
    (s : APIKeyService) (now : Int) :
    (∀ r1 r2 : Request, presentedKey r1 = presentedKey r2 →
      authenticateAPIKey hostnameOf s r1 now = authenticateAPIKey hostnameOf s r2 now) ∧
    (∀ (request : Request) (apiKey : String) (k : KeyData),
      presentedKey request = some apiKey → apiKey ≠ "" → s.keys.get apiKey = some k →
      k.isActive = true →
      ((resetHour k now).usage.requestsThisHour : Int) < (resetHour k now).rateLimit →
      authenticateAPIKey hostnameOf s request now =
        .ok (.authenticated (resetHour k now) apiKey,
          { s with keys := s.keys.set apiKey (resetHour k now) })) := by
  constructor
  · intro r1 r2 hkey
    unfold authenticateAPIKey
    rw [hkey]
  · intro request apiKey k hpres hne hk hactive hlimit
    have hnot : ¬ ((resetHour k now).usage.requestsThisHour : Int) ≥ (resetHour k now).rateLimit :=
      not_le.mpr hlimit
    unfold authenticateAPIKey
    simp only [hpres, truthy, Option.getD_some, validateAPIKey_none_active hostnameOf s apiKey now k hk hactive,
      if_neg hnot]
    simp [hne]

theorem authenticateAPIKey_origin_blind_witness :
    authenticateAPIKey demoUrls projectRegistry foreignRequest 100 =
        authenticateAPIKey demoUrls projectRegistry bearerRequest 100 ∧
      (∃ k s1, authenticateAPIKey demoUrls projectRegistry foreignRequest 100 =
          .ok (.authenticated k "learn_cd", s1) ∧
        k.metadata.allowedDomains = some ["example.com"]) ∧
      validationOf (validateAPIKey demoUrls projectRegistry "learn_cd"
          (some "https://evilexample.com") 100) =
        .ok (.invalid "Domain not authorized for this API key") :=
  ⟨(authenticateAPIKey_origin_blind demoUrls projectRegistry 100).1 foreignRequest bearerRequest
      (by rfl),
    ⟨_, _, rfl, rfl⟩, by rfl⟩

theorem validateAPIKey_registry (hostnameOf : String → Option String) (s s1 : APIKeyService)
    (apiKey : String) (origin : Option String) (now : Int) (v : Validation)
    (hval : validateAPIKey hostnameOf s apiKey origin now = .ok (v, s1)) :
    s1 = s ∨ ∃ k, s.keys.get apiKey = some k ∧
      s1 = { s with keys := s.keys.set apiKey (resetHour k now) } := by
  unfold validateAPIKey at hval
  cases hk : s.keys.get apiKey with
  | none =>
    simp only [hk] at hval
    cases hval
    exact Or.inl rfl
  | some k =>
    simp only [hk] at hval
    cases hd : domainCheck hostnameOf k origin with
    | error e =>
      simp only [hd] at hval
      split_ifs at hval
      cases hval
      exact Or.inl rfl
    | ok b =>
      cases b with
      | false =>
        simp only [hd] at hval
        split_ifs at hval <;> cases hval <;> exact Or.inl rfl
      | true =>
        simp only [hd] at hval
        split_ifs at hval
        · cases hval
          exact Or.inl rfl
        · cases hval
          exact Or.inr ⟨k, rfl, rfl⟩
        · cases hval
          exact Or.inr ⟨k, rfl, rfl⟩

theorem billedCounters_resetHour (k : KeyData) (now : Int) :
    billedCounters (resetHour k now) = billedCounters k := by
  unfold resetHour
  simp only
  split_ifs <;> rfl

theorem validateAPIKey_usage_frame (hostnameOf : String → Option String) (s s1 : APIKeyService)
    (apiKey : String) (origin : Option String) (now : Int) (v : Validation)
    (hval : validateAPIKey hostnameOf s apiKey origin now = .ok (v, s1)) :
    s1.usage = s.usage ∧ s1.projects = s.projects ∧
      ∀ tok, (s1.keys.get tok).map billedCounters = (s.keys.get tok).map billedCounters := by
  rcases validateAPIKey_registry hostnameOf s s1 apiKey origin now v hval with h | ⟨k, hk, h⟩
  · subst h
    exact ⟨rfl, rfl, fun _ => rfl⟩
  · subst h
    refine ⟨rfl, rfl, ?_⟩
    intro tok
    by_cases ht : tok = apiKey
    · subst ht
      simp only [JsMap.get_set_self, hk, Option.map_some', billedCounters_resetHour]
    · simp only [JsMap.get_set_of_ne _ _ _ _ ht]

theorem validateAPIKey_none_returns (hostnameOf : String → Option String) (s : APIKeyService)
    (apiKey : String) (now : Int) :
    ∃ v s1, validateAPIKey hostnameOf s apiKey none now = .ok (v, s1) := by
  unfold validateAPIKey
  cases hk : s.keys.get apiKey with
  | none => exact ⟨_, _, rfl⟩
  | some k =>
    simp only [domainCheck_none]
    split_ifs
    · exact ⟨_, _, rfl⟩
    · exact ⟨_, _, rfl⟩
    · exact ⟨_, _, rfl⟩

/-- C27: a request that presents a registered, active key under its rate limit to a handler
wrapped with a required feature that the key does not have is answered 403; the wrapped
handler is not run and the key's counters and log stay as they were. -/
theorem feature_refusal_is_not_billed :
    (∃ k, validationOf (validateAPIKey demoUrls projectRegistry "learn_cd" none 100) =
      .ok (.valid k)) ∧
    (createAuthenticatedHandler demoUrls demoPaths handlerOk (some "scraping") projectRegistry
        foreignRequest 100 101 102).response =
      .failure 403 "Feature 'scraping' not available for this API key" ∧
    (createAuthenticatedHandler demoUrls demoPaths handlerOk (some "scraping") projectRegistry
        foreignRequest 100 101 102).handlerRan = false ∧
    (createAuthenticatedHandler demoUrls demoPaths handlerOk (some "scraping") projectRegistry
        foreignRequest 100 101 102).registry = projectRegistry :=
  ⟨⟨_, rfl⟩, by rfl, by rfl, by rfl⟩

/-- C27 (amended): the function built by `createAuthenticatedHandler` answers 401 and leaves
the registry untouched when no key is presented. Otherwise `validateAPIKey` is called without
origin and returns; it leaves every usage log, the project map and the total and feature
counters of every key as they were (it may reset the hourly window of the presented key).
When it rejects the key (403), when the key lacks the required feature (403) and when the
request URL does not parse (500), the wrapped handler is not run and the registry is the one
the validation left. In the remaining case `recordUsage` is called once on that registry for
the presented key, with the path of the request, and the wrapped handler is then run on
the record so updated: its response is returned, or 500 when it throws. -/
theorem createAuthenticatedHandler_billing (hostnameOf pathnameOf : String → Option String)
    (handler : Handler) (requiredFeature : Option String) (s : APIKeyService)
    (request : Request) (now usedAt stampedAt : Int) :
    (truthy (presentedKey request) = false →
      createAuthenticatedHandler hostnameOf pathnameOf handler requiredFeature s request now
          usedAt stampedAt = ⟨.failure 401 "API key required", s, false⟩) ∧
    (truthy (presentedKey request) = true →
      ∃ v s1, validateAPIKey hostnameOf s ((presentedKey request).getD "") none now =
          .ok (v, s1) ∧
        s1.usage = s.usage ∧ s1.projects = s.projects ∧
        (∀ tok, (s1.keys.get tok).map billedCounters = (s.keys.get tok).map billedCounters) ∧
        (∀ error, v = .invalid error →
          createAuthenticatedHandler hostnameOf pathnameOf handler requiredFeature s request now
              usedAt stampedAt = ⟨.failure 403 error, s1, false⟩) ∧
        (∀ keyData, v = .valid keyData →
          (∀ error, featureGate requiredFeature keyData = some error →
            createAuthenticatedHandler hostnameOf pathnameOf handler requiredFeature s request
                now usedAt stampedAt = ⟨.failure 403 error, s1, false⟩) ∧
          (featureGate requiredFeature keyData = none → pathnameOf request.url = none →
            createAuthenticatedHandler hostnameOf pathnameOf handler requiredFeature s request
                now usedAt stampedAt = ⟨.failure 500 "Internal server error", s1, false⟩) ∧
          (featureGate requiredFeature keyData = none →
            ∀ pathname, pathnameOf request.url = some pathname →
              (createAuthenticatedHandler hostnameOf pathnameOf handler requiredFeature s request
                  now usedAt stampedAt).registry =
                recordUsage s1 ((presentedKey request).getD "") pathname (usageMetadata request)
                  usedAt stampedAt ∧
              (createAuthenticatedHandler hostnameOf pathnameOf handler requiredFeature s request
                  now usedAt stampedAt).handlerRan = true ∧
              (createAuthenticatedHandler hostnameOf pathnameOf handler requiredFeature s request
                  now usedAt stampedAt).response =
                match handler request (bumpUsage keyData pathname usedAt)
                  ((presentedKey request).getD "") with
                | .ok (status, body) => .handled status body
                | .error _ => .failure 500 "Internal server error"))) := by
  constructor
  · intro hno
    unfold createAuthenticatedHandler authenticateAPIKey
    simp only [hno, Bool.not_false, if_true]
  · intro hyes
    obtain ⟨v, s1, hval⟩ :=
      validateAPIKey_none_returns hostnameOf s ((presentedKey request).getD "") now
    obtain ⟨hu, hp, hc⟩ := validateAPIKey_usage_frame hostnameOf s s1 _ none now v hval
    refine ⟨v, s1, hval, hu, hp, hc, ?_, ?_⟩
    · intro error hv
      subst hv
      unfold createAuthenticatedHandler authenticateAPIKey
      simp only [hyes, Bool.not_true, Bool.false_eq_true, if_false, hval]
    · intro keyData hv
      subst hv
      refine ⟨?_, ?_, ?_⟩
      · intro error hgate
        unfold createAuthenticatedHandler authenticateAPIKey
        simp only [hyes, Bool.not_true, Bool.false_eq_true, if_false, hval, hgate]
      · intro hgate hpath
        unfold createAuthenticatedHandler authenticateAPIKey
        simp only [hyes, Bool.not_true, Bool.false_eq_true, if_false, hval, hgate, hpath]
      · intro hgate pathname hpath
        unfold createAuthenticatedHandler authenticateAPIKey
        simp only [hyes, Bool.not_true, Bool.false_eq_true, if_false, hval, hgate, hpath]
        cases handler request (bumpUsage keyData pathname usedAt)
          ((presentedKey request).getD "") with
        | error e => exact ⟨rfl, rfl, rfl⟩
        | ok r => exact ⟨rfl, rfl, rfl⟩

theorem createAuthenticatedHandler_billing_witness :
    (createAuthenticatedHandler demoUrls demoPaths handlerThrows (some "chat") projectRegistry
        bearerRequest 100 101 102).handlerRan = true ∧
      (createAuthenticatedHandler demoUrls demoPaths handlerThrows (some "chat") projectRegistry
        bearerRequest 100 101 102).response = .failure 500 "Internal server error" ∧
      (createAuthenticatedHandler demoUrls demoPaths handlerThrows (some "chat") projectRegistry
        bearerRequest 100 101 102).registry =
          recordUsage projectRegistry "learn_cd" "/api/chat" (usageMetadata bearerRequest)
            101 102 := by
  obtain ⟨v, s1, hval, _, _, _, _, hvalid⟩ :=
    (createAuthenticatedHandler_billing demoUrls demoPaths handlerThrows (some "chat")
      projectRegistry bearerRequest 100 101 102).2 (by rfl)
  have h0 : validateAPIKey demoUrls projectRegistry ((presentedKey bearerRequest).getD "") none
      100 = .ok (.valid projectKey, projectRegistry) := by
    rfl
  rw [h0] at hval
  cases hval
  obtain ⟨h1, h2, h3⟩ := (hvalid projectKey rfl).2.2 (by rfl) "/api/chat" (by rfl)
  exact ⟨h2, h3, h1⟩

end Middleware

/-! ## Theorems on the fragments of the chat and explain handlers -/

section Fragments

theorem scoreAboveHalf_mainMatch : scoreAboveHalf mainMatch = true := by
  simp only [scoreAboveHalf, mainMatch, decide_eq_true_eq]
  norm_num

theorem scoreAboveHalf_interactiveMatch : scoreAboveHalf interactiveMatch = true := by
  simp only [scoreAboveHalf, interactiveMatch, decide_eq_true_eq]
  norm_num

/-- C26: with a main content match of score 0.7 and an interactive match of score 0.9, the
fragment lists of the chat and of the explain handler carry the scores 0.7, 0.9 in that
order, which is increasing: the lists are not re-sorted by score. -/
theorem relevantContent_not_sorted :
    (chatRelevantContent [mainMatch] [interactiveMatch]).map (fun f => f.score) =
        [some (7 / 10), some (9 / 10)] ∧
      (explainRelevantContent [mainMatch] [interactiveMatch]).map (fun f => f.score) =
        [some (7 / 10), some (9 / 10)] ∧
      (7 / 10 : Rat) < 9 / 10 := by
  refine ⟨?_, ?_, by norm_num⟩
  · simp only [chatRelevantContent, List.singleton_append, List.filter_cons,
      scoreAboveHalf_mainMatch, scoreAboveHalf_interactiveMatch, if_true, List.filter_nil,
      List.map_cons, List.map_nil]
    rfl
  · simp only [explainRelevantContent, List.length_singleton, Nat.one_lt_ofNat, if_true,
      List.singleton_append, List.filter_cons,
      scoreAboveHalf_mainMatch, scoreAboveHalf_interactiveMatch, List.filter_nil,
      List.map_cons, List.map_nil]
    rfl

/-- C26 (amended): the fragment list of the chat handler is the main content matches of score
above 0.5 followed by the interactive matches of score above 0.5, each in the order its query
returned them; that of the explain handler is the same when the main content query returned
fewer than 2 matches, and the main content matches of score above 0.5 alone otherwise. Every
fragment carries the score of its match. -/
theorem relevantContent_concatenates (contentMatches interactiveMatches : List Match) :
    chatRelevantContent contentMatches interactiveMatches =
        (contentMatches.filter scoreAboveHalf).map chatFragment ++
          (interactiveMatches.filter scoreAboveHalf).map chatFragment ∧
      (contentMatches.length < 2 →
        explainRelevantContent contentMatches interactiveMatches =
          (contentMatches.filter scoreAboveHalf).map explainFragment ++
            (interactiveMatches.filter scoreAboveHalf).map explainFragment) ∧
      (2 ≤ contentMatches.length →
        explainRelevantContent contentMatches interactiveMatches =
          (contentMatches.filter scoreAboveHalf).map explainFragment) ∧
      (chatRelevantContent contentMatches interactiveMatches).map (fun f => f.score) =
        ((contentMatches ++ interactiveMatches).filter scoreAboveHalf).map
          (fun m => m.score) := by
  refine ⟨?_, ?_, ?_, ?_⟩
  · simp only [chatRelevantContent, List.filter_append, List.map_append]
  · intro hlt
    simp only [explainRelevantContent, hlt, if_true, List.filter_append, List.map_append]
  · intro hge
    have hnot : ¬ contentMatches.length < 2 := by omega
    simp only [explainRelevantContent, hnot, if_false]
  · simp only [chatRelevantContent, List.map_map]
    rfl

theorem relevantContent_concatenates_witness :
    explainRelevantContent [mainMatch] [interactiveMatch] =
      ([mainMatch].filter scoreAboveHalf).map explainFragment ++
        ([interactiveMatch].filter scoreAboveHalf).map explainFragment :=
  (relevantContent_concatenates [mainMatch] [interactiveMatch]).2.1 (by decide)

end Fragments

/-! ## Theorems on the reachable states of a `VectorDatabase` -/

section ReachableStore

theorem storeEmpty_initializeIndex (db : VectorDatabase) (outcome : InitOutcome)
    (h : storeEmpty db) : storeEmpty (db.initializeIndex outcome) := by
  unfold VectorDatabase.initializeIndex
  split_ifs
  · exact h
  · cases outcome with
    | ready => exact h
    | failedBeforeClient =>
      refine ⟨fun _ => ⟨_, rfl⟩, ?_⟩
      intro st hst
      cases hst
      rfl
    | failedAfterClient =>
      refine ⟨fun _ => ⟨_, rfl⟩, ?_⟩
      intro st hst
      cases hst
      rfl

theorem upsertVectors_registry (db : VectorDatabase) (outcome : InitOutcome)
    (write : Except String UpsertResult) (vectors : List VectorInput)
    (nameSpace : Option String) :
    (db.upsertVectors outcome write vectors nameSpace).2 = db.initializeIndex outcome := rfl

theorem queryVectors_registry (db : VectorDatabase) (outcome : InitOutcome)
    (response : Except String (Option (List Match))) (queryEmbedding : List Rat)
    (options : QueryOptions) :
    (db.queryVectors outcome response queryEmbedding options).2 = db.initializeIndex outcome := by
  unfold VectorDatabase.queryVectors
  simp only
  by_cases hf : (db.initializeIndex outcome).fallbackMode = true
  · simp only [hf, if_true]
    cases (db.initializeIndex outcome).store with
    | none => rfl
    | some st => cases options.threshold <;> rfl
  · simp only [hf, if_false]
    generalize (if (db.initializeIndex outcome).index = true then response
      else Except.error "Cannot read properties of null") = r
    cases r with
    | error m => rfl
    | ok reply => cases options.threshold <;> rfl

theorem foldl_delete_nil (ids : List String) :
    ids.foldl (fun (acc : JsMap String StoredVector) id => acc.delete id) [] = [] := by
  induction ids with
  | nil => rfl
  | cons id rest ih => exact ih

theorem sliceTo_nil {α : Type} (stop : Int) : sliceTo ([] : List α) stop = [] := by
  unfold sliceTo
  split_ifs <;> exact List.take_nil

theorem storeEmpty_applyDbOp (db : VectorDatabase) (op : DbOp) (h : storeEmpty db) :
    storeEmpty (applyDbOp db op) := by
  cases op with
  | initializeIndex outcome => exact storeEmpty_initializeIndex db outcome h
  | upsertVectors outcome write vectors nameSpace =>
    exact storeEmpty_initializeIndex db outcome h
  | queryVectors outcome response queryEmbedding options =>
    simp only [applyDbOp, queryVectors_registry]
    exact storeEmpty_initializeIndex db outcome h
  | deleteVectors outcome removal ids =>
    have hi := storeEmpty_initializeIndex db outcome h
    simp only [applyDbOp, VectorDatabase.deleteVectors]
    by_cases hf : (db.initializeIndex outcome).fallbackMode = true
    · simp only [hf, if_true]
      cases hst : (db.initializeIndex outcome).store with
      | none => exact hi
      | some st =>
        refine ⟨fun _ => ⟨_, rfl⟩, ?_⟩
        intro st1 hst1
        cases hst1
        simp only [InMemoryVectorStore.deleteVectors, hi.2 st hst]
        exact foldl_delete_nil ids
    · simp only [hf, if_false]
      generalize (if (db.initializeIndex outcome).index = true then removal
        else Except.error "Cannot read properties of null") = r
      cases r <;> exact hi
  | deleteByFilter outcome removal filterApiKey =>
    have hi := storeEmpty_initializeIndex db outcome h
    simp only [applyDbOp, VectorDatabase.deleteByFilter]
    by_cases hf : (db.initializeIndex outcome).fallbackMode = true
    · simp only [hf, if_true]
      cases hst : (db.initializeIndex outcome).store with
      | none => exact hi
      | some st =>
        refine ⟨fun _ => ⟨_, rfl⟩, ?_⟩
        intro st1 hst1
        cases hst1
        simp only [InMemoryVectorStore.deleteByFilter, hi.2 st hst, List.filter_nil]
    · simp only [hf, if_false]
      generalize (if (db.initializeIndex outcome).index = true then removal
        else Except.error "Cannot read properties of null") = r
      cases r <;> exact hi
  | getIndexStats outcome described =>
    have hi := storeEmpty_initializeIndex db outcome h
    simp only [applyDbOp, VectorDatabase.getIndexStats]
    by_cases hf : (db.initializeIndex outcome).fallbackMode = true
    · simp only [hf, if_true]
      cases (db.initializeIndex outcome).store <;> exact hi
    · simp only [hf, if_false]
      generalize (if (db.initializeIndex outcome).index = true then described
        else Except.error "Cannot read properties of null") = r
      cases r <;> exact hi
  | storeEmbeddings env t embeddings projectMetadata timestamp =>
    exact storeEmpty_initializeIndex _ _ (storeEmpty_initializeIndex db _ h)
  | storeMetadata env t projectId url name json nowMs timestamp =>
    exact storeEmpty_initializeIndex _ _ (storeEmpty_initializeIndex db _ h)

theorem storeEmpty_runDbOps :
    ∀ (ops : List DbOp) (db : VectorDatabase), storeEmpty db → storeEmpty (runDbOps db ops) := by
  intro ops
  induction ops with
  | nil => intro db h; exact h
  | cons op rest ih =>
    intro db h
    exact ih _ (storeEmpty_applyDbOp db op h)

theorem storeEmpty_new : storeEmpty VectorDatabase.new :=
  ⟨(fun h => by cases h), (fun st hst => by cases hst)⟩

theorem queryVectors_of_storeEmpty (db : VectorDatabase) (outcome : InitOutcome)
    (response : Except String (Option (List Match))) (queryEmbedding : List Rat)
    (options : QueryOptions) (h : storeEmpty db)
    (hfallback : (db.initializeIndex outcome).fallbackMode = true) :
    (db.queryVectors outcome response queryEmbedding options).1 = .ok [] := by
  have hi := storeEmpty_initializeIndex db outcome h
  obtain ⟨st, hst⟩ := hi.1 hfallback
  have hv := hi.2 st hst
  unfold VectorDatabase.queryVectors
  simp only [hfallback, if_true, hst, InMemoryVectorStore.queryVectors, hv, JsMap.values,
    List.map_nil, List.filter_nil, sliceTo_nil]
  split <;> rfl

/-- C6: the round trip fails at its first step. On every database reached from a new one by
any sequence of calls, `upsertVectors([v], ns)` throws the reference error of line 154 and
leaves the database as `initialize()` left it, whatever the vector: nothing is stored. When
the `queryVectors(v.embedding, options)` call that follows is answered in fallback mode, it
returns the empty list, so no match with the id of `v`. -/
theorem round_trip_breaks_at_upsert (ops : List DbOp) (outcome1 : InitOutcome)
    (write : Except String UpsertResult) (v : VectorInput) (ns : Option String)
    (outcome2 : InitOutcome) (response : Except String (Option (List Match)))
    (options : QueryOptions)
    (hfallback : (((runDbOps VectorDatabase.new ops).initializeIndex outcome1).initializeIndex
      outcome2).fallbackMode = true) :
    (runDbOps VectorDatabase.new ops).upsertVectors outcome1 write [v] ns =
        (.error (.referenceError "formattedVectors is not defined"),
          (runDbOps VectorDatabase.new ops).initializeIndex outcome1) ∧
      (((runDbOps VectorDatabase.new ops).upsertVectors outcome1 write [v] ns).2.queryVectors
        outcome2 response v.embedding options).1 = .ok [] ∧
      ∀ found,
        (((runDbOps VectorDatabase.new ops).upsertVectors outcome1 write [v] ns).2.queryVectors
          outcome2 response v.embedding options).1 = .ok found →
        ¬ ∃ m ∈ found, m.id = v.id := by
  have hq : (((runDbOps VectorDatabase.new ops).upsertVectors outcome1 write [v]
      ns).2.queryVectors outcome2 response v.embedding options).1 = .ok [] :=
    queryVectors_of_storeEmpty _ outcome2 response v.embedding options
      (storeEmpty_initializeIndex _ outcome1
        (storeEmpty_runDbOps ops VectorDatabase.new storeEmpty_new)) hfallback
  refine ⟨rfl, hq, ?_⟩
  intro found hfound
  rw [hq] at hfound
  cases hfound
  rintro ⟨m, hm, _⟩
  cases hm

theorem round_trip_breaks_at_upsert_witness :
    (VectorDatabase.new.upsertVectors .failedBeforeClient (.error "unreachable") [vectorV]
        (some "B_mainContent")).1 = .error (.referenceError "formattedVectors is not defined") ∧
      ((VectorDatabase.new.upsertVectors .failedBeforeClient (.error "unreachable") [vectorV]
        (some "B_mainContent")).2.queryVectors .failedBeforeClient (.error "unreachable")
          vectorV.embedding { topK := some 1, nameSpace := some "B_mainContent" }).1 = .ok [] :=
  ⟨congrArg Prod.fst
      (round_trip_breaks_at_upsert [] .failedBeforeClient (.error "unreachable") vectorV
        (some "B_mainContent") .failedBeforeClient (.error "unreachable")
        { topK := some 1, nameSpace := some "B_mainContent" } (by rfl)).1,
    (round_trip_breaks_at_upsert [] .failedBeforeClient (.error "unreachable") vectorV
      (some "B_mainContent") .failedBeforeClient (.error "unreachable")
      { topK := some 1, nameSpace := some "B_mainContent" } (by rfl)).2.1⟩

/-- C10: on every database reached from a new one by any sequence of calls, whatever vectors
and namespaces were passed to `upsertVectors`, `storeEmbeddings` and `storeMetadata`, no
upsert completes (each throws before the store or the backend is written), the fallback
store holds no vector, and a query answered in fallback mode, restricted to a namespace or
not, returns the empty list: it returns no vector upserted under another namespace. -/
theorem fallback_query_returns_no_foreign_vector (ops : List DbOp) (outcome : InitOutcome)
    (response : Except String (Option (List Match))) (queryEmbedding : List Rat)
    (options : QueryOptions)
    (hfallback : ((runDbOps VectorDatabase.new ops).initializeIndex outcome).fallbackMode =
      true) :
    (∀ (outcome1 : InitOutcome) (write : Except String UpsertResult)
        (vectors : List VectorInput) (nameSpace : Option String),
      ((runDbOps VectorDatabase.new ops).upsertVectors outcome1 write vectors nameSpace).1 =
        .error (.referenceError "formattedVectors is not defined")) ∧
      (∀ st, ((runDbOps VectorDatabase.new ops).initializeIndex outcome).store = some st →
        st.vectors = []) ∧
      ((runDbOps VectorDatabase.new ops).queryVectors outcome response queryEmbedding
        options).1 = .ok [] :=
  ⟨fun _ _ _ _ => rfl,
    (storeEmpty_initializeIndex _ outcome
      (storeEmpty_runDbOps ops VectorDatabase.new storeEmpty_new)).2,
    queryVectors_of_storeEmpty _ outcome response queryEmbedding options
      (storeEmpty_runDbOps ops VectorDatabase.new storeEmpty_new) hfallback⟩

theorem fallback_query_returns_no_foreign_vector_witness :
    ((runDbOps VectorDatabase.new projectBOps).initializeIndex .failedBeforeClient).fallbackMode =
        true ∧
      ((runDbOps VectorDatabase.new projectBOps).queryVectors .failedBeforeClient
        (.error "unreachable") [1, 0] { nameSpace := some "A_mainContent" }).1 = .ok [] :=
  ⟨by rfl,
    (fallback_query_returns_no_foreign_vector projectBOps .failedBeforeClient
      (.error "unreachable") [1, 0] { nameSpace := some "A_mainContent" } (by rfl)).2.2⟩

end ReachableStore

/-! ## The prefix cut on characters of one UTF-16 unit -/

section PrefixCut

open EmbeddingsService

theorem takeUnits_of_single : ∀ (n : Nat) (cs : List Char),
    (∀ c ∈ cs, unitsOf c = 1) → takeUnits n cs = cs.take n := by
  intro n cs
  induction cs generalizing n with
  | nil => intro _; simp [takeUnits]
  | cons c rest ih =>
    intro h
    have hc : unitsOf c = 1 := h c (List.mem_cons_self c rest)
    have hrest : ∀ d ∈ rest, unitsOf d = 1 := fun d hd => h d (List.mem_cons_of_mem c hd)
    unfold takeUnits
    rw [hc]
    cases n with
    | zero => simp
    | succ m =>
      have hm : 1 ≤ m + 1 := by omega
      rw [if_pos hm, List.take_succ_cons, ih (m + 1 - 1) hrest]
      rfl

theorem unitsOf_of_isKept (c : Char) (h : isKept c = true) : unitsOf c = 1 := by
  unfold unitsOf
  have hlt : ¬ c.toNat ≥ 65536 := by
    intro hge
    simp only [isKept, isWordChar, isJsSpace, Bool.or_eq_true, Bool.and_eq_true,
      decide_eq_true_eq, beq_iff_eq] at h
    omega
  rw [if_neg hlt]

/-- The cut of `preprocessText` is exact: the characters left by the replacements are single
UTF-16 units, so `substring(0, 8000)` keeps the first 8000 of them. -/
theorem preprocessText_cut (t : String) (ht : t ≠ "") :
    preprocessText (some t) =
      String.mk ((trimChars ((collapseSpaces false t.toList).filter isKept)).take 8000) := by
  unfold preprocessText
  simp only [ht, if_false]
  rw [takeUnits_of_single]
  intro c hc
  have h1 := mem_of_mem_trimChars c _ hc
  exact unitsOf_of_isKept c (List.mem_filter.mp h1).2

end PrefixCut

section RebuiltStore

/-- Lines 156 to 182 of `upsertVectors`, taken without the throw of line 154, store the vector
in the fallback store; the `initialize()` of the next call, failing again, replaces that store
by a new one, and the query finds nothing. -/
theorem rebuilt_store_loses_upsert :
    (((VectorDatabase.new.initializeIndex .failedBeforeClient).upsertVectorsBody
        (.error "unreachable") [vectorV] (some "B_mainContent")).2.store.map
      (fun st => st.vectors.map Prod.fst)) = some ["v"] ∧
    (((VectorDatabase.new.initializeIndex .failedBeforeClient).upsertVectorsBody
        (.error "unreachable") [vectorV] (some "B_mainContent")).2.queryVectors
      .failedBeforeClient (.error "unreachable") vectorV.embedding
        { topK := some 1, nameSpace := some "B_mainContent" }).1 = .ok [] := by
  constructor <;> rfl

end RebuiltStore

end LearnerFeature
